import Mathlib

/-
Verification of the LLVM code-generation core of weld (src/weld/llvm.rs).

The development shallowly embeds the stateful code generator: the
`LlvmGenerator` struct becomes explicit state records, `WeldResult` (the
fallible return type) becomes `Option` (error messages are not modelled),
and the append-only textual code buffers become lists of lines.  `HashMap`
and `HashSet` fields become association lists (insertion prepends, lookup
takes the newest binding, which matches `HashMap::insert` overwriting).
`BTreeMap` iteration order becomes an explicit insertion sort on symbols.
Code external to src/weld/llvm.rs (CodeBuilder, IdGenerator, the Symbol
type, WeldRuntimeErrno, and the resources/*.ll templates) is modelled from
the spec; each such definition carries a note.  Recursive generator
functions take an explicit fuel argument (the Rust recursion terminates
structurally on types / on the visited set; fuel makes the embedding
structurally recursive and hence executable).
-/

namespace Weld

/-- Scalar kinds of the IR (`ScalarKind` in ast.rs, per spec section 3.1). -/
inductive ScalarKind where
  | bool | i8 | i32 | i64 | f32 | f64
deriving DecidableEq, Repr

/-- Binary operators (`BinOpKind` in ast.rs; the set used by llvm.rs). -/
inductive BinOpKind where
  | add | subtract | multiply | divide
  | equal | notEqual
  | lessThan | lessThanOrEqual | greaterThan | greaterThanOrEqual
  | logicalAnd | bitwiseAnd | logicalOr | bitwiseOr | xor
deriving DecidableEq, Repr

/-- Iterator kinds (`IterKind` in sir.rs: ScalarIter, SimdIter, FringeIter). -/
inductive IterKind where
  | scalarIter | simdIter | fringeIter
deriving DecidableEq, Repr

/-- IR types (`Type` in ast.rs together with `BuilderKind`, flattened into a
single inductive: `Builder(bk, annotations)` becomes one constructor per
builder kind.  Annotations do not participate in type identity for
`llvm_type` (its builder map `bld_names` is keyed by `BuilderKind` alone),
so they are not part of this type; the one place they are read (the size
annotation in `gen_new_builder`) is outside the embedded subset. -/
inductive Ty where
  | scalar (k : ScalarKind)
  | simd (k : ScalarKind)
  | struct (fields : List Ty)
  | vector (elem : Ty)
  | dict (key value : Ty)
  | bldAppender (elem : Ty)
  | bldMerger (elem : Ty) (op : BinOpKind)
  | bldDictMerger (key value : Ty) (op : BinOpKind)
  | bldGroupMerger (key value : Ty)
  | bldVecMerger (elem : Ty) (op : BinOpKind)
deriving Repr

mutual

/-- Structural (boolean) equality on `Ty`, mirroring the derived `PartialEq`
of the Rust `Type`. -/
def tyBeq : Ty → Ty → Bool
  | .scalar k, .scalar k' => k = k'
  | .simd k, .simd k' => k = k'
  | .struct fs, .struct gs => tyListBeq fs gs
  | .vector t, .vector t' => tyBeq t t'
  | .dict k v, .dict k' v' => tyBeq k k' && tyBeq v v'
  | .bldAppender t, .bldAppender t' => tyBeq t t'
  | .bldMerger t op, .bldMerger t' op' => tyBeq t t' && op = op'
  | .bldDictMerger k v op, .bldDictMerger k' v' op' =>
      tyBeq k k' && tyBeq v v' && op = op'
  | .bldGroupMerger k v, .bldGroupMerger k' v' => tyBeq k k' && tyBeq v v'
  | .bldVecMerger t op, .bldVecMerger t' op' => tyBeq t t' && op = op'
  | _, _ => false

/-- Elementwise `tyBeq` on lists of types. -/
def tyListBeq : List Ty → List Ty → Bool
  | [], [] => true
  | f :: fs, g :: gs => tyBeq f g && tyListBeq fs gs
  | _, _ => false

end

mutual

/-- `tyBeq` decides equality. -/
def tyBeq_iff : (a b : Ty) → (tyBeq a b = true ↔ a = b)
  | .scalar _, b => by
    cases b <;> simp [tyBeq]
  | .simd _, b => by
    cases b <;> simp [tyBeq]
  | .struct fs, b => by
    cases b <;> simp [tyBeq]
    exact tyListBeq_iff fs _
  | .vector t, b => by
    cases b <;> simp [tyBeq]
    exact tyBeq_iff t _
  | .dict k v, b => by
    cases b <;> simp [tyBeq]
    rw [tyBeq_iff k _, tyBeq_iff v _]
  | .bldAppender t, b => by
    cases b <;> simp [tyBeq]
    exact tyBeq_iff t _
  | .bldMerger t _, b => by
    cases b <;> simp [tyBeq]
    rw [tyBeq_iff t _]; tauto
  | .bldDictMerger k v _, b => by
    cases b <;> simp [tyBeq]
    rw [tyBeq_iff k _, tyBeq_iff v _]; tauto
  | .bldGroupMerger k v, b => by
    cases b <;> simp [tyBeq]
    rw [tyBeq_iff k _, tyBeq_iff v _]
  | .bldVecMerger t _, b => by
    cases b <;> simp [tyBeq]
    rw [tyBeq_iff t _]; tauto

/-- `tyListBeq` decides equality of type lists. -/
def tyListBeq_iff : (as bs : List Ty) → (tyListBeq as bs = true ↔ as = bs)
  | [], [] => by simp [tyListBeq]
  | f :: fs, g :: gs => by
    simp [tyListBeq, tyBeq_iff f g, tyListBeq_iff fs gs]
  | [], _ :: _ => by simp [tyListBeq]
  | _ :: _, [] => by simp [tyListBeq]

end

instance : DecidableEq Ty := fun a b => decidable_of_iff _ (tyBeq_iff a b)

/-- Modelled from the spec: `Symbol` lives in ast.rs, which is not under
src/; per spec section 3.1 a symbol carries a name and a disambiguating id. -/
structure Sym where
  name : String
  id : Nat
deriving DecidableEq, Repr

/-- Lexicographic strict comparison of strings as character sequences
(executable replacement for the opaque `String` order; used to model the
`Ord` on symbol names that drives `BTreeMap` iteration). -/
def strLtB (a b : String) : Bool :=
  go a.data b.data
where
  go : List Char → List Char → Bool
  | [], [] => false
  | [], _ :: _ => true
  | _ :: _, [] => false
  | c :: cs, d :: ds =>
    if c.toNat < d.toNat then true
    else if c.toNat = d.toNat then go cs ds
    else false

/-- Modelled from the spec: the derived `Ord` on `Symbol` (ast.rs, not under
src/) compared by name and then by id; spec section 3.3 calls this the
ascending symbol order. -/
def symLeB (a b : Sym) : Bool :=
  strLtB a.name b.name || (a.name == b.name && a.id ≤ b.id)

/-- Association-list lookup; newest binding wins, so that prepending a pair
behaves like `HashMap::insert` (which overwrites). -/
def alookup {κ ν : Type} [DecidableEq κ] (k : κ) : List (κ × ν) → Option ν
  | [] => none
  | (k', v) :: t => if k = k' then some v else alookup k t

/-- Replace every `%` of `s` by `repl`: executable model of the
`str::replace(s, "%", repl)` calls in llvm.rs (the pattern is a single
character there, so flat substitution is exact). -/
def pctTo (repl : String) (s : String) : String :=
  ⟨s.data.flatMap (fun c => if c = '%' then repl.data else [c])⟩

/-- Kinds of generated function definitions.  The body buffer stores define
headers structurally (they render to the textual `define void @f<id>...`
header) so that definitions of a given SIR function can be counted. -/
inductive DefKind where
  | plain | wrapper | par
deriving DecidableEq, Repr

/-- One emitted line of LLVM text.  `define fid k args` renders as
`define void @f<id><suffix>(<args>) {`; every other line is kept verbatim
in `raw`. -/
inductive Line where
  | raw (s : String)
  | define (fid : Nat) (k : DefKind) (args : String)
deriving DecidableEq, Repr

/-- Render a define header's suffix. -/
def DefKind.suffix : DefKind → String
  | .plain => ""
  | .wrapper => "_wrapper"
  | .par => "_par"

/-- Render a line to module text (the buffers of 4.1 are append-only text;
this is the glue that turns the structured buffer back into that text). -/
def Line.render : Line → String
  | .raw s => s
  | .define fid k args =>
      "define void @f" ++ toString fid ++ k.suffix ++ "(" ++ args ++ ") \x7b"

/-- Modelled from the spec: `WeldRuntimeErrno` lives in weld_common, not
under src/.  Only the identities of the three errnos that llvm.rs mentions
matter to the claims, not their numeric discriminants, so the discriminants
are fixed arbitrarily but consistently. -/
inductive WeldRuntimeErrno where
  | success | badIteratorLength | unknown
deriving DecidableEq, Repr

/-- Modelled from the spec: the `as i64` discriminant of an errno. -/
def WeldRuntimeErrno.toI64 : WeldRuntimeErrno → Nat
  | .success => 0
  | .badIteratorLength => 1
  | .unknown => 2

/-- `vec_size` (llvm.rs line 2560): the SIMD lane count, 4 for every type. -/
def vecSize (_ : Ty) : Nat := 4

/-- Scalar type names (`llvm_type`, lines 771-776). -/
def scalarName : ScalarKind → String
  | .bool => "i1"
  | .i8 => "i8"
  | .i32 => "i32"
  | .i64 => "i64"
  | .f32 => "float"
  | .f64 => "double"

end Weld

namespace Weld

/-- `llvm_binop` (llvm.rs lines 2313-2454): the LLVM instruction name for a
binary operation at a type. -/
def llvmBinop : BinOpKind → Ty → Option String
  | .add, .scalar .i8 => some ("add")
  | .add, .scalar .i32 => some ("add")
  | .add, .scalar .i64 => some ("add")
  | .add, .scalar .f32 => some ("fadd")
  | .add, .scalar .f64 => some ("fadd")
  | .add, .simd .i8 => some ("add")
  | .add, .simd .i32 => some ("add")
  | .add, .simd .i64 => some ("add")
  | .add, .simd .f32 => some ("fadd")
  | .add, .simd .f64 => some ("fadd")
  | .subtract, .scalar .i8 => some ("sub")
  | .subtract, .scalar .i32 => some ("sub")
  | .subtract, .scalar .i64 => some ("sub")
  | .subtract, .scalar .f32 => some ("fsub")
  | .subtract, .scalar .f64 => some ("fsub")
  | .subtract, .simd .i8 => some ("sub")
  | .subtract, .simd .i32 => some ("sub")
  | .subtract, .simd .i64 => some ("sub")
  | .subtract, .simd .f32 => some ("fsub")
  | .subtract, .simd .f64 => some ("fsub")
  | .multiply, .scalar .i8 => some ("mul")
  | .multiply, .scalar .i32 => some ("mul")
  | .multiply, .scalar .i64 => some ("mul")
  | .multiply, .scalar .f32 => some ("fmul")
  | .multiply, .scalar .f64 => some ("fmul")
  | .multiply, .simd .i8 => some ("mul")
  | .multiply, .simd .i32 => some ("mul")
  | .multiply, .simd .i64 => some ("mul")
  | .multiply, .simd .f32 => some ("fmul")
  | .multiply, .simd .f64 => some ("fmul")
  | .divide, .scalar .i8 => some ("sdiv")
  | .divide, .scalar .i32 => some ("sdiv")
  | .divide, .scalar .i64 => some ("sdiv")
  | .divide, .scalar .f32 => some ("fdiv")
  | .divide, .scalar .f64 => some ("fdiv")
  | .divide, .simd .i8 => some ("sdiv")
  | .divide, .simd .i32 => some ("sdiv")
  | .divide, .simd .i64 => some ("sdiv")
  | .divide, .simd .f32 => some ("fdiv")
  | .divide, .simd .f64 => some ("fdiv")
  | .equal, .scalar .bool => some ("icmp eq")
  | .equal, .scalar .i8 => some ("icmp eq")
  | .equal, .scalar .i32 => some ("icmp eq")
  | .equal, .scalar .i64 => some ("icmp eq")
  | .equal, .scalar .f32 => some ("fcmp oeq")
  | .equal, .scalar .f64 => some ("fcmp oeq")
  | .equal, .simd .bool => some ("icmp eq")
  | .equal, .simd .i8 => some ("icmp eq")
  | .equal, .simd .i32 => some ("icmp eq")
  | .equal, .simd .i64 => some ("icmp eq")
  | .equal, .simd .f32 => some ("fcmp oeq")
  | .equal, .simd .f64 => some ("fcmp oeq")
  | .notEqual, .scalar .bool => some ("icmp ne")
  | .notEqual, .scalar .i8 => some ("icmp ne")
  | .notEqual, .scalar .i32 => some ("icmp ne")
  | .notEqual, .scalar .i64 => some ("icmp ne")
  | .notEqual, .scalar .f32 => some ("fcmp one")
  | .notEqual, .scalar .f64 => some ("fcmp one")
  | .lessThan, .scalar .i8 => some ("icmp slt")
  | .lessThan, .scalar .i32 => some ("icmp slt")
  | .lessThan, .scalar .i64 => some ("icmp slt")
  | .lessThan, .scalar .f32 => some ("fcmp olt")
  | .lessThan, .scalar .f64 => some ("fcmp olt")
  | .lessThan, .simd .i8 => some ("icmp slt")
  | .lessThan, .simd .i32 => some ("icmp slt")
  | .lessThan, .simd .i64 => some ("icmp slt")
  | .lessThan, .simd .f32 => some ("fcmp olt")
  | .lessThan, .simd .f64 => some ("fcmp olt")
  | .lessThanOrEqual, .scalar .i8 => some ("icmp sle")
  | .lessThanOrEqual, .scalar .i32 => some ("icmp sle")
  | .lessThanOrEqual, .scalar .i64 => some ("icmp sle")
  | .lessThanOrEqual, .scalar .f32 => some ("fcmp ole")
  | .lessThanOrEqual, .scalar .f64 => some ("fcmp ole")
  | .lessThanOrEqual, .simd .i8 => some ("icmp sle")
  | .lessThanOrEqual, .simd .i32 => some ("icmp sle")
  | .lessThanOrEqual, .simd .i64 => some ("icmp sle")
  | .lessThanOrEqual, .simd .f32 => some ("fcmp ole")
  | .lessThanOrEqual, .simd .f64 => some ("fcmp ole")
  | .greaterThan, .scalar .i8 => some ("icmp sgt")
  | .greaterThan, .scalar .i32 => some ("icmp sgt")
  | .greaterThan, .scalar .i64 => some ("icmp sgt")
  | .greaterThan, .scalar .f32 => some ("fcmp ogt")
  | .greaterThan, .scalar .f64 => some ("fcmp ogt")
  | .greaterThan, .simd .i8 => some ("icmp sgt")
  | .greaterThan, .simd .i32 => some ("icmp sgt")
  | .greaterThan, .simd .i64 => some ("icmp sgt")
  | .greaterThan, .simd .f32 => some ("fcmp ogt")
  | .greaterThan, .simd .f64 => some ("fcmp ogt")
  | .greaterThanOrEqual, .scalar .i8 => some ("icmp sge")
  | .greaterThanOrEqual, .scalar .i32 => some ("icmp sge")
  | .greaterThanOrEqual, .scalar .i64 => some ("icmp sge")
  | .greaterThanOrEqual, .scalar .f32 => some ("fcmp oge")
  | .greaterThanOrEqual, .scalar .f64 => some ("fcmp oge")
  | .greaterThanOrEqual, .simd .i8 => some ("icmp sge")
  | .greaterThanOrEqual, .simd .i32 => some ("icmp sge")
  | .greaterThanOrEqual, .simd .i64 => some ("icmp sge")
  | .greaterThanOrEqual, .simd .f32 => some ("fcmp oge")
  | .greaterThanOrEqual, .simd .f64 => some ("fcmp oge")
  | .logicalAnd, .scalar .bool => some ("and")
  | .bitwiseAnd, .scalar .bool => some ("and")
  | .bitwiseAnd, .scalar .i8 => some ("and")
  | .bitwiseAnd, .scalar .i32 => some ("and")
  | .bitwiseAnd, .scalar .i64 => some ("and")
  | .bitwiseAnd, .simd .bool => some ("and")
  | .bitwiseAnd, .simd .i8 => some ("and")
  | .bitwiseAnd, .simd .i32 => some ("and")
  | .bitwiseAnd, .simd .i64 => some ("and")
  | .logicalOr, .scalar .bool => some ("or")
  | .bitwiseOr, .scalar .bool => some ("or")
  | .bitwiseOr, .scalar .i8 => some ("or")
  | .bitwiseOr, .scalar .i32 => some ("or")
  | .bitwiseOr, .scalar .i64 => some ("or")
  | .bitwiseOr, .simd .bool => some ("or")
  | .bitwiseOr, .simd .i8 => some ("or")
  | .bitwiseOr, .simd .i32 => some ("or")
  | .bitwiseOr, .simd .i64 => some ("or")
  | .xor, .scalar .bool => some ("xor")
  | .xor, .scalar .i8 => some ("xor")
  | .xor, .scalar .i32 => some ("xor")
  | .xor, .scalar .i64 => some ("xor")
  | .xor, .simd .bool => some ("xor")
  | .xor, .simd .i8 => some ("xor")
  | .xor, .simd .i32 => some ("xor")
  | .xor, .simd .i64 => some ("xor")
  | _, _ => none

/-- `binop_identity` (llvm.rs lines 2294-2310). -/
def binopIdentity : BinOpKind → Ty → Option String
  | .add, .scalar .i8 => some ("0")
  | .add, .scalar .i32 => some ("0")
  | .add, .scalar .i64 => some ("0")
  | .add, .scalar .f32 => some ("0.0")
  | .add, .scalar .f64 => some ("0.0")
  | .multiply, .scalar .i8 => some ("1")
  | .multiply, .scalar .i32 => some ("1")
  | .multiply, .scalar .i64 => some ("1")
  | .multiply, .scalar .f32 => some ("1.0")
  | .multiply, .scalar .f64 => some ("1.0")
  | _, _ => none

/-- `llvm_castop` (llvm.rs lines 2490-2506); the Rust function returns
`WeldResult` but every arm is `Ok`, so the embedding is total. -/
def llvmCastop : Ty → Ty → String
  | .scalar .f64, .scalar .bool => "fptoui"
  | .scalar .f32, .scalar .bool => "fptoui"
  | .scalar .bool, .scalar .f64 => "uitofp"
  | .scalar .bool, .scalar .f32 => "uitofp"
  | .scalar .f64, .scalar .f32 => "fptrunc"
  | .scalar .f32, .scalar .f64 => "fpext"
  | .scalar .f64, _ => "fptosi"
  | .scalar .f32, _ => "fptosi"
  | _, .scalar .f64 => "sitofp"
  | _, .scalar .f32 => "sitofp"
  | .scalar .bool, _ => "zext"
  | _, .scalar .i64 => "sext"
  | _, _ => "trunc"

/-- The type-lowering registry: the type-naming fields of `LlvmGenerator`
(llvm.rs lines 111-143) together with the prelude buffer, with each
`IdGenerator` replaced by its counter.  Builder names (`bld_names`, keyed
by `BuilderKind` in Rust) are keyed here by the builder constructors of
`Ty`. -/
structure TypeEnv where
  structNames : List (List Ty × String) := []
  structId : Nat := 0
  vecNames : List (Ty × String) := []
  vecId : Nat := 0
  mergerNames : List (Ty × String) := []
  mergerId : Nat := 0
  dictNames : List (Ty × String) := []
  dictId : Nat := 0
  bldNames : List (Ty × String) := []
  simdNames : List (ScalarKind × String) := []
  preludeCode : List String := []
  preludeVarId : Nat := 0
deriving DecidableEq, Repr

/-- Modelled from the spec: `LlvmGenerator::new` (lines 146-166) seeds the
prelude with resources/prelude.ll (a resource file not under src/) and a
blank line. -/
def initTypeEnv : TypeEnv :=
  { preludeCode := [("PRELUDE_CODE"), ("")] }

/-- Append one line to the prelude buffer (`prelude_code.add`). -/
def preludeAdd (e : TypeEnv) (l : String) : TypeEnv :=
  { e with preludeCode := e.preludeCode ++ [l] }

/-- Append several lines to the prelude buffer. -/
def preludeAddAll (e : TypeEnv) (ls : List String) : TypeEnv :=
  { e with preludeCode := e.preludeCode ++ ls }

/-- `prelude_var_ids.next()`: fresh `%p.pN` name. -/
def preludeNext (e : TypeEnv) : String × TypeEnv :=
  ("%p.p" ++ toString e.preludeVarId, { e with preludeVarId := e.preludeVarId + 1 })

/-- `struct_ids.next()`: fresh `%sN` name. -/
def structIdsNext (e : TypeEnv) : String × TypeEnv :=
  ("%s" ++ toString e.structId, { e with structId := e.structId + 1 })

/-- `vec_ids.next()`: fresh `%vN` name. -/
def vecIdsNext (e : TypeEnv) : String × TypeEnv :=
  ("%v" ++ toString e.vecId, { e with vecId := e.vecId + 1 })

/-- `merger_ids.next()`: fresh `%mN` name. -/
def mergerIdsNext (e : TypeEnv) : String × TypeEnv :=
  ("%m" ++ toString e.mergerId, { e with mergerId := e.mergerId + 1 })

/-- `dict_ids.next()`: fresh `%dN` name. -/
def dictIdsNext (e : TypeEnv) : String × TypeEnv :=
  ("%d" ++ toString e.dictId, { e with dictId := e.dictId + 1 })

/-- Modelled from the spec: resources/vector.ll is not under src/; the
spliced template (llvm.rs lines 871-875) is recorded as one placeholder
line carrying the substitutions, followed by the blank separator `add`. -/
def vectorCodeLines (elemPre elemTy name : String) : List String :=
  [("VECTOR_CODE $ELEM_PREFIX=" ++ elemPre ++ " $ELEM=" ++ elemTy ++
         " $NAME=" ++ name),
   ("")]

/-- Modelled from the spec: resources/vvector.ll placeholder (lines 879-884). -/
def vvectorCodeLines (elemPre elemTy vecsize name : String) : List String :=
  [("VVECTOR_CODE $ELEM_PREFIX=" ++ elemPre ++ " $ELEM=" ++ elemTy ++
         " $VECSIZE=" ++ vecsize ++ " $NAME=" ++ name),
   ("")]

/-- Modelled from the spec: resources/dictionary.ll placeholder (lines
902-910). -/
def dictionaryCodeLines (keyPre name keyTy valueTy kvStructTy kvVecPre kvVecTy : String) :
    List String :=
  [("DICTIONARY_CODE $KEY_PREFIX=" ++ keyPre ++ " $NAME=" ++ name ++
         " $KEY=" ++ keyTy ++ " $VALUE=" ++ valueTy ++ " $KV_STRUCT=" ++ kvStructTy ++
         " $KV_VEC_PREFIX=" ++ kvVecPre ++ " $KV_VEC=" ++ kvVecTy),
   ("")]

/-- Modelled from the spec: resources/merger/merger.ll placeholder (lines
930-936). -/
def mergerCodeLines (elemPre elemTy vecsize name : String) : List String :=
  [("MERGER_CODE $ELEM_PREFIX=" ++ elemPre ++ " $ELEM=" ++ elemTy ++
         " $VECSIZE=" ++ vecsize ++ " $NAME=" ++ name),
   ("")]

/-- Modelled from the spec: resources/dictmerger.ll placeholder (lines
951-960). -/
def dictmergerCodeLines (name keyTy valueTy kvStructTy opStr kvVecPre kvVecTy : String) :
    List String :=
  [("DICTMERGER_CODE $NAME=" ++ name ++ " $KEY=" ++ keyTy ++
         " $VALUE=" ++ valueTy ++ " $KV_STRUCT=" ++ kvStructTy ++ " $OP=" ++ opStr ++
         " $KV_VEC_PREFIX=" ++ kvVecPre ++ " $KV_VEC=" ++ kvVecTy),
   ("")]

end Weld

namespace Weld

/-- Modelled from the spec: resources/groupbuilder.ll placeholder
(llvm.rs lines 1909-1920). -/
def groupmergerCodeLines (fnName keyPre keyTy valueVecPre valueVecTy valueTy kvStructTy kvVecPre kvVecTy dictPre dictTy : String) :
    List String :=
  [("GROUPMERGER_CODE $NAME=" ++ fnName ++ " $KEY_PREFIX=" ++ keyPre ++
         " $KEY=" ++ keyTy ++ " $VALUE_VEC_PREFIX=" ++ valueVecPre ++
         " $VALUE_VEC=" ++ valueVecTy ++ " $VALUE=" ++ valueTy ++
         " $KV_STRUCT=" ++ kvStructTy ++ " $KV_VEC_PREFIX=" ++ kvVecPre ++
         " $KV_VEC=" ++ kvVecTy ++ " $DICT_PREFIX=" ++ dictPre ++
         " $DICT=" ++ dictTy)]

/-- The hash-generation loop of the `Struct` arm of `llvm_type` (llvm.rs
lines 799-819): one `extractvalue`/field-`hash`/`hash_combine` triple per
non-SIMD field, threading the running result name `res`. -/
def structHashLoop (name : String) :
    List (Nat × Ty × String) → String → TypeEnv → String × TypeEnv
  | [], res, e => (res, e)
  | (i, fty, ftyStr) :: rest, res, e =>
    match fty with
    | .simd _ => structHashLoop name rest res e
    | _ =>
      let (field, e) := preludeNext e
      let (hash, e) := preludeNext e
      let (newRes, e) := preludeNext e
      let fieldPre := "@" ++ pctTo "" ftyStr
      let e := preludeAddAll e
        [(field ++ " = extractvalue " ++ name ++ " %value, " ++ toString i),
         (hash ++ " = call i64 " ++ fieldPre ++ ".hash(" ++ ftyStr ++ " " ++
               field ++ ")"),
         (newRes ++ " = call i64 @hash_combine(i64 " ++ res ++ ", i64 " ++
               hash ++ ")")]
      structHashLoop name rest newRes e

/-- The compare-generation loop of the `Struct` arm of `llvm_type` (llvm.rs
lines 827-854): short-circuit comparison per non-SIMD field; `labelId` is
the local `IdGenerator::new("%l")` counter. -/
def structCmpLoop (name : String) :
    List (Nat × Ty × String) → Nat → TypeEnv → TypeEnv
  | [], _, e => e
  | (i, fty, ftyStr) :: rest, labelId, e =>
    match fty with
    | .simd _ => structCmpLoop name rest labelId e
    | _ =>
      let (aField, e) := preludeNext e
      let (bField, e) := preludeNext e
      let (cmp, e) := preludeNext e
      let (ne, e) := preludeNext e
      let retLabel := "%l" ++ toString labelId
      let postLabel := "%l" ++ toString (labelId + 1)
      let fieldPre := "@" ++ pctTo "" ftyStr
      let e := preludeAddAll e
        [(aField ++ " = extractvalue " ++ name ++ " %a , " ++ toString i),
         (bField ++ " = extractvalue " ++ name ++ " %b, " ++ toString i),
         (cmp ++ " = call i32 " ++ fieldPre ++ ".cmp(" ++ ftyStr ++ " " ++
               aField ++ ", " ++ ftyStr ++ " " ++ bField ++ ")"),
         (ne ++ " = icmp ne i32 " ++ cmp ++ ", 0"),
         ("br i1 " ++ ne ++ ", label " ++ retLabel ++ ", label " ++ postLabel),
         (pctTo "" retLabel ++ ":"),
         ("ret i32 " ++ cmp),
         (pctTo "" postLabel ++ ":")]
      structCmpLoop name rest (labelId + 2) e

/-- The field loop of the `Struct` arm (llvm.rs lines 790-792): lower each
field type in order, collecting the LLVM names. -/
def llvmTypeFields (recT : Ty → TypeEnv → Option (String × TypeEnv)) :
    List Ty → TypeEnv → Option (List String × TypeEnv)
  | [], e => some ([], e)
  | f :: rest, e => do
    let (s, e₁) ← recT f e
    let (ss, e₂) ← llvmTypeFields recT rest e₁
    some (s :: ss, e₂)

/-- `llvm_type` (llvm.rs lines 769-981): the memoizing translation from an
IR type to its LLVM type name, instantiating prelude helpers on the first
request for each type.  `fuel` bounds the recursion depth (the Rust
recursion is structurally terminating; any fuel at least the size of the
type suffices, and all theorems quantify over it). -/
def llvmType : Nat → Ty → TypeEnv → Option (String × TypeEnv)
  | 0, _, _ => none
  | _ + 1, .scalar k, e => some (scalarName k, e)
  | _ + 1, .simd k, e =>
    match alookup k e.simdNames with
    | some n => some (n, e)
    | none =>
      let n := "<" ++ toString (vecSize (.scalar k)) ++ " x " ++ scalarName k ++ ">"
      some (n, { e with simdNames := (k, n) :: e.simdNames })
  | fuel + 1, .struct fields, e => do
    let e₄ ←
      match alookup fields e.structNames with
      | some _ => some e
      | none =>
        let (name, e) := structIdsNext e
        match llvmTypeFields (llvmType fuel) fields e with
        | none => none
        | some (fieldTypes, e) =>
          let fieldTypesStr := String.intercalate ", " fieldTypes
          let e := preludeAdd e
            ((name ++ " = type \x7b " ++ fieldTypesStr ++ " \x7d"))
          let e := preludeAdd e
            (("define i64 " ++ pctTo "@" name ++ ".hash(" ++ name ++
                   " %value) \x7b"))
          let (res, e) := structHashLoop name (fields.zip fieldTypes).enum "0" e
          let e := preludeAddAll e
            [("ret i64 " ++ res), ("\x7d"), ("")]
          let e := preludeAdd e
            (("define i32 " ++ pctTo "@" name ++ ".cmp(" ++ name ++ " %a, " ++
                   name ++ " %b) \x7b"))
          let e := structCmpLoop name (fields.zip fieldTypes).enum 0 e
          let e := preludeAddAll e
            [("ret i32 0"), ("\x7d"), ("")]
          some { e with structNames := (fields, name) :: e.structNames }
    match alookup fields e₄.structNames with
    | some n => some (n, e₄)
    | none => none
  | fuel + 1, .vector elem, e => do
    let e₂ ←
      match alookup elem e.vecNames with
      | some _ => some e
      | none => do
        let (elemTy, e) ← llvmType fuel elem e
        let elemPre := "@" ++ pctTo "" elemTy
        let (name, e) := vecIdsNext e
        let e := { e with vecNames := (elem, name) :: e.vecNames }
        let e := preludeAddAll e (vectorCodeLines elemPre elemTy (pctTo "" name))
        match elem with
        | .scalar _ =>
          some (preludeAddAll e
            (vvectorCodeLines elemPre elemTy (toString (vecSize elem)) (pctTo "" name)))
        | _ => some e
    match alookup elem e₂.vecNames with
    | some n => some (n, e₂)
    | none => none
  | fuel + 1, .dict key value, e => do
    let elem := Ty.struct [key, value]
    let e₂ ←
      match alookup elem e.dictNames with
      | some _ => some e
      | none => do
        let (keyTy, e) ← llvmType fuel key e
        let (valueTy, e) ← llvmType fuel value e
        let keyPre := "@" ++ pctTo "" keyTy
        let (name, e) := dictIdsNext e
        let e := { e with dictNames := (elem, name) :: e.dictNames }
        let (kvStructTy, e) ← llvmType fuel elem e
        let kvVec := Ty.vector elem
        let (kvVecTy, e) ← llvmType fuel kvVec e
        let kvVecPre := "@" ++ pctTo "" kvVecTy
        some (preludeAddAll e
          (dictionaryCodeLines keyPre (pctTo "" name) keyTy valueTy kvStructTy
            kvVecPre kvVecTy))
    match alookup elem e₂.dictNames with
    | some n => some (n, e₂)
    | none => none
  | fuel + 1, .bldAppender t, e => do
    let key := Ty.bldAppender t
    let e₂ ←
      match alookup key e.bldNames with
      | some _ => some e
      | none => do
        let bldTy := Ty.vector t
        let (bldTyStr, e) ← llvmType fuel bldTy e
        some { e with bldNames := (key, bldTyStr ++ ".bld") :: e.bldNames }
    match alookup key e₂.bldNames with
    | some n => some (n, e₂)
    | none => none
  | fuel + 1, .bldMerger t op, e => do
    let key := Ty.bldMerger t op
    let e₂ ←
      match alookup key e.bldNames with
      | some _ => some e
      | none => do
        let e₁ ←
          match alookup t e.mergerNames with
          | some _ => some e
          | none => do
            let (elemTy, e) ← llvmType fuel t e
            let elemPre := "@" ++ pctTo "" elemTy
            let (name, e) := mergerIdsNext e
            let e := { e with mergerNames := (t, name) :: e.mergerNames }
            some (preludeAddAll e
              (mergerCodeLines elemPre elemTy (toString (vecSize t)) (pctTo "" name)))
        let bldTyStr ← alookup t e₁.mergerNames
        some { e₁ with bldNames := (key, bldTyStr ++ ".bld") :: e₁.bldNames }
    match alookup key e₂.bldNames with
    | some n => some (n, e₂)
    | none => none
  | fuel + 1, .bldDictMerger kt vt op, e => do
    let key := Ty.bldDictMerger kt vt op
    let e₂ ←
      match alookup key e.bldNames with
      | some _ => some e
      | none => do
        let bldTy := Ty.dict kt vt
        let (bldTyStr, e) ← llvmType fuel bldTy e
        let elem := Ty.struct [kt, vt]
        let (kvStructTy, e) ← llvmType fuel elem e
        let (keyTy, e) ← llvmType fuel kt e
        let (valueTy, e) ← llvmType fuel vt e
        let kvVec := Ty.vector elem
        let (kvVecTy, e) ← llvmType fuel kvVec e
        let kvVecPre := "@" ++ pctTo "" kvVecTy
        let opStr ← llvmBinop op vt
        let e := preludeAddAll e
          (dictmergerCodeLines (pctTo "" bldTyStr) keyTy valueTy
            (pctTo "" kvStructTy) opStr kvVecPre kvVecTy)
        some { e with bldNames := (key, bldTyStr ++ ".bld") :: e.bldNames }
    match alookup key e₂.bldNames with
    | some n => some (n, e₂)
    | none => none
  | fuel + 1, .bldGroupMerger kt vt, e => do
    let key := Ty.bldGroupMerger kt vt
    let e₂ ←
      match alookup key e.bldNames with
      | some _ => some e
      | none => do
        let elem := Ty.struct [kt, vt]
        let bldTy := Ty.vector elem
        let (bldTyStr, e) ← llvmType fuel bldTy e
        some { e with bldNames := (key, bldTyStr ++ ".bld") :: e.bldNames }
    match alookup key e₂.bldNames with
    | some n => some (n, e₂)
    | none => none
  | fuel + 1, .bldVecMerger t op, e => do
    let key := Ty.bldVecMerger t op
    let e₂ ←
      match alookup key e.bldNames with
      | some _ => some e
      | none => do
        let bldTy := Ty.vector t
        let (bldTyStr, e) ← llvmType fuel bldTy e
        some { e with bldNames := (key, bldTyStr ++ ".vm.bld") :: e.bldNames }
    match alookup key e₂.bldNames with
    | some n => some (n, e₂)
    | none => none

end Weld

namespace Weld

/-- `llvm_symbol` (llvm.rs lines 2290-2292). -/
def llvmSymbol (s : Sym) : String :=
  if s.id = 0 then "%" ++ s.name else "%" ++ s.name ++ "." ++ toString s.id

/-- Parameter / local maps of a SIR function: association list from symbol
to IR type (`HashMap<Symbol, Type>`). -/
abbrev Params : Type := List (Sym × Ty)

/-- Ordered insertion by ascending symbol, used to model collecting a
`HashMap` into a `BTreeMap` (e.g. llvm.rs line 175). -/
def insertSorted (x : Sym × Ty) : List (Sym × Ty) → List (Sym × Ty)
  | [] => [x]
  | y :: ys => if symLeB x.1 y.1 then x :: y :: ys else y :: insertSorted x ys

/-- `params.iter().collect::<BTreeMap<_,_>>()`: the parameter map in
ascending symbol order. -/
def sortParams : List (Sym × Ty) → List (Sym × Ty)
  | [] => []
  | x :: xs => insertSorted x (sortParams xs)

/-- `FunctionContext` (llvm.rs lines 2509-2536): alloca section, code
section, defined-symbol set and the `%t.t` variable id generator. -/
structure Ctx where
  allocaCode : List String := []
  code : List String := []
  definedSymbols : List String := []
  varId : Nat := 0
deriving DecidableEq, Repr

/-- `ctx.var_ids.next()`: fresh `%t.tN` name. -/
def ctxNext (c : Ctx) : String × Ctx :=
  ("%t.t" ++ toString c.varId, { c with varId := c.varId + 1 })

/-- `ctx.code.add(line)`. -/
def ctxAdd (c : Ctx) (l : String) : Ctx :=
  { c with code := c.code ++ [l] }

/-- Several `ctx.code.add` calls in sequence. -/
def ctxAddAll (c : Ctx) (ls : List String) : Ctx :=
  { c with code := c.code ++ ls }

/-- `FunctionContext::add_alloca` (llvm.rs lines 2528-2535): fails when the
symbol was already defined. -/
def addAlloca (c : Ctx) (symbol ty : String) : Option Ctx :=
  if symbol ∈ c.definedSymbols then none
  else some { c with
    definedSymbols := symbol :: c.definedSymbols,
    allocaCode := c.allocaCode ++ [(symbol ++ " = alloca " ++ ty)] }

/-- Executable single-character containment test on strings. -/
def strContains (s : String) (c : Char) : Bool :=
  s.data.any (fun d => d = c)

/-- `load_var` (llvm.rs lines 984-994): load a symbol into a fresh local,
with an aligned load for SIMD vector types. -/
def loadVar (sym ty : String) (c : Ctx) : String × Ctx :=
  let (var, c) := ctxNext c
  let isVector := strContains ty '<' && strContains ty '>' && strContains ty 'x'
  let line :=
    if isVector then
      var ++ " = load " ++ ty ++ ", " ++ ty ++ "* " ++ sym ++ ", align 1"
    else
      var ++ " = load " ++ ty ++ ", " ++ ty ++ "* " ++ sym
  (var, ctxAdd c line)

/-- The accumulation loop of `get_arg_str` (llvm.rs lines 176-179). -/
def getArgStrLoop (fuel : Nat) (suffix : String) :
    List (Sym × Ty) → String → TypeEnv → Option (String × TypeEnv)
  | [], acc, e => some (acc, e)
  | (arg, ty) :: rest, acc, e => do
    let (tyStr, e) ← llvmType fuel ty e
    let argStr := tyStr ++ " " ++ llvmSymbol arg ++ suffix ++ ", "
    getArgStrLoop fuel suffix rest (acc ++ argStr) e

/-- `get_arg_str` (llvm.rs lines 173-182): the comma-separated parameter
list in ascending symbol order, ending in `%work_t* %cur.work`. -/
def getArgStr (fuel : Nat) (params : Params) (suffix : String) (e : TypeEnv) :
    Option (String × TypeEnv) := do
  let (argTypes, e) ← getArgStrLoop fuel suffix (sortParams params) "" e
  some (argTypes ++ "%work_t* %cur.work", e)

/-- The extractvalue loop of `unload_arg_struct` (llvm.rs lines 195-197). -/
def unloadArgLoop (llTy storage : String) :
    List (Nat × (Sym × Ty)) → Ctx → Ctx
  | [], c => c
  | (i, (arg, _)) :: rest, c =>
    unloadArgLoop llTy storage rest
      (ctxAdd c ((llvmSymbol arg ++ " = extractvalue " ++ llTy ++ " " ++
        storage ++ ", " ++ toString i)))

/-- `unload_arg_struct` (llvm.rs lines 184-198): unpack the stashed argument
struct from field 0 of the work descriptor into the parameter symbols, in
ascending symbol order. -/
def unloadArgStruct (fuel : Nat) (params : Params) (c : Ctx) (e : TypeEnv) :
    Option (Ctx × TypeEnv) := do
  let paramsSorted := sortParams params
  let (llTy, e) ← llvmType fuel (.struct (paramsSorted.map (·.2))) e
  let (storageTyped, c) := ctxNext c
  let (storage, c) := ctxNext c
  let (workDataPtr, c) := ctxNext c
  let (workData, c) := ctxNext c
  let c := ctxAddAll c
    [(workDataPtr ++ " = getelementptr %work_t, %work_t* %cur.work, i32 0, i32 0"),
     (workData ++ " = load i8*, i8** " ++ workDataPtr),
     (storageTyped ++ " = bitcast i8* " ++ workData ++ " to " ++ llTy ++ "*"),
     (storage ++ " = load " ++ llTy ++ ", " ++ llTy ++ "* " ++ storageTyped)]
  some (unloadArgLoop llTy storage paramsSorted.enum c, e)

/-- The per-parameter loop of `create_new_pieces` (llvm.rs lines 211-228):
a `.newPiece` call for every Appender-typed parameter, nothing for any
other parameter. -/
def newPiecesLoop (fuel : Nat) :
    List (Sym × Ty) → Ctx → TypeEnv → Option (Ctx × TypeEnv)
  | [], c, e => some (c, e)
  | (arg, ty) :: rest, c, e =>
    match ty with
    | .bldAppender t => do
      let (bldTyStr, e) ← llvmType fuel (.bldAppender t) e
      let bldPre := "@" ++ pctTo "" bldTyStr
      let c := ctxAdd c (("call void " ++ bldPre ++ ".newPiece(" ++ bldTyStr ++
        " " ++ llvmSymbol arg ++ ", %work_t* %cur.work)"))
      newPiecesLoop fuel rest c e
    | _ => newPiecesLoop fuel rest c e

/-- `create_new_pieces` (llvm.rs lines 201-231): load the full-task flag
(field 4 of the work descriptor), branch on it, and under `new_pieces:`
give each Appender parameter a fresh piece. -/
def createNewPieces (fuel : Nat) (params : Params) (c : Ctx) (e : TypeEnv) :
    Option (Ctx × TypeEnv) := do
  let (fullTaskPtr, c) := ctxNext c
  let (fullTaskInt, c) := ctxNext c
  let (fullTaskBit, c) := ctxNext c
  let c := ctxAddAll c
    [(fullTaskPtr ++ " = getelementptr %work_t, %work_t* %cur.work, i32 0, i32 4"),
     (fullTaskInt ++ " = load i32, i32* " ++ fullTaskPtr),
     (fullTaskBit ++ " = trunc i32 " ++ fullTaskInt ++ " to i1"),
     ("br i1 " ++ fullTaskBit ++ ", label %new_pieces, label %fn_call"),
     ("new_pieces:")]
  let (c, e) ← newPiecesLoop fuel (sortParams params) c e
  some (ctxAdd c (("br label %fn_call")), e)

/-- The insertvalue loop of `get_arg_struct` (llvm.rs lines 238-249). -/
def argStructLoop (fuel : Nat) (llTy : String) :
    List (Nat × (Sym × Ty)) → String → Ctx → TypeEnv → Option (String × Ctx × TypeEnv)
  | [], prevRef, c, e => some (prevRef, c, e)
  | (i, (arg, ty)) :: rest, prevRef, c, e => do
    let (nextRef, c) := ctxNext c
    let (tyStr, e) ← llvmType fuel ty e
    let c := ctxAdd c ((nextRef ++ " = insertvalue " ++ llTy ++ " " ++ prevRef ++
      ", " ++ tyStr ++ " " ++ llvmSymbol arg ++ ", " ++ toString i))
    argStructLoop fuel llTy rest nextRef c e

/-- `get_arg_struct` (llvm.rs lines 233-261): build the argument struct in
ascending symbol order by `insertvalue`, malloc storage for it, store it,
and return the `i8*` name holding its address. -/
def getArgStruct (fuel : Nat) (params : Params) (c : Ctx) (e : TypeEnv) :
    Option (String × Ctx × TypeEnv) := do
  let paramsSorted := sortParams params
  let (llTy, e) ← llvmType fuel (.struct (paramsSorted.map (·.2))) e
  let (prevRef, c, e) ← argStructLoop fuel llTy paramsSorted.enum "undef" c e
  let (structSizePtr, c) := ctxNext c
  let (structSize, c) := ctxNext c
  let (structStorage, c) := ctxNext c
  let (structStorageTyped, c) := ctxNext c
  let c := ctxAddAll c
    [(structSizePtr ++ " = getelementptr " ++ llTy ++ ", " ++ llTy ++ "* null, i32 1"),
     (structSize ++ " = ptrtoint " ++ llTy ++ "* " ++ structSizePtr ++ " to i64"),
     (structStorage ++ " = call i8* @malloc(i64 " ++ structSize ++ ")"),
     (structStorageTyped ++ " = bitcast i8* " ++ structStorage ++ " to " ++ llTy ++ "*"),
     ("store " ++ llTy ++ " " ++ prevRef ++ ", " ++ llTy ++ "* " ++ structStorageTyped)]
  some (structStorage, c, e)

end Weld

namespace Weld

/-- One loop iterator (`ParallelForIter` in sir.rs, per spec section 3.1):
data symbol, optional start/end/stride symbols, and the iteration kind.
The `end` field is renamed `stop` (Lean keyword). -/
structure Iter where
  data : Sym
  start : Option Sym
  stop : Option Sym
  stride : Option Sym
  kind : IterKind
deriving DecidableEq, Repr

/-- `ParallelForData` (sir.rs, per spec section 3.1): the descriptor a
`ParallelFor` terminator carries. -/
structure ParallelForData where
  data : List Iter
  builder : Sym
  data_arg : Sym
  builder_arg : Sym
  idx_arg : Sym
  body : Nat
  cont : Nat
  innermost : Bool
deriving DecidableEq, Repr

/-- The subset of SIR statements embedded here: the statements the
statement lowerer is exercised on (`Cast`, `Merge`, `Res` arms of
`gen_statement`). -/
inductive Statement where
  | cast (output : Sym) (newTy : Ty) (child : Sym)
  | merge (builder value : Sym)
  | res (output builder : Sym)
deriving DecidableEq, Repr

/-- SIR terminators (sir.rs, per spec section 3.1). -/
inductive Terminator where
  | branch (cond : Sym) (onTrue onFalse : Nat)
  | jumpBlock (block : Nat)
  | jumpFunction (func : Nat)
  | parallelFor (pf : ParallelForData)
  | programReturn (sym : Sym)
  | endFunction
  | crash
deriving DecidableEq, Repr

/-- A SIR basic block: id, statements, one terminator. -/
structure BasicBlock where
  id : Nat
  statements : List Statement
  terminator : Terminator
deriving DecidableEq, Repr

/-- A SIR function: id, parameter map, local map, blocks. -/
structure SirFunction where
  id : Nat
  params : Params
  locals : Params
  blocks : List BasicBlock
deriving DecidableEq, Repr

/-- A SIR program: the numbered functions (`funcs[i]` has id `i` in
well-formed programs; the embedding indexes by position like the Rust
`sir.funcs[...]`). -/
structure SirProgram where
  funcs : List SirFunction
deriving DecidableEq, Repr

/-- `get_sym_ty` (llvm.rs lines 2546-2554): locals take precedence over
parameters. -/
def getSymTy (func : SirFunction) (sym : Sym) : Option Ty :=
  match alookup sym func.locals with
  | some t => some t
  | none => alookup sym func.params

/-- Insert-or-replace into an association list (`HashMap::insert`). -/
def aupsert (k : Sym) (v : Ty) : List (Sym × Ty) → List (Sym × Ty)
  | [] => [(k, v)]
  | (k', v') :: t => if k' = k then (k, v) :: t else (k', v') :: aupsert k v t

/-- `get_combined_params` (llvm.rs lines 2538-2544): the body function's
parameters overlaid with the continuation function's parameters. -/
def getCombinedParams (sir : SirProgram) (pf : ParallelForData) : Option Params := do
  let bodyF ← sir.funcs[pf.body]?
  let contF ← sir.funcs[pf.cont]?
  some (contF.params.foldl (fun acc p => aupsert p.1 p.2 acc) bodyF.params)

/-- Is this type a builder? (`Type::Builder(..)`). -/
def Ty.isBuilder : Ty → Bool
  | .bldAppender _ => true
  | .bldMerger _ _ => true
  | .bldDictMerger _ _ _ => true
  | .bldGroupMerger _ _ => true
  | .bldVecMerger _ _ => true
  | _ => false

/-- The per-field loop of the struct arm of `gen_merge_op` (llvm.rs lines
1057-1080): element-wise extract / combine / insert. -/
def mergeOpStructLoop (fuel : Nat) (mergeTyStr mergeValue builderValue : String)
    (op : BinOpKind) :
    List (Nat × Ty) → String → String → Ctx → TypeEnv → Option (String × Ctx × TypeEnv)
  | [], res, _, c, e => some (res, c, e)
  | (i, ty) :: rest, _, cur, c, e => do
    let (mergeElem, c) := ctxNext c
    let (builderElem, c) := ctxNext c
    let (structName, c) := ctxNext c
    let (binopValue, c) := ctxNext c
    let (elemTyStr, e) ← llvmType fuel ty e
    let opName ← llvmBinop op ty
    let c := ctxAddAll c
      [(mergeElem ++ " = extractvalue " ++ mergeTyStr ++ " " ++ mergeValue ++
        ", " ++ toString i),
       (builderElem ++ " = extractvalue " ++ mergeTyStr ++ " " ++ builderValue ++
        ", " ++ toString i),
       (binopValue ++ " = " ++ opName ++ " " ++ elemTyStr ++ " " ++ mergeElem ++
        ", " ++ builderElem),
       (structName ++ " = insertvalue " ++ mergeTyStr ++ " " ++ cur ++ ", " ++
        elemTyStr ++ " " ++ binopValue ++ ", " ++ toString i)]
    mergeOpStructLoop fuel mergeTyStr mergeValue builderValue op rest
      structName structName c e

/-- `gen_merge_op` (llvm.rs lines 1037-1088): load the builder slot,
combine with the merge value (scalar directly, struct element-wise; any
other type is `unreachable!`), and store back. -/
def genMergeOp (fuel : Nat) (builderPtr mergeValue mergeTyStr : String)
    (binOp : BinOpKind) (mergeTy : Ty) (c : Ctx) (e : TypeEnv) :
    Option (Ctx × TypeEnv) := do
  let (builderValue, c) := ctxNext c
  let (res, c) := ctxNext c
  let c := ctxAdd c ((builderValue ++ " = load " ++ mergeTyStr ++ ", " ++
    mergeTyStr ++ "* " ++ builderPtr))
  let (res, c, e) ←
    match mergeTy with
    | .scalar _ => do
      let opName ← llvmBinop binOp mergeTy
      let c := ctxAdd c ((res ++ " = " ++ opName ++ " " ++ mergeTyStr ++ " " ++
        builderValue ++ ", " ++ mergeValue))
      some (res, c, e)
    | .struct tys =>
      mergeOpStructLoop fuel mergeTyStr mergeValue builderValue binOp
        tys.enum res "undef" c e
    | _ => none
  some (ctxAdd c (("store " ++ mergeTyStr ++ " " ++ res ++ ", " ++ mergeTyStr ++
    "* " ++ builderPtr)), e)

/-- `gen_merge` (llvm.rs lines 1588-1709), dispatching on the builder kind
of the builder symbol's type. -/
def genMerge (fuel : Nat) (bldTy : Ty) (builder value : Sym)
    (func : SirFunction) (c : Ctx) (e : TypeEnv) : Option (Ctx × TypeEnv) := do
  let (bldTyStr, e) ← llvmType fuel bldTy e
  let bldPre := "@" ++ pctTo "" bldTyStr
  match bldTy with
  | .bldAppender t => do
    let (bldTmp, c) := loadVar (llvmSymbol builder) bldTyStr c
    let (elemTyStr, e) ← llvmType fuel t e
    let (elemTmp, c) := loadVar (llvmSymbol value) elemTyStr c
    let c := ctxAdd c (("call " ++ bldTyStr ++ " " ++ bldPre ++ ".merge(" ++
      bldTyStr ++ " " ++ bldTmp ++ ", " ++ elemTyStr ++ " " ++ elemTmp ++
      ", i32 %cur.tid)"))
    some (c, e)
  | .bldDictMerger kt vt _ => do
    let (bldTmp, c) := loadVar (llvmSymbol builder) bldTyStr c
    let elemTy := Ty.struct [kt, vt]
    let (elemTyStr, e) ← llvmType fuel elemTy e
    let (elemTmp, c) := loadVar (llvmSymbol value) elemTyStr c
    let c := ctxAdd c (("call " ++ bldTyStr ++ " " ++ bldPre ++ ".merge(" ++
      bldTyStr ++ " " ++ bldTmp ++ ", " ++ elemTyStr ++ " " ++ elemTmp ++
      ", i32 %cur.tid)"))
    some (c, e)
  | .bldGroupMerger kt vt => do
    let (bldTmp, c) := loadVar (llvmSymbol builder) bldTyStr c
    let elemTy := Ty.struct [kt, vt]
    let (elemTyStr, e) ← llvmType fuel elemTy e
    let (elemTmp, c) := loadVar (llvmSymbol value) elemTyStr c
    let c := ctxAdd c (("call " ++ bldTyStr ++ " " ++ bldPre ++ ".merge(" ++
      bldTyStr ++ " " ++ bldTmp ++ ", " ++ elemTyStr ++ " " ++ elemTmp ++
      ", i32 %cur.tid)"))
    some (c, e)
  | .bldMerger t op => do
    let (bldTmp, c) := loadVar (llvmSymbol builder) bldTyStr c
    let valueTy ← getSymTy func value
    let (elemTyStr, e) ← llvmType fuel valueTy e
    let (elemTmp, c) := loadVar (llvmSymbol value) elemTyStr c
    let (bldPtrRaw, c) := ctxNext c
    let (bldPtr, c) := ctxNext c
    let c := ctxAdd c ((bldPtrRaw ++ " = call " ++ bldTyStr ++ " " ++ bldPre ++
      ".getPtrIndexed(" ++ bldTyStr ++ " " ++ bldTmp ++ ", i32 %cur.tid)"))
    let c :=
      match valueTy with
      | .simd _ =>
        ctxAdd c ((bldPtr ++ " = call " ++ elemTyStr ++ "* " ++ bldPre ++
          ".vectorMergePtr(" ++ bldTyStr ++ " " ++ bldPtrRaw ++ ")"))
      | _ =>
        ctxAdd c ((bldPtr ++ " = call " ++ elemTyStr ++ "* " ++ bldPre ++
          ".scalarMergePtr(" ++ bldTyStr ++ " " ++ bldPtrRaw ++ ")"))
    genMergeOp fuel bldPtr elemTmp elemTyStr op t c e
  | .bldVecMerger t op => do
    let (elemTyStr, e) ← llvmType fuel t e
    let mergeTy := Ty.struct [.scalar .i64, t]
    let (mergeTyStr, e) ← llvmType fuel mergeTy e
    let (bldTmp, c) := loadVar (llvmSymbol builder) bldTyStr c
    let (elemTmp, c) := loadVar (llvmSymbol value) mergeTyStr c
    let (indexVar, c) := ctxNext c
    let (elemVar, c) := ctxNext c
    let c := ctxAddAll c
      [(indexVar ++ " = extractvalue " ++ mergeTyStr ++ " " ++ elemTmp ++ ", 0"),
       (elemVar ++ " = extractvalue " ++ mergeTyStr ++ " " ++ elemTmp ++ ", 1")]
    let (bldPtrRaw, c) := ctxNext c
    let (bldPtr, c) := ctxNext c
    let c := ctxAddAll c
      [(bldPtrRaw ++ " = call i8* " ++ bldPre ++ ".merge_ptr(" ++ bldTyStr ++
        " " ++ bldTmp ++ ", i64 " ++ indexVar ++ ", i32 %cur.tid)"),
       (bldPtr ++ " = bitcast i8* " ++ bldPtrRaw ++ " to " ++ elemTyStr ++ "*")]
    genMergeOp fuel bldPtr elemVar elemTyStr op t c e
  | _ => none

end Weld

namespace Weld

/-- Modelled from the spec: the `Display` of `Symbol` (ast.rs, not under
src/), used by `format!("%{}", output)` at llvm.rs line 1747; taken to
agree with `llvm_symbol` without the leading `%`. -/
def symDisplay (s : Sym) : String :=
  if s.id = 0 then s.name else s.name ++ "." ++ toString s.id

/-- Modelled from the spec: resources/merger/merger_result_start.ll
placeholder (llvm.rs lines 1805-1827). -/
def mergerResultStartLine (bldTmp bldTyStr bldPre elemTyStr elemVecTyStr : String) : String :=
  ("MERGER_RESULT_START bld_tmp=" ++ bldTmp ++ " bld_ty_str=" ++ bldTyStr ++
    " bld_prefix=" ++ bldPre ++ " elem_ty_str=" ++ elemTyStr ++
    " elem_vec_ty_str=" ++ elemVecTyStr)

/-- Modelled from the spec: resources/merger/merger_result_end_vectorized_1.ll
placeholder (llvm.rs lines 1833-1854). -/
def mergerResultEnd1Line (resTyStr output vectorWidth : String) : String :=
  ("MERGER_RESULT_END_VECTORIZED_1 res_ty_str=" ++ resTyStr ++
    " output=" ++ output ++ " vector_width=" ++ vectorWidth)

/-- Modelled from the spec: resources/merger/merger_result_end_vectorized_2.ll
placeholder (llvm.rs lines 1858-1867). -/
def mergerResultEnd2Line (bldTyStr bldTmp vectorWidth : String) : String :=
  ("MERGER_RESULT_END_VECTORIZED_2 bld_ty_str=" ++ bldTyStr ++
    " bld_tmp=" ++ bldTmp ++ " vector_width=" ++ vectorWidth)

/-- Modelled from the spec: resources/vecmerger/vecmerger_result_start.ll
placeholder (llvm.rs lines 1985-2014). -/
def vecmergerResultStartLine (buildPtr resType elemType bldType bldPre : String) : String :=
  ("VECMERGER_RESULT_START buildPtr=" ++ buildPtr ++ " resType=" ++ resType ++
    " elemType=" ++ elemType ++ " bldType=" ++ bldType ++ " bldPrefix=" ++ bldPre)

/-- Modelled from the spec: resources/vecmerger/vecmerger_result_end.ll
placeholder (llvm.rs lines 2018-2036). -/
def vecmergerResultEndLine (resType buildPtr bldType output : String) : String :=
  ("VECMERGER_RESULT_END resType=" ++ resType ++ " buildPtr=" ++ buildPtr ++
    " bldType=" ++ bldType ++ " output=" ++ output)

/-- Allocate `n` fresh `%t.tN` names. -/
def ctxNextN : Nat → Ctx → List String × Ctx
  | 0, c => ([], c)
  | n + 1, c =>
    let (v, c) := ctxNext c
    let (vs, c) := ctxNextN n c
    (v :: vs, c)

/-- `gen_result` (llvm.rs lines 1712-2041): compute the result of a builder
into `output`.  The `Merger` arm (lines 1743-1754) rejects any non-scalar
element type (`weld_err!("Invalid non-scalar type in merger")`); the
sequential reductions spliced from resource templates appear as
placeholder lines. -/
def genResult (fuel : Nat) (bldKind : Ty) (builder output : Sym)
    (func : SirFunction) (c : Ctx) (e : TypeEnv) : Option (Ctx × TypeEnv) := do
  let bldTy ← getSymTy func builder
  let resTy ← getSymTy func output
  match bldKind with
  | .bldAppender _ => do
    let (bldTyStr, e) ← llvmType fuel bldTy e
    let bldPre := "@" ++ pctTo "" bldTyStr
    let (resTyStr, e) ← llvmType fuel resTy e
    let (bldTmp, c) := loadVar (llvmSymbol builder) bldTyStr c
    let (resTmp, c) := ctxNext c
    let c := ctxAddAll c
      [(resTmp ++ " = call " ++ resTyStr ++ " " ++ bldPre ++ ".result(" ++
        bldTyStr ++ " " ++ bldTmp ++ ")"),
       ("store " ++ resTyStr ++ " " ++ resTmp ++ ", " ++ resTyStr ++ "* " ++
        llvmSymbol output)]
    some (c, e)
  | .bldMerger t op => do
    let (elemTyStr, e) ← llvmType fuel t e
    let outputStr := "%" ++ symDisplay output
    let vecType ←
      match t with
      | .scalar k => some (Ty.simd k)
      | _ => none
    let (elemVecTyStr, e) ← llvmType fuel vecType e
    let (bldTyStr, e) ← llvmType fuel bldTy e
    let bldPre := "@" ++ pctTo "" bldTyStr
    let (resTyStr, e) ← llvmType fuel resTy e
    let (bldTmp, c) := loadVar (llvmSymbol builder) bldTyStr c
    let (_ids, c) := ctxNextN 16 c
    let (labelBase, c) := ctxNext c
    let labelPre := pctTo "" labelBase
    let (_idsV, c) := ctxNextN 7 c
    let valScalar := (_ids.get? 11).getD ""
    let valVector := (_ids.get? 12).getD ""
    let scalarPtr := (_ids.get? 1).getD ""
    let vectorPtr := (_ids.get? 2).getD ""
    let valV := (_idsV.get? 1).getD ""
    let vectorWidth := toString (vecSize t)
    let c := ctxAdd c (mergerResultStartLine bldTmp bldTyStr bldPre elemTyStr elemVecTyStr)
    let (c, e) ← genMergeOp fuel scalarPtr valScalar elemTyStr op t c e
    let (c, e) ← genMergeOp fuel vectorPtr valVector elemVecTyStr op t c e
    let c := ctxAdd c (mergerResultEnd1Line resTyStr outputStr vectorWidth)
    let (c, e) ← genMergeOp fuel outputStr valV resTyStr op t c e
    let c := ctxAdd c (mergerResultEnd2Line bldTyStr bldTmp vectorWidth)
    let _ := labelPre
    some (c, e)
  | .bldDictMerger _ _ _ => do
    let (bldTyStr, e) ← llvmType fuel bldTy e
    let bldPre := "@" ++ pctTo "" bldTyStr
    let (resTyStr, e) ← llvmType fuel resTy e
    let (bldTmp, c) := loadVar (llvmSymbol builder) bldTyStr c
    let (resTmp, c) := ctxNext c
    let c := ctxAddAll c
      [(resTmp ++ " = call " ++ resTyStr ++ " " ++ bldPre ++ ".result(" ++
        bldTyStr ++ " " ++ bldTmp ++ ")"),
       ("store " ++ resTyStr ++ " " ++ resTmp ++ ", " ++ resTyStr ++ "* " ++
        llvmSymbol output)]
    some (c, e)
  | .bldGroupMerger kt vt => do
    let functionId := "%func0"
    let funcStr := "@" ++ pctTo "" functionId
    let bldTyG := Ty.dict kt (.vector vt)
    let elem := Ty.struct [kt, vt]
    let (bldTyStr, e) ← llvmType fuel bldTyG e
    let (kvStructTy, e) ← llvmType fuel elem e
    let (keyTy, e) ← llvmType fuel kt e
    let (valueTy, e) ← llvmType fuel vt e
    let (valueVecTy, e) ← llvmType fuel (.vector vt) e
    let kvVec := Ty.vector elem
    let (kvVecTy, e) ← llvmType fuel kvVec e
    let kvVecBuilderTy := kvVecTy ++ ".bld"
    let keyPre := "@" ++ pctTo "" keyTy
    let kvVecPre := "@" ++ pctTo "" kvVecTy
    let valueVecPre := "@" ++ pctTo "" valueVecTy
    let dictPre := "@" ++ pctTo "" bldTyStr
    let e := preludeAddAll e
      (groupmergerCodeLines (pctTo "" functionId) keyPre keyTy valueVecPre
        valueVecTy valueTy (pctTo "" kvStructTy) kvVecPre kvVecTy dictPre bldTyStr)
    let (resTyStr, e) ← llvmType fuel resTy e
    let (bldTmp, c) := loadVar (llvmSymbol builder) kvVecBuilderTy c
    let (resTmp, c) := ctxNext c
    let c := ctxAddAll c
      [(resTmp ++ " = call " ++ bldTyStr ++ " " ++ funcStr ++ "(" ++
        kvVecBuilderTy ++ " " ++ bldTmp ++ ")"),
       ("store " ++ resTyStr ++ " " ++ resTmp ++ ", " ++ resTyStr ++ "* " ++
        llvmSymbol output)]
    some (c, e)
  | .bldVecMerger t op => do
    let (bldTyStr, e) ← llvmType fuel bldTy e
    let bldPre := "@" ++ pctTo "" bldTyStr
    let (resTyStr, e) ← llvmType fuel resTy e
    let resPre := "@" ++ pctTo "" resTyStr
    let (elemTyStr, e) ← llvmType fuel t e
    let (bldPtr, c) := loadVar (llvmSymbol builder) bldTyStr c
    let (_ids, c) := ctxNextN 19 c
    let (labelBase, c) := ctxNext c
    let labelPre := pctTo "" labelBase
    let (rawPtr, c) := ctxNext c
    let mergeValue := (_ids.get? 13).getD ""
    let mergePtr := (_ids.get? 14).getD ""
    let c := ctxAdd c (vecmergerResultStartLine bldPtr resTyStr elemTyStr bldTyStr bldPre)
    let (c, e) ← genMergeOp fuel mergePtr mergeValue elemTyStr op t c e
    let c := ctxAdd c (vecmergerResultEndLine resTyStr bldPtr bldTyStr (llvmSymbol output))
    let _ := (labelPre, resPre, rawPtr)
    some (c, e)
  | _ => none

/-- `gen_statement` (llvm.rs lines 1128-1585), restricted to the embedded
statement subset: the `Cast` arm (lines 1306-1335), the `Merge` arm (lines
1557-1564) and the `Res` arm (lines 1566-1573). -/
def genStatement (fuel : Nat) (statement : Statement) (func : SirFunction)
    (c : Ctx) (e : TypeEnv) : Option (Ctx × TypeEnv) := do
  match statement with
  | .cast output newTy child => do
    let oldTy ← getSymTy func child
    let (oldLlTy, e) ← llvmType fuel oldTy e
    if oldTy ≠ newTy then do
      let opName := llvmCastop oldTy newTy
      let (newLlTy, e) ← llvmType fuel newTy e
      let (childTmp, c) := loadVar (llvmSymbol child) oldLlTy c
      let (castTmp, c) := ctxNext c
      let c := ctxAdd c ((castTmp ++ " = " ++ opName ++ " " ++ oldLlTy ++ " " ++
        childTmp ++ " to " ++ newLlTy))
      let outTy ← getSymTy func output
      let (outTyStr, e) ← llvmType fuel outTy e
      let c := ctxAdd c (("store " ++ outTyStr ++ " " ++ castTmp ++ ", " ++
        outTyStr ++ "* " ++ llvmSymbol output))
      some (c, e)
    else do
      let (childTmp, c) := loadVar (llvmSymbol child) oldLlTy c
      let c := ctxAdd c (("store " ++ oldLlTy ++ " " ++ childTmp ++ ", " ++
        oldLlTy ++ "* " ++ llvmSymbol output))
      some (c, e)
  | .merge builder value => do
    let bldTy ← getSymTy func builder
    if bldTy.isBuilder then genMerge fuel bldTy builder value func c e
    else none
  | .res output builder => do
    let bldTy ← getSymTy func builder
    if bldTy.isBuilder then genResult fuel bldTy builder output func c e
    else none

end Weld

namespace Weld

/-- The non-type state of `LlvmGenerator`: the type registry plus the body
buffer and the visited-function set (llvm.rs lines 111-143). -/
structure Gen where
  tenv : TypeEnv
  bodyCode : List Line
  visited : List Nat
deriving DecidableEq, Repr

/-- `LlvmGenerator::new()` (llvm.rs lines 146-166). -/
def initGen : Gen :=
  { tenv := initTypeEnv, bodyCode := [], visited := [] }

/-- The type of the recursive `add_function` entry point, passed explicitly
to the terminator/function lowerers (their recursive `self.add_function`
calls), so that the whole lowering is structurally recursive on fuel. -/
abbrev AddFn : Type := SirProgram → Nat → Option ParallelForData → Gen → Option Gen

/-- The argument-loading loop shared by the `ParallelFor` and
`JumpFunction` terminator arms (llvm.rs lines 2221-2226 and 2240-2245):
load each parameter in ascending symbol order and accumulate
`<ty> <tmp>, `. -/
def callArgsLoop (fuel : Nat) :
    List (Sym × Ty) → String → Ctx → TypeEnv → Option (String × Ctx × TypeEnv)
  | [], acc, c, e => some (acc, c, e)
  | (arg, ty) :: rest, acc, c, e => do
    let (llTy, e) ← llvmType fuel ty e
    let (argTmp, c) := loadVar (llvmSymbol arg) llTy c
    callArgsLoop fuel rest (acc ++ llTy ++ " " ++ argTmp ++ ", ") c e

/-- `gen_terminator` (llvm.rs lines 2202-2286).  The `ParallelFor` and
`JumpFunction` arms recursively lower the referenced functions through
`addFn`.  The `Crash` arm (lines 2278-2282) allocates a fresh local for
the run id but emits only the `weld_rt_set_errno` call: no `@get_runid`
call defines that local and no `@weld_abort_thread` call follows. -/
def genTerminatorGo (addFn : AddFn) (fuel : Nat) (terminator : Terminator)
    (sir : SirProgram) (func : SirFunction) (c : Ctx) (g : Gen) :
    Option (Ctx × Gen) := do
  match terminator with
  | .branch cond onTrue onFalse =>
    let (condTmp, c) := loadVar (llvmSymbol cond) "i1" c
    let c := ctxAdd c (("br i1 " ++ condTmp ++ ", label %b.b" ++
      toString onTrue ++ ", label %b.b" ++ toString onFalse))
    some (c, g)
  | .parallelFor pf => do
    let g ← addFn sir pf.cont none g
    let g ← addFn sir pf.body (some pf) g
    let params ← getCombinedParams sir pf
    let (argTypes, c, e) ← callArgsLoop fuel (sortParams params) "" c g.tenv
    let argTypes := argTypes ++ "%work_t* %cur.work"
    let c := ctxAdd c (("call void @f" ++ toString pf.body ++ "_wrapper(" ++
      argTypes ++ ")"))
    let c := ctxAdd c (("br label %body.end"))
    some (c, { g with tenv := e })
  | .jumpBlock block =>
    some (ctxAdd c (("br label %b.b" ++ toString block)), g)
  | .jumpFunction f => do
    let g ← addFn sir f none g
    let target ← sir.funcs[f]?
    let (argTypes, c, e) ← callArgsLoop fuel (sortParams target.params) "" c g.tenv
    let argTypes := argTypes ++ "%work_t* %cur.work"
    let c := ctxAdd c (("call void @f" ++ toString f ++ "(" ++ argTypes ++ ")"))
    let c := ctxAdd c (("br label %body.end"))
    some (c, { g with tenv := e })
  | .programReturn sym => do
    let ty ← getSymTy func sym
    let (tyStr, e) ← llvmType fuel ty g.tenv
    let (resTmp, c) := loadVar (llvmSymbol sym) tyStr c
    let (elemSizePtr, c) := ctxNext c
    let (elemSize, c) := ctxNext c
    let (elemStorage, c) := ctxNext c
    let (elemStorageTyped, c) := ctxNext c
    let (runId, c) := ctxNext c
    let c := ctxAddAll c
      [(elemSizePtr ++ " = getelementptr " ++ tyStr ++ ", " ++ tyStr ++
        "* null, i32 1"),
       (elemSize ++ " = ptrtoint " ++ tyStr ++ "* " ++ elemSizePtr ++ " to i64"),
       (runId ++ " = call i64 @get_runid()"),
       (elemStorage ++ " = call i8* @weld_rt_malloc(i64 " ++ runId ++
        ", i64 " ++ elemSize ++ ")"),
       (elemStorageTyped ++ " = bitcast i8* " ++ elemStorage ++ " to " ++
        tyStr ++ "*"),
       ("store " ++ tyStr ++ " " ++ resTmp ++ ", " ++ tyStr ++ "* " ++
        elemStorageTyped),
       ("call void @set_result(i8* " ++ elemStorage ++ ")"),
       ("br label %body.end")]
    some (c, { g with tenv := e })
  | .endFunction =>
    some (ctxAdd c (("br label %body.end")), g)
  | .crash =>
    let errno := WeldRuntimeErrno.unknown.toI64
    let (runId, c) := ctxNext c
    let c := ctxAdd c (("call void @weld_rt_set_errno(i64 " ++ runId ++
      ", i64 " ++ toString errno ++ ")"))
    some (c, g)

/-- The statement loop of `gen_function` (llvm.rs lines 1119-1121). -/
def genStatementsLoop (fuel : Nat) (func : SirFunction) :
    List Statement → Ctx → TypeEnv → Option (Ctx × TypeEnv)
  | [], c, e => some (c, e)
  | s :: rest, c, e => do
    let (c, e) ← genStatement fuel s func c e
    genStatementsLoop fuel func rest c e

/-- `gen_function` (llvm.rs lines 1116-1125): per block, the label, the
statements, then the terminator. -/
def genFunctionGo (addFn : AddFn) (fuel : Nat) (sir : SirProgram)
    (func : SirFunction) :
    List BasicBlock → Ctx → Gen → Option (Ctx × Gen)
  | [], c, g => some (c, g)
  | b :: rest, c, g => do
    let c := ctxAdd c (("b.b" ++ toString b.id ++ ":"))
    let (c, e) ← genStatementsLoop fuel func b.statements c g.tenv
    let (c, g) ← genTerminatorGo addFn fuel b.terminator sir func c { g with tenv := e }
    genFunctionGo addFn fuel sir func rest c g

/-- The parameter alloca-and-store loop of `add_function` (llvm.rs lines
285-290); iterates the parameter map in its internal (unsorted) order. -/
def entryStoresLoop (fuel : Nat) :
    List (Sym × Ty) → Ctx → TypeEnv → Option (Ctx × TypeEnv)
  | [], c, e => some (c, e)
  | (arg, ty) :: rest, c, e => do
    let argStr := llvmSymbol arg
    let (tyStr, e) ← llvmType fuel ty e
    let c ← addAlloca c argStr tyStr
    let c := ctxAdd c (("store " ++ tyStr ++ " " ++ argStr ++ ".in, " ++
      tyStr ++ "* " ++ argStr))
    entryStoresLoop fuel rest c e

/-- The local alloca loop of `add_function` (llvm.rs lines 291-295). -/
def localsLoop (fuel : Nat) :
    List (Sym × Ty) → Ctx → TypeEnv → Option (Ctx × TypeEnv)
  | [], c, e => some (c, e)
  | (arg, ty) :: rest, c, e => do
    let argStr := llvmSymbol arg
    let (tyStr, e) ← llvmType fuel ty e
    let c ← addAlloca c argStr tyStr
    localsLoop fuel rest c e

end Weld

namespace Weld

/-- The per-iterator element-address/load loop of the loop-body section of
`add_function` (llvm.rs lines 338-430).  A SIMD iterator with explicit
bounds is rejected there (line 356: vectorized iterators do not support
non-unit stride). -/
def loopIterLoop (fuel : Nat) (pf : ParallelForData) (func : SirFunction)
    (elemTy : Ty) (elemTyStr idxTmp : String) :
    List (Nat × Iter) → String → Ctx → TypeEnv → Option (String × Ctx × TypeEnv)
  | [], prevRef, c, e => some (prevRef, c, e)
  | (i, iter) :: rest, prevRef, c, e => do
    let dataTy ← alookup iter.data func.params
    let (dataTyStr, e) ← llvmType fuel dataTy e
    let (dataStr, c) := loadVar (llvmSymbol iter.data) dataTyStr c
    let dataPre := "@" ++ pctTo "" dataTyStr
    let (innerElemTmpPtr, c) := ctxNext c
    let (innerElemTyStr, e) ←
      if pf.data.length = 1 then some (elemTyStr, e)
      else
        match elemTy with
        | .struct v => do
          let fieldTy ← v[i]?
          llvmType fuel fieldTy e
        | _ => none
    let (arrIdx, c) ←
      if iter.start.isSome then
        if iter.kind = .simdIter then none
        else do
          let (offset, c) := ctxNext c
          let strideSym ← iter.stride
          let (strideStr, c) := loadVar (llvmSymbol strideSym) "i64" c
          let startSym ← iter.start
          let (startStr, c) := loadVar (llvmSymbol startSym) "i64" c
          let c := ctxAdd c ((offset ++ " = mul i64 " ++ idxTmp ++ ", " ++
            strideStr))
          let (finalIdx, c) := ctxNext c
          let c := ctxAdd c ((finalIdx ++ " = add i64 " ++ startStr ++ ", " ++
            offset))
          some (finalIdx, c)
      else
        if iter.kind = .fringeIter then do
          let vectorLen := toString (vecSize elemTy)
          let (tmp, c) := ctxNext c
          let (arrLen, c) := ctxNext c
          let (offset, c) := ctxNext c
          let (finalIdx, c) := ctxNext c
          let c := ctxAddAll c
            [(arrLen ++ " = call i64 " ++ dataPre ++ ".size(" ++ dataTyStr ++
              " " ++ dataStr ++ ")"),
             (tmp ++ " = udiv i64 " ++ arrLen ++ ", " ++ vectorLen),
             (offset ++ " = mul i64 " ++ tmp ++ ", " ++ vectorLen),
             (finalIdx ++ " = add i64 " ++ offset ++ ", " ++ idxTmp)]
          some (finalIdx, c)
        else
          some (idxTmp, c)
    let c :=
      match iter.kind with
      | .scalarIter | .fringeIter =>
        ctxAdd c ((innerElemTmpPtr ++ " = call " ++ innerElemTyStr ++ "* " ++
          dataPre ++ ".at(" ++ dataTyStr ++ " " ++ dataStr ++ ", i64 " ++ arrIdx ++ ")"))
      | .simdIter =>
        ctxAdd c ((innerElemTmpPtr ++ " = call " ++ innerElemTyStr ++ "* " ++
          dataPre ++ ".vat(" ++ dataTyStr ++ " " ++ dataStr ++ ", i64 " ++ arrIdx ++ ")"))
    let (innerElemTmp, c) := loadVar innerElemTmpPtr innerElemTyStr c
    if pf.data.length = 1 then
      loopIterLoop fuel pf func elemTy elemTyStr idxTmp rest innerElemTmp c e
    else do
      let (elemTmp, c) := ctxNext c
      let c := ctxAdd c ((elemTmp ++ " = insertvalue " ++ elemTyStr ++ " " ++
        prevRef ++ ", " ++ innerElemTyStr ++ " " ++ innerElemTmp ++ ", " ++
        toString i))
      loopIterLoop fuel pf func elemTy elemTyStr idxTmp rest elemTmp c e

/-- The per-iterator bounds-check loop of the wrapper (llvm.rs lines
533-579): for each iterator, emit
`t0 = num_iters - 1; t1 = stride * t0; t2 = t1 + start;
cond = icmp ult t2, size` and branch to the failure block when the
condition is false. -/
def wrapperBoundsLoop (fuel : Nat) (func : SirFunction) (numItersStr : String)
    (fringeStart : Option String) :
    List Iter → Ctx → TypeEnv → Option (Ctx × TypeEnv)
  | [], c, e => some (c, e)
  | iter :: rest, c, e => do
    let dataStr := llvmSymbol iter.data
    let dataTy ← alookup iter.data func.params
    let (dataTyStr, e) ← llvmType fuel dataTy e
    let dataPre := "@" ++ pctTo "" dataTyStr
    let (vecSizeStr, c) := ctxNext c
    let c := ctxAdd c ((vecSizeStr ++ " = call i64 " ++ dataPre ++ ".size(" ++
      dataTyStr ++ " " ++ dataStr ++ ")"))
    let (startStr, strideStr) ←
      if iter.start.isNone then do
        let startStr ←
          if iter.kind = .fringeIter then fringeStart
          else some ("0")
        some (startStr, "1")
      else do
        let startSym ← iter.start
        let strideSym ← iter.stride
        some (llvmSymbol startSym, llvmSymbol strideSym)
    let (t0, c) := ctxNext c
    let (t1, c) := ctxNext c
    let (t2, c) := ctxNext c
    let (cond, c) := ctxNext c
    let (nextBoundsCheckLabel, c) := ctxNext c
    let c := ctxAddAll c
      [(t0 ++ " = sub i64 " ++ numItersStr ++ ", 1"),
       (t1 ++ " = mul i64 " ++ strideStr ++ ", " ++ t0),
       (t2 ++ " = add i64 " ++ t1 ++ ", " ++ startStr),
       (cond ++ " = icmp ult i64 " ++ t2 ++ ", " ++ vecSizeStr),
       ("br i1 " ++ cond ++ ", label " ++ nextBoundsCheckLabel ++
        ", label %fn.boundcheckfailed"),
       (pctTo "" nextBoundsCheckLabel ++ ":")]
    wrapperBoundsLoop fuel func numItersStr fringeStart rest c e

/-- The wrapper function `@f<id>_wrapper` of a loop body (llvm.rs lines
467-627): `num_iters` computation from the first iterator, bounds checks,
serial-vs-parallel dispatch with grain 4096 for innermost loops and 1
otherwise, ending in `@pl_start_loop`.  A SIMD first iterator with
explicit bounds and a Fringe first iterator with explicit start are
rejected (lines 493-494 and 507-508). -/
def genWrapperCtx (fuel : Nat) (sir : SirProgram) (func : SirFunction)
    (pf : ParallelForData) (e : TypeEnv) :
    Option (String × Ctx × TypeEnv) := do
  let combined ← getCombinedParams sir pf
  let (serialArgTypes, e) ← getArgStr fuel combined "" e
  let c : Ctx := {}
  let c := ctxAdd c (("fn.entry:"))
  let firstIter ← pf.data[0]?
  let firstData := firstIter.data
  let dataStr := llvmSymbol firstData
  let dataTy ← alookup firstData func.params
  let (dataTyStr, e) ← llvmType fuel dataTy e
  let dataPre := "@" ++ pctTo "" dataTyStr
  let (numItersStr, c) := ctxNext c
  let (fringeStartStr, c, e) ←
    if firstIter.kind = .simdIter ∨ firstIter.kind = .scalarIter then
      if firstIter.start.isNone then
        let c := ctxAdd c ((numItersStr ++ " = call i64 " ++ dataPre ++
          ".size(" ++ dataTyStr ++ " " ++ dataStr ++ ")"))
        some ((none : Option String), c, e)
      else
        if firstIter.kind = .simdIter then none
        else do
          let startSym ← firstIter.start
          let stopSym ← firstIter.stop
          let strideSym ← firstIter.stride
          let startStr := llvmSymbol startSym
          let endStr := llvmSymbol stopSym
          let strideStr := llvmSymbol strideSym
          let (diffTmp, c) := ctxNext c
          let c := ctxAddAll c
            [(diffTmp ++ " = sub i64 " ++ endStr ++ ", " ++ startStr),
             (numItersStr ++ " = udiv i64 " ++ diffTmp ++ ", " ++ strideStr)]
          some (none, c, e)
    else
      if firstIter.start.isSome then none
      else do
        let (arrLen, c) := ctxNext c
        let (tmp, c) := ctxNext c
        let (tmp2, c) := ctxNext c
        let symTy ← getSymTy func firstData
        let vectorLen := toString (vecSize symTy)
        let c := ctxAddAll c
          [(arrLen ++ " = call i64 " ++ dataPre ++ ".size(" ++ dataTyStr ++
            " " ++ dataStr ++ ")"),
           (tmp ++ " = udiv i64 " ++ arrLen ++ ", " ++ vectorLen),
           (tmp2 ++ " = mul i64 " ++ tmp ++ ", " ++ vectorLen),
           (numItersStr ++ " = sub i64 " ++ arrLen ++ ", " ++ tmp2)]
        some (some tmp2, c, e)
  let (c, e) ← wrapperBoundsLoop fuel func numItersStr fringeStartStr pf.data c e
  let c := ctxAdd c (("br label %fn.boundcheckpassed"))
  let c := ctxAdd c (("fn.boundcheckfailed:"))
  let errno := WeldRuntimeErrno.badIteratorLength
  let (runId, c) := ctxNext c
  let c := ctxAddAll c
    [(runId ++ " = call i64 @get_runid()"),
     ("call void @weld_rt_set_errno(i64 " ++ runId ++ ", i64 " ++
      toString errno.toI64 ++ ")"),
     ("call void @weld_abort_thread()"),
     ("; Unreachable!"),
     ("br label %fn.end"),
     ("fn.boundcheckpassed:")]
  let (boundCmp, c) := ctxNext c
  let (grainSize, c, e) ←
    if pf.innermost then do
      let c := ctxAddAll c
        [(boundCmp ++ " = icmp ule i64 " ++ numItersStr ++ ", 4096"),
         ("br i1 " ++ boundCmp ++ ", label %for.ser, label %for.par"),
         ("for.ser:")]
      let (bodyArgTypes, e) ← getArgStr fuel func.params "" e
      let bodyArgTypes := bodyArgTypes ++ ", i64 0, i64 " ++ numItersStr
      let c := ctxAdd c (("call void @f" ++ toString func.id ++ "(" ++
        bodyArgTypes ++ ")"))
      let contF ← sir.funcs[pf.cont]?
      let (contArgTypes, e) ← getArgStr fuel contF.params "" e
      let c := ctxAdd c (("call void @f" ++ toString pf.cont ++ "(" ++
        contArgTypes ++ ")"))
      let c := ctxAdd c (("br label %fn.end"))
      some ((4096 : Nat), c, e)
    else
      some (1, ctxAdd c (("br label %for.par")), e)
  let c := ctxAdd c (("for.par:"))
  let (bodyStruct, c, e) ← getArgStruct fuel func.params c e
  let contF ← sir.funcs[pf.cont]?
  let (contStruct, c, e) ← getArgStruct fuel contF.params c e
  let c := ctxAdd c (("call void @pl_start_loop(%work_t* %cur.work, i8* " ++
    bodyStruct ++ ", i8* " ++ contStruct ++ ", void (%work_t*)* @f" ++
    toString func.id ++ "_par, void (%work_t*)* @f" ++ toString pf.cont ++
    "_par, i64 0, i64 " ++ numItersStr ++ ", i32 " ++ toString grainSize ++ ")"))
  let c := ctxAdd c (("br label %fn.end"))
  let c := ctxAdd c (("fn.end:"))
  let c := ctxAdd c (("ret void"))
  let c := ctxAdd c (("\x7d\n\n"))
  some (serialArgTypes, c, e)

/-- The loop wrapper `@f<id>_wrapper` (llvm.rs lines 467-627) as a flushed
chunk: the define header followed by the wrapper body. -/
def genWrapper (fuel : Nat) (sir : SirProgram) (func : SirFunction)
    (pf : ParallelForData) (e : TypeEnv) : Option (List Line × TypeEnv) := do
  let (serialArgTypes, c, e) ← genWrapperCtx fuel sir func pf e
  some (Line.define func.id .wrapper serialArgTypes :: c.code.map Line.raw, e)

end Weld

namespace Weld

/-- The body trampoline `@f<id>_par` (llvm.rs lines 629-655): unpack the
argument struct, read the range from fields 1 and 2 of the work
descriptor, conditionally create new appender pieces, and call the body
function with the range appended. -/
def genParBodyCore (fuel : Nat) (func : SirFunction) (e : TypeEnv) :
    Option (Ctx × TypeEnv) := do
  let c : Ctx := {}
  let c := ctxAdd c (("entry:"))
  let (c, e) ← unloadArgStruct fuel func.params c e
  let (lowerBoundPtr, c) := ctxNext c
  let (lowerBound, c) := ctxNext c
  let (upperBoundPtr, c) := ctxNext c
  let (upperBound, c) := ctxNext c
  let c := ctxAddAll c
    [(lowerBoundPtr ++ " = getelementptr %work_t, %work_t* %cur.work, i32 0, i32 1"),
     (lowerBound ++ " = load i64, i64* " ++ lowerBoundPtr),
     (upperBoundPtr ++ " = getelementptr %work_t, %work_t* %cur.work, i32 0, i32 2"),
     (upperBound ++ " = load i64, i64* " ++ upperBoundPtr)]
  let (bodyArgTypes, e) ← getArgStr fuel func.params "" e
  let (c, e) ← createNewPieces fuel func.params c e
  let c := ctxAdd c (("fn_call:"))
  let c := ctxAdd c (("call void @f" ++ toString func.id ++ "(" ++
    bodyArgTypes ++ ", i64 " ++ lowerBound ++ ", i64 " ++ upperBound ++ ")"))
  let c := ctxAdd c (("ret void"))
  let c := ctxAdd c (("\x7d\n\n"))
  some (c, e)

/-- The body trampoline chunk: define header plus body. -/
def genParBodyCtx (fuel : Nat) (func : SirFunction) (e : TypeEnv) :
    Option (List Line × TypeEnv) := do
  let (c, e) ← genParBodyCore fuel func e
  some (Line.define func.id .par "%work_t* %cur.work" :: c.code.map Line.raw, e)

/-- The continuation trampoline `@f<cont>_par` (llvm.rs lines 657-667):
unpack the argument struct, run `create_new_pieces` (the same
full-task-flag-guarded piece creation as the body trampoline), and call
the continuation with no range arguments. -/
def genParContCore (fuel : Nat) (contId : Nat) (contParams : Params)
    (e : TypeEnv) : Option (Ctx × TypeEnv) := do
  let c : Ctx := {}
  let c := ctxAdd c (("entry:"))
  let (c, e) ← unloadArgStruct fuel contParams c e
  let (c, e) ← createNewPieces fuel contParams c e
  let c := ctxAdd c (("fn_call:"))
  let (contArgTypes, e) ← getArgStr fuel contParams "" e
  let c := ctxAdd c (("call void @f" ++ toString contId ++ "(" ++
    contArgTypes ++ ")"))
  let c := ctxAdd c (("ret void"))
  let c := ctxAdd c (("\x7d\n\n"))
  some (c, e)

/-- The continuation trampoline chunk: define header plus body. -/
def genParContCtx (fuel : Nat) (contId : Nat) (contParams : Params)
    (e : TypeEnv) : Option (List Line × TypeEnv) := do
  let (c, e) ← genParContCore fuel contId contParams e
  some (Line.define contId .par "%work_t* %cur.work" :: c.code.map Line.raw, e)

/-- The top trampoline `@f0_par` (llvm.rs lines 670-679), emitted whenever
function 0 is lowered: unpack the top argument struct and call `@f0`. -/
def genF0ParCore (fuel : Nat) (sir : SirProgram) (e : TypeEnv) :
    Option (Ctx × TypeEnv) := do
  let f0 ← sir.funcs[0]?
  let c : Ctx := {}
  let (c, e) ← unloadArgStruct fuel f0.params c e
  let (topArgTypes, e) ← getArgStr fuel f0.params "" e
  let c := ctxAdd c (("call void @f0(" ++ topArgTypes ++ ")"))
  let c := ctxAdd c (("ret void"))
  let c := ctxAdd c (("\x7d\n\n"))
  some (c, e)

/-- The top trampoline chunk: define header plus body. -/
def genF0Par (fuel : Nat) (sir : SirProgram) (e : TypeEnv) :
    Option (List Line × TypeEnv) := do
  let (c, e) ← genF0ParCore fuel sir e
  some (Line.define 0 .par "%work_t* %cur.work" :: c.code.map Line.raw, e)

/-- The loop-iteration section of `add_function` for a loop-body function
(llvm.rs lines 300-434): builder store, induction variable, loop header
compare (`idx < upper` scalar, `idx + N <= upper` SIMD), the per-iterator
element loads, and the element/index stores. -/
def genLoopHead (fuel : Nat) (pf : ParallelForData) (func : SirFunction)
    (c : Ctx) (e : TypeEnv) : Option (String × Ctx × TypeEnv) := do
  let bldParamTy ← alookup pf.builder func.params
  let (bldTyStr, e) ← llvmType fuel bldParamTy e
  let bldParamStr := llvmSymbol pf.builder
  let bldArgStr := llvmSymbol pf.builder_arg
  let c := ctxAdd c (("store " ++ bldTyStr ++ " " ++ bldParamStr ++ ".in, " ++
    bldTyStr ++ "* " ++ bldArgStr))
  let c ← addAlloca c "%cur.idx" "i64"
  let c := ctxAddAll c
    [("store i64 %lower.idx, i64* %cur.idx"),
     ("br label %loop.start"),
     ("loop.start:")]
  let (idxTmp, c) := loadVar "%cur.idx" "i64" c
  let c ←
    if pf.innermost then some c
    else do
      let (workIdxPtr, c) := ctxNext c
      some (ctxAddAll c
        [(workIdxPtr ++ " = getelementptr %work_t, %work_t* %cur.work, i32 0, i32 3"),
         ("store i64 " ++ idxTmp ++ ", i64* " ++ workIdxPtr)])
  let elemTy ← alookup pf.data_arg func.locals
  let (idxCmp, c) := ctxNext c
  let firstIter ← pf.data[0]?
  let c ←
    if firstIter.kind = .simdIter then do
      let (checkWithVec, c) := ctxNext c
      let vectorLen := toString (vecSize elemTy)
      some (ctxAddAll c
        [(checkWithVec ++ " = add i64 " ++ idxTmp ++ ", " ++ vectorLen),
         (idxCmp ++ " = icmp ule i64 " ++ checkWithVec ++ ", %upper.idx")])
    else
      some (ctxAdd c ((idxCmp ++ " = icmp ult i64 " ++ idxTmp ++ ", %upper.idx")))
  let c := ctxAddAll c
    [("br i1 " ++ idxCmp ++ ", label %loop.body, label %loop.end"),
     ("loop.body:")]
  let (elemTyStr, e) ← llvmType fuel elemTy e
  let (prevRef, c, e) ← loopIterLoop fuel pf func elemTy elemTyStr idxTmp
    pf.data.enum "undef" c e
  let elemStr := llvmSymbol pf.data_arg
  let c := ctxAddAll c
    [("store " ++ elemTyStr ++ " " ++ prevRef ++ ", " ++ elemTyStr ++ "* " ++
      elemStr),
     ("store i64 " ++ idxTmp ++ ", i64* " ++ llvmSymbol pf.idx_arg)]
  some (idxTmp, c, e)

/-- `add_function` (llvm.rs lines 264-682): lower one SIR function (and,
when it is a loop body, its wrapper and both trampolines) into the body
buffer.  An already-visited function id returns immediately with the
generator unchanged (lines 270-272).  `fuel` bounds the
recursion depth through terminators; all theorems quantify over it. -/
def addFunction : Nat → SirProgram → Nat → Option ParallelForData → Gen → Option Gen
  | 0, _, _, _, _ => none
  | fuel + 1, sir, fid, containingLoop, g => do
    let func ← sir.funcs[fid]?
    if func.id ∈ g.visited then some g
    else do
      let g := { g with visited := func.id :: g.visited }
      let (argTypes, e) ← getArgStr fuel func.params ".in" g.tenv
      let argTypes :=
        if containingLoop.isSome then argTypes ++ ", i64 %lower.idx, i64 %upper.idx"
        else argTypes
      let c : Ctx := {}
      let c := { c with allocaCode := [("fn.entry:")] }
      let (c, e) ← entryStoresLoop fuel func.params c e
      let (c, e) ← localsLoop fuel func.locals c e
      let c := ctxAdd c (("%cur.tid = call i32 @my_id_public()"))
      let (c, e) ←
        match containingLoop with
        | none => some (c, e)
        | some pf => do
          let (_, c, e) ← genLoopHead fuel pf func c e
          some (c, e)
      let firstBlock ← func.blocks[0]?
      let c := ctxAdd c (("br label %b.b" ++ toString firstBlock.id))
      let g := { g with tenv := e }
      let (c, g) ← genFunctionGo (addFunction fuel) fuel sir func func.blocks c g
      let c := ctxAdd c (("body.end:"))
      let c ←
        match containingLoop with
        | none => some c
        | some pf => do
          let firstIter ← pf.data[0]?
          let vectorized := firstIter.kind = .simdIter
          let fetchWidth ←
            if vectorized then (alookup pf.data_arg func.locals).map vecSize
            else some 1
          let c := ctxAddAll c
            [("br label %loop.terminator"),
             ("loop.terminator:")]
          let (idxTmp, c) := loadVar "%cur.idx" "i64" c
          let (idxInc, c) := ctxNext c
          some (ctxAddAll c
            [(idxInc ++ " = add i64 " ++ idxTmp ++ ", " ++ toString fetchWidth),
             ("store i64 " ++ idxInc ++ ", i64* %cur.idx"),
             ("br label %loop.start"),
             ("loop.end:")])
      let c := ctxAdd c (("ret void"))
      let c := ctxAdd c (("\x7d\n\n"))
      let flushed := g.bodyCode ++
        (Line.define func.id .plain argTypes :: c.allocaCode.map Line.raw) ++
        c.code.map Line.raw
      let g := { g with bodyCode := flushed }
      let g ←
        match containingLoop with
        | none => some g
        | some pf => do
          let (wrapLines, e) ← genWrapper fuel sir func pf g.tenv
          let g := { g with tenv := e, bodyCode := g.bodyCode ++ wrapLines }
          let (parBodyLines, e) ← genParBodyCtx fuel func g.tenv
          let g := { g with tenv := e, bodyCode := g.bodyCode ++ parBodyLines }
          let contF ← sir.funcs[pf.cont]?
          let (parContLines, e) ← genParContCtx fuel pf.cont contF.params g.tenv
          some { g with tenv := e, bodyCode := g.bodyCode ++ parContLines }
      if func.id = 0 then do
        let (f0Lines, e) ← genF0Par fuel sir g.tenv
        some { g with tenv := e, bodyCode := g.bodyCode ++ f0Lines }
      else
        some g

end Weld

namespace Weld

/-- The unsigned 64-bit semantics of the per-iterator bounds check emitted
by the wrapper (llvm.rs lines 571-574, embedded as the `t0`/`t1`/`t2`/
`cond` lines of `wrapperBoundsLoop`):
`t0 = sub i64 num_iters, 1`, `t1 = mul i64 stride, t0`,
`t2 = add i64 t1, start`, `cond = icmp ult i64 t2, size`, with i64 values
represented as naturals below `2 ^ 64` and wrap-around subtraction. -/
def boundsCheckCond (numIters stride start size : Nat) : Bool :=
  let t0 := (numIters + (2 ^ 64 - 1)) % 2 ^ 64
  let t1 := stride * t0 % 2 ^ 64
  let t2 := (t1 + start) % 2 ^ 64
  decide (t2 < size)

/-- Number of plain `define void @f<j>(...)` headers in a buffer: the count
of definitions of SIR function `j` (wrappers and trampolines have the
`_wrapper`/`_par` suffixes and do not count). -/
def countPlain (j : Nat) (ls : List Line) : Nat :=
  ls.countP (fun l =>
    match l with
    | .define fid .plain _ => fid == j
    | _ => false)

/-- The registry has recorded name `n` for type `t`: the memo entry that a
hit in `llvm_type` returns (fixed names for scalars; the respective map
for every other type; builders are keyed in `bld_names`). -/
def records (e : TypeEnv) (t : Ty) (n : String) : Prop :=
  match t with
  | .scalar k => n = scalarName k
  | .simd k => alookup k e.simdNames = some n
  | .struct fs => alookup fs e.structNames = some n
  | .vector el => alookup el e.vecNames = some n
  | .dict k v => alookup (Ty.struct [k, v]) e.dictNames = some n
  | b => alookup b e.bldNames = some n

/-- The five name maps that `records` reads. -/
def nameMaps (e : TypeEnv) :
    List (List Ty × String) × List (Ty × String) × List (Ty × String) ×
    List (Ty × String) × List (ScalarKind × String) :=
  (e.structNames, e.vecNames, e.dictNames, e.bldNames, e.simdNames)

/-- A sequence of `llvm_type` requests against one generator instance. -/
def runTypes (fuel : Nat) : List Ty → TypeEnv → Option (List String × TypeEnv)
  | [], e => some ([], e)
  | t :: ts, e => do
    let (n, e₁) ← llvmType fuel t e
    let (ns, e₂) ← runTypes fuel ts e₁
    some (n :: ns, e₂)

/-- Fixture symbols for the concrete programs below. -/
def bSym : Sym := ⟨"b", 0⟩

def d1Sym : Sym := ⟨"d1", 0⟩

def d2Sym : Sym := ⟨"d2", 0⟩

def eSym : Sym := ⟨"e", 0⟩

def baSym : Sym := ⟨"ba", 0⟩

def iSym : Sym := ⟨"i", 0⟩

def sSym : Sym := ⟨"s", 0⟩

def tSym : Sym := ⟨"t", 0⟩

def uSym : Sym := ⟨"u", 0⟩

def xSym : Sym := ⟨"x", 0⟩

def ySym : Sym := ⟨"y", 0⟩

def mSym : Sym := ⟨"m", 0⟩

def vSym : Sym := ⟨"v", 0⟩

def oSym : Sym := ⟨"o", 0⟩

/-- An i32 vector type. -/
def vecI32 : Ty := .vector (.scalar .i32)

/-- An i32 appender builder type. -/
def appI32 : Ty := .bldAppender (.scalar .i32)

/-- A pair-of-i32 struct type. -/
def structI32x2 : Ty := .struct [.scalar .i32, .scalar .i32]

/-- An empty SIR function / program (used where the lowering arm under
test reads nothing from them). -/
def emptyFunc : SirFunction := { id := 0, params := [], locals := [], blocks := [] }

def emptySir : SirProgram := ⟨[]⟩

/-- A one-function program: `f0` with a single i32 parameter and a single
block ending in `EndFunction`. -/
def soloFunc : SirFunction :=
  { id := 0, params := [(bSym, .scalar .i32)], locals := [],
    blocks := [⟨0, [], .endFunction⟩] }

def soloSir : SirProgram := ⟨[soloFunc]⟩

/-- Continuation function of the concrete loop program: takes the appender. -/
def contFunc0 : SirFunction :=
  { id := 0, params := [(bSym, appI32)], locals := [],
    blocks := [⟨0, [], .endFunction⟩] }

/-- Loop-body function of the concrete loop program: appender plus two
i32-vector data parameters; element tuple, builder argument and index as
locals. -/
def bodyFunc1 : SirFunction :=
  { id := 1,
    params := [(bSym, appI32), (d1Sym, vecI32), (d2Sym, vecI32)],
    locals := [(eSym, structI32x2), (baSym, appI32), (iSym, .scalar .i64)],
    blocks := [⟨0, [], .endFunction⟩] }

/-- A parallel-for descriptor whose first iterator is a plain scalar
iterator and whose second iterator is a Fringe iterator with explicit
start/end/stride. -/
def fringePf : ParallelForData :=
  { data := [⟨d1Sym, none, none, none, .scalarIter⟩,
             ⟨d2Sym, some sSym, some tSym, some uSym, .fringeIter⟩],
    builder := bSym, data_arg := eSym, builder_arg := baSym, idx_arg := iSym,
    body := 1, cont := 0, innermost := true }

def fringeSir : SirProgram := ⟨[contFunc0, bodyFunc1]⟩

/-- A function holding a struct-element merger builder, a struct value to
merge and a struct output (for the merger claims). -/
def mergerFunc : SirFunction :=
  { id := 2,
    params := [(mSym, .bldMerger structI32x2 .add)],
    locals := [(vSym, structI32x2), (oSym, structI32x2)],
    blocks := [] }

end Weld

namespace Weld

/-- The generator state after lowering the one-function program `soloSir`
(used by the C3 witness). -/
def c3Gen : Gen := (addFunction 20 soloSir 0 none initGen).getD initGen

/-- The continuation-trampoline chunk and registry for the concrete
program with one appender parameter (C7 witness fixtures). -/
def c7Lines : List Line :=
  ((genParContCtx 20 0 [(baSym, appI32)] initTypeEnv).map Prod.fst).getD []

def c7Env : TypeEnv :=
  ((genParContCtx 20 0 [(baSym, appI32)] initTypeEnv).map Prod.snd).getD
    initTypeEnv

/-- The wrapper chunk of the concrete fringe-loop program (C8 witness
fixtures): argument string, body context and registry. -/
def c8Str : String :=
  ((genWrapperCtx 20 fringeSir bodyFunc1 fringePf initTypeEnv).map
    (fun p => p.1)).getD ""

def c8Ctx : Ctx :=
  ((genWrapperCtx 20 fringeSir bodyFunc1 fringePf initTypeEnv).map
    (fun p => p.2.1)).getD ⟨[], [], [], 0⟩

def c8Env : TypeEnv :=
  ((genWrapperCtx 20 fringeSir bodyFunc1 fringePf initTypeEnv).map
    (fun p => p.2.2)).getD initTypeEnv

/-- A parallel-for descriptor whose single iterator is SIMD with explicit
bounds (C9 witness fixture). -/
def c9BadPf : ParallelForData :=
  { data := [⟨d1Sym, some sSym, some tSym, some uSym, .simdIter⟩],
    builder := bSym, data_arg := eSym, builder_arg := baSym, idx_arg := iSym,
    body := 1, cont := 0, innermost := true }

/-- The key order on parameter-map entries: ascending symbol (`BTreeMap`
iteration order over `Symbol`, per the derived lexicographic `Ord`). -/
def pLe (u v : Sym × Ty) : Prop := symLeB u.1 v.1 = true

/-- The same order made strict (distinct symbols). -/
def pStrict (u v : Sym × Ty) : Prop := symLeB u.1 v.1 = true ∧ u.1 ≠ v.1

/-- The registry after one request for `vec[i32]` against a fresh
generator (first request of the C1 witness run). -/
def c1Env1 : TypeEnv :=
  ((llvmType 20 vecI32 initTypeEnv).map Prod.snd).getD initTypeEnv

/-- The registry after a further intervening request for
`dict[i32,i64]` (second step of the C1 witness run). -/
def c1Env2 : TypeEnv :=
  ((runTypes 20 [Ty.dict (.scalar .i32) (.scalar .i64)] c1Env1).map
    Prod.snd).getD initTypeEnv

/-- C4 counterexample: for the iterator tuple with `num_iters = 0`,
`start = 0`, `stride = 1`, `size = 0`, the claim's arithmetic reading
`start + (num_iters − 1) * stride < size` holds (it is `−1 < 0` over the
integers), yet the emitted check fails: `sub i64 0, 1` wraps to
`2 ^ 64 − 1` and the unsigned compare is false. -/
theorem C4_bounds_check_counterexample :
    ((0 : Int) + ((0 : Int) - 1) * 1 < 0) ∧ boundsCheckCond 0 1 0 0 = false := by
  constructor
  · decide
  · rfl

/-- C4 (amended): for any iterator tuple whose computed iteration count is
at least 1 and represents an in-range u64 for which
`start + (num_iters − 1) * stride` does not overflow, the bounds check
emitted in the loop wrapper passes iff
`start + (num_iters − 1) * stride < size`. -/
theorem C4_bounds_check (start stride numIters size : Nat)
    (h1 : 1 ≤ numIters) (h2 : numIters < 2 ^ 64)
    (h3 : start + (numIters - 1) * stride < 2 ^ 64) :
    (boundsCheckCond numIters stride start size = true ↔
      start + (numIters - 1) * stride < size) := by
  simp only [boundsCheckCond, decide_eq_true_eq]
  have e0 : (numIters + (2 ^ 64 - 1)) % 2 ^ 64 = numIters - 1 := by
    have hsum : numIters + (2 ^ 64 - 1) = (numIters - 1) + 2 ^ 64 := by omega
    rw [hsum, Nat.add_mod_right, Nat.mod_eq_of_lt (by omega)]
  have hmul : stride * (numIters - 1) < 2 ^ 64 := by
    have hc : stride * (numIters - 1) = (numIters - 1) * stride := Nat.mul_comm _ _
    omega
  rw [e0, Nat.mod_eq_of_lt hmul]
  have e2 : (stride * (numIters - 1) + start) % 2 ^ 64 =
      start + (numIters - 1) * stride := by
    have hc : stride * (numIters - 1) = (numIters - 1) * stride := Nat.mul_comm _ _
    rw [hc, Nat.add_comm, Nat.mod_eq_of_lt h3]
  rw [e2]

/-- C4 witness: the amended bounds-check equivalence instantiated at
`start = 1`, `stride = 2`, `num_iters = 3`, `size = 6`. -/
theorem C4_bounds_check_witness :
    (1 ≤ 3 ∧ (3 : Nat) < 2 ^ 64 ∧ 1 + (3 - 1) * 2 < 2 ^ 64) ∧
    (boundsCheckCond 3 2 1 6 = true ↔ 1 + (3 - 1) * 2 < 6) :=
  ⟨⟨by norm_num, by norm_num, by norm_num⟩,
   C4_bounds_check 1 2 3 6 (by norm_num) (by norm_num) (by norm_num)⟩

/-- C5: lowering the `Crash` terminator emits exactly one line, a
`weld_rt_set_errno` call whose run-id operand `%t.t0` is a freshly
allocated but never defined local: no `@get_runid` call is emitted to
produce the run id and no `@weld_abort_thread` call follows, contradicting
the claimed `get_runid` / `set_errno` / `abort_thread` sequence. -/
theorem C5_crash_terminator :
    genTerminatorGo (addFunction 0) 0 .crash emptySir emptyFunc {} initGen =
      some ({ allocaCode := [], definedSymbols := [], varId := 1,
              code := ["call void @weld_rt_set_errno(i64 %t.t0, i64 2)"] },
            initGen) := by
  rfl

/-- C6: the cast table maps the widening integer cast i8 → i32 to `trunc`
(llvm.rs line 2504, the catch-all), not to the `sext` the claim (and valid
LLVM) requires; casts to i64 are the only integer widenings mapped to
`sext`. -/
theorem C6_castop_i8_i32 :
    llvmCastop (.scalar .i8) (.scalar .i32) = "trunc" ∧
    llvmCastop (.scalar .i8) (.scalar .i64) = "sext" ∧
    "trunc" ≠ "sext" := by
  refine ⟨rfl, rfl, by decide⟩

end Weld

namespace Weld

theorem records_of_nameMaps_eq {e e' : TypeEnv} (h : nameMaps e = nameMaps e')
    {t : Ty} {n : String} : records e t n → records e' t n := by
  have h1 : e.structNames = e'.structNames := congrArg (fun p => p.1) h
  have h2 : e.vecNames = e'.vecNames := congrArg (fun p => p.2.1) h
  have h3 : e.dictNames = e'.dictNames := congrArg (fun p => p.2.2.1) h
  have h4 : e.bldNames = e'.bldNames := congrArg (fun p => p.2.2.2.1) h
  have h5 : e.simdNames = e'.simdNames := congrArg (fun p => p.2.2.2.2) h
  cases t <;> simp [records, h1, h2, h3, h4, h5]

theorem nameMaps_preludeAdd (e : TypeEnv) (l : String) :
    nameMaps (preludeAdd e l) = nameMaps e := rfl

theorem nameMaps_preludeAddAll (e : TypeEnv) (ls : List String) :
    nameMaps (preludeAddAll e ls) = nameMaps e := rfl

theorem nameMaps_preludeNext (e : TypeEnv) :
    nameMaps (preludeNext e).2 = nameMaps e := rfl

theorem nameMaps_structIdsNext (e : TypeEnv) :
    nameMaps (structIdsNext e).2 = nameMaps e := rfl

theorem nameMaps_vecIdsNext (e : TypeEnv) :
    nameMaps (vecIdsNext e).2 = nameMaps e := rfl

theorem nameMaps_mergerIdsNext (e : TypeEnv) :
    nameMaps (mergerIdsNext e).2 = nameMaps e := rfl

theorem nameMaps_dictIdsNext (e : TypeEnv) :
    nameMaps (dictIdsNext e).2 = nameMaps e := rfl

theorem nameMaps_structHashLoop (name : String) :
    ∀ (l : List (Nat × Ty × String)) (res : String) (e : TypeEnv),
      nameMaps (structHashLoop name l res e).2 = nameMaps e
  | [], _, _ => rfl
  | (i, fty, ftyStr) :: rest, res, e => by
    cases fty <;> simp only [structHashLoop] <;>
      rw [nameMaps_structHashLoop name rest] <;>
      simp only [nameMaps_preludeAddAll, nameMaps_preludeNext]

theorem nameMaps_structCmpLoop (name : String) :
    ∀ (l : List (Nat × Ty × String)) (labelId : Nat) (e : TypeEnv),
      nameMaps (structCmpLoop name l labelId e) = nameMaps e
  | [], _, _ => rfl
  | (i, fty, ftyStr) :: rest, labelId, e => by
    cases fty <;> simp only [structCmpLoop] <;>
      rw [nameMaps_structCmpLoop name rest] <;>
      simp only [nameMaps_preludeAddAll, nameMaps_preludeNext]

/-- Prepending a struct-name entry preserves every record whose key is not
the inserted one. -/
theorem records_cons_structNames {e : TypeEnv} {t₀ : Ty} {n₀ : String}
    (fields : List Ty) (name : String)
    (h : records e t₀ n₀)
    (hne : ∀ fs₀, t₀ = Ty.struct fs₀ → fs₀ ≠ fields) :
    records { e with structNames := (fields, name) :: e.structNames } t₀ n₀ := by
  cases t₀ <;> simp [records] at h ⊢ <;> try exact h
  case struct fs₀ =>
    rw [alookup, if_neg (hne fs₀ rfl)]
    exact h

theorem records_cons_vecNames {e : TypeEnv} {t₀ : Ty} {n₀ : String}
    (elem : Ty) (name : String)
    (h : records e t₀ n₀)
    (hne : ∀ el₀, t₀ = Ty.vector el₀ → el₀ ≠ elem) :
    records { e with vecNames := (elem, name) :: e.vecNames } t₀ n₀ := by
  cases t₀ <;> simp [records] at h ⊢ <;> try exact h
  case vector el₀ =>
    rw [alookup, if_neg (hne el₀ rfl)]
    exact h

theorem records_cons_dictNames {e : TypeEnv} {t₀ : Ty} {n₀ : String}
    (key : Ty) (name : String)
    (h : records e t₀ n₀)
    (hne : ∀ k₀ v₀, t₀ = Ty.dict k₀ v₀ → Ty.struct [k₀, v₀] ≠ key) :
    records { e with dictNames := (key, name) :: e.dictNames } t₀ n₀ := by
  cases t₀ <;> simp [records] at h ⊢ <;> try exact h
  case dict k₀ v₀ =>
    rw [alookup, if_neg (hne k₀ v₀ rfl)]
    exact h

theorem records_cons_bldNames {e : TypeEnv} {t₀ : Ty} {n₀ : String}
    (key : Ty) (name : String)
    (h : records e t₀ n₀)
    (hne : t₀ ≠ key) :
    records { e with bldNames := (key, name) :: e.bldNames } t₀ n₀ := by
  cases t₀ <;> simp [records] at h ⊢ <;>
    first
    | exact h
    | (rw [alookup, if_neg hne]; exact h)

theorem records_cons_simdNames {e : TypeEnv} {t₀ : Ty} {n₀ : String}
    (key : ScalarKind) (name : String)
    (h : records e t₀ n₀)
    (hne : ∀ k₀, t₀ = Ty.simd k₀ → k₀ ≠ key) :
    records { e with simdNames := (key, name) :: e.simdNames } t₀ n₀ := by
  cases t₀ <;> simp [records] at h ⊢ <;> try exact h
  case simd k₀ =>
    rw [alookup, if_neg (hne k₀ rfl)]
    exact h

/-- A memoized type is returned unchanged: if `records e t n` then
`llvm_type` for `t` on `e` is a pure cache hit returning `n` with the
environment untouched. -/
theorem records_memoHit (fuel : Nat) {t : Ty} {n : String} {e : TypeEnv}
    (h : records e t n) : llvmType (fuel + 1) t e = some (n, e) := by
  cases t <;> simp [records] at h <;> simp [llvmType, h]

theorem llvmType_records : ∀ (fuel : Nat) (t : Ty) (e : TypeEnv) (n : String)
    (e' : TypeEnv), llvmType fuel t e = some (n, e') → records e' t n := by
  intro fuel t e n e' h
  match fuel with
  | 0 => simp [llvmType] at h
  | fuel + 1 =>
    cases t with
    | scalar k =>
      simp [llvmType] at h
      simp [records, h.1, h.2]
    | simd k =>
      cases hl : alookup k e.simdNames with
      | some n' =>
        simp [llvmType, hl] at h
        simp [records, ← h.2, hl, h.1]
      | none =>
        simp [llvmType, hl] at h
        simp [records, ← h.2, alookup, ← h.1]
    | struct fs =>
      simp only [llvmType] at h
      repeat' split at h
      all_goals (replace h := h.symm; simp_all [records, alookup])
    | vector el =>
      cases hml : alookup el e.vecNames with
      | some n' =>
        simp [llvmType, hml] at h
        simp [records, ← h.2, hml, h.1]
      | none =>
        simp only [llvmType, hml] at h
        cases hV : llvmType fuel el e with
        | none => rw [hV] at h; simp at h
        | some p =>
          obtain ⟨vn, e₁⟩ := p
          rw [hV] at h
          cases el <;> simp [alookup] at h <;>
            simp [records, ← h.2, alookup, ← h.1]
    | dict k v =>
      simp only [llvmType] at h
      repeat' split at h
      all_goals (replace h := h.symm; simp_all [records, alookup])
      replace h := h.symm
      simp only [Option.bind_eq_some] at h
      obtain ⟨⟨a1, b1⟩, h1, ⟨a2, b2⟩, h2, ⟨a3, b3⟩, h3, ⟨a4, b4⟩, h4, h⟩ := h
      split at h
      · simp only [Option.some.injEq, Prod.mk.injEq] at h
        obtain ⟨rfl, rfl⟩ := h
        assumption
      · simp at h
    | bldAppender t' =>
      simp only [llvmType] at h
      repeat' split at h
      all_goals (replace h := h.symm; simp_all [records, alookup])
      replace h := h.symm
      rw [Option.bind_eq_some] at h
      obtain ⟨⟨a, b⟩, h1, h2⟩ := h
      simp only [Option.some.injEq, Prod.mk.injEq] at h2
      obtain ⟨rfl, rfl⟩ := h2
      simp [alookup]
    | bldMerger t' op =>
      simp only [llvmType] at h
      repeat' split at h
      all_goals (replace h := h.symm; simp_all [records, alookup])
      replace h := h.symm
      rw [Option.bind_eq_some] at h
      obtain ⟨⟨a, b⟩, h1, h2⟩ := h
      simp only [Option.some.injEq, Prod.mk.injEq] at h2
      obtain ⟨rfl, rfl⟩ := h2
      simp [alookup]
    | bldDictMerger k v op =>
      simp only [llvmType] at h
      repeat' split at h
      all_goals (replace h := h.symm; simp_all [records, alookup])
      replace h := h.symm
      simp only [Option.bind_eq_some] at h
      obtain ⟨⟨a1, b1⟩, h1, ⟨a2, b2⟩, h2, ⟨a3, b3⟩, h3, ⟨a4, b4⟩, h4, ⟨a5, b5⟩, h5, s6, h6, h⟩ := h
      simp only [Option.some.injEq, Prod.mk.injEq] at h
      obtain ⟨rfl, rfl⟩ := h
      simp [alookup]
    | bldGroupMerger k v =>
      simp only [llvmType] at h
      repeat' split at h
      all_goals (replace h := h.symm; simp_all [records, alookup])
      replace h := h.symm
      rw [Option.bind_eq_some] at h
      obtain ⟨⟨a, b⟩, h1, h2⟩ := h
      simp only [Option.some.injEq, Prod.mk.injEq] at h2
      obtain ⟨rfl, rfl⟩ := h2
      simp [alookup]
    | bldVecMerger t' op =>
      simp only [llvmType] at h
      repeat' split at h
      all_goals (replace h := h.symm; simp_all [records, alookup])
      replace h := h.symm
      rw [Option.bind_eq_some] at h
      obtain ⟨⟨a, b⟩, h1, h2⟩ := h
      simp only [Option.some.injEq, Prod.mk.injEq] at h2
      obtain ⟨rfl, rfl⟩ := h2
      simp [alookup]

/-- Translating any type preserves every existing registry record: the
generator only prepends fresh entries and appends prelude code. -/
theorem llvmTypeFields_preserve
    (recT : Ty → TypeEnv → Option (String × TypeEnv))
    (hrec : ∀ t e n e', recT t e = some (n, e') →
      ∀ t₀ n₀, records e t₀ n₀ → records e' t₀ n₀) :
    ∀ (l : List Ty) (e : TypeEnv) (ss : List String) (e₁ : TypeEnv),
      llvmTypeFields recT l e = some (ss, e₁) →
      ∀ t₀ n₀, records e t₀ n₀ → records e₁ t₀ n₀
  | [], e, ss, e₁ => by
    intro h t₀ n₀ h0
    simp [llvmTypeFields] at h
    rw [← h.2]
    exact h0
  | f :: rest, e, ss, e₁ => by
    intro h t₀ n₀ h0
    simp only [llvmTypeFields] at h
    cases h1 : recT f e with
    | none => rw [h1] at h; simp at h
    | some p =>
      obtain ⟨s, eA⟩ := p
      rw [h1] at h
      simp at h
      cases h2 : llvmTypeFields recT rest eA with
      | none => rw [h2] at h; simp at h
      | some q =>
        obtain ⟨ss₂, eB⟩ := q
        rw [h2] at h
        simp at h
        obtain ⟨h3, h4⟩ := h
        subst h4
        exact llvmTypeFields_preserve recT hrec rest eA ss₂ eB h2 t₀ n₀
          (hrec f e s eA h1 t₀ n₀ h0)

theorem llvmType_preserve : ∀ (fuel : Nat), ∀ (t : Ty) (e : TypeEnv) (n : String)
    (e' : TypeEnv), llvmType fuel t e = some (n, e') →
    ∀ t₀ n₀, records e t₀ n₀ → records e' t₀ n₀ := by
  intro fuel
  induction fuel with
  | zero => intro t e n e' h; simp [llvmType] at h
  | succ fuel ih =>
    intro t e n e' h t₀ n₀ h0
    cases t with
    | scalar k =>
      simp [llvmType] at h
      rw [← h.2]; exact h0
    | simd k =>
      cases hml : alookup k e.simdNames with
      | some n' =>
        simp [llvmType, hml] at h
        rw [← h.2]; exact h0
      | none =>
        simp [llvmType, hml] at h
        rw [← h.2]
        refine records_cons_simdNames k _ h0 ?_
        rintro k₀ rfl hk
        subst hk
        simp [records, hml] at h0
    | struct fs =>
      cases hml : alookup fs e.structNames with
      | some n' =>
        simp [llvmType, hml] at h
        rw [← h.2]; exact h0
      | none =>
        simp only [llvmType, hml] at h
        cases hF : llvmTypeFields (llvmType fuel) fs (structIdsNext e).2 with
        | none => rw [hF] at h; simp at h
        | some p =>
          obtain ⟨ftys, e₁⟩ := p
          rw [hF] at h
          simp [alookup] at h
          rw [← h.2]
          have r2 : records e₁ t₀ n₀ :=
            llvmTypeFields_preserve _
              (fun t e n e' hh t₀ n₀ h0 => ih t e n e' hh t₀ n₀ h0)
              fs _ ftys e₁ hF t₀ n₀
              (records_of_nameMaps_eq (nameMaps_structIdsNext e).symm h0)
          refine records_cons_structNames fs _ ?_ ?_
          · exact records_of_nameMaps_eq
              (by simp [nameMaps_structCmpLoop, nameMaps_preludeAddAll,
                nameMaps_structHashLoop, nameMaps_preludeAdd]) r2
          · rintro fs₀ rfl hfs
            subst hfs
            simp [records, hml] at h0
    | vector el =>
      cases hml : alookup el e.vecNames with
      | some n' =>
        simp [llvmType, hml] at h
        rw [← h.2]; exact h0
      | none =>
        simp only [llvmType, hml] at h
        cases h1 : llvmType fuel el e with
        | none => rw [h1] at h; simp at h
        | some p =>
          obtain ⟨a, b⟩ := p
          rw [h1] at h
          have rc : records { (vecIdsNext b).2 with
              vecNames := (el, (vecIdsNext b).1) :: (vecIdsNext b).2.vecNames }
              t₀ n₀ := by
            refine records_cons_vecNames el _
              (records_of_nameMaps_eq (nameMaps_vecIdsNext b).symm
                (ih _ _ _ _ h1 t₀ n₀ h0)) ?_
            rintro el₀ rfl hel
            subst hel
            simp [records, hml] at h0
          cases el <;>
            (simp [alookup] at h
             rw [← h.2]
             exact records_of_nameMaps_eq (by simp [nameMaps_preludeAddAll]) rc)
    | dict k v =>
      cases hml : alookup (Ty.struct [k, v]) e.dictNames with
      | some n' =>
        simp [llvmType, hml] at h
        rw [← h.2]; exact h0
      | none =>
        simp only [llvmType, hml] at h
        cases h1 : llvmType fuel k e with
        | none => rw [h1] at h; simp at h
        | some p1 =>
          obtain ⟨a1, b1⟩ := p1
          rw [h1] at h
          simp at h
          simp only [Option.bind_eq_some] at h
          obtain ⟨⟨a2, b2⟩, h2, ⟨a3, b3⟩, h3, ⟨a4, b4⟩, h4, h⟩ := h
          split at h
          · simp only [Option.some.injEq, Prod.mk.injEq] at h
            obtain ⟨rfl, rfl⟩ := h
            have hne : ∀ k₀ v₀, t₀ = Ty.dict k₀ v₀ →
                Ty.struct [k₀, v₀] ≠ Ty.struct [k, v] := by
              rintro k₀ v₀ rfl hs
              simp at hs
              obtain ⟨rfl, rfl⟩ := hs
              simp [records, hml] at h0
            have r2 : records (dictIdsNext b2).2 t₀ n₀ :=
              records_of_nameMaps_eq (nameMaps_dictIdsNext b2).symm
                (ih _ _ _ _ h2 t₀ n₀ (ih _ _ _ _ h1 t₀ n₀ h0))
            have r4 : records b4 t₀ n₀ :=
              ih _ _ _ _ h4 t₀ n₀ (ih _ _ _ _ h3 t₀ n₀
                (records_cons_dictNames _ _ r2 hne))
            exact records_of_nameMaps_eq
              (nameMaps_preludeAddAll _ _).symm r4
          · simp at h
    | bldAppender t' =>
      cases hbl : alookup (Ty.bldAppender t') e.bldNames with
      | some n' =>
        simp [llvmType, hbl] at h
        rw [← h.2]; exact h0
      | none =>
        simp only [llvmType, hbl] at h
        cases h1 : llvmType fuel (Ty.vector t') e with
        | none => rw [h1] at h; simp at h
        | some p =>
          obtain ⟨a, b⟩ := p
          rw [h1] at h
          simp [alookup] at h
          rw [← h.2]
          refine records_cons_bldNames _ _ (ih _ _ _ _ h1 t₀ n₀ h0) ?_
          rintro rfl
          simp [records, hbl] at h0
    | bldMerger t' op =>
      cases hbl : alookup (Ty.bldMerger t' op) e.bldNames with
      | some n' =>
        simp [llvmType, hbl] at h
        rw [← h.2]; exact h0
      | none =>
        simp only [llvmType, hbl] at h
        cases hmg : alookup t' e.mergerNames with
        | some mn =>
          simp [alookup, hmg] at h
          rw [← h.2]
          refine records_cons_bldNames _ _ h0 ?_
          rintro rfl
          simp [records, hbl] at h0
        | none =>
          simp only [hmg] at h
          cases h1 : llvmType fuel t' e with
          | none => rw [h1] at h; simp at h
          | some p =>
            obtain ⟨a, b⟩ := p
            rw [h1] at h
            simp [alookup] at h
            rw [← h.2]
            refine records_cons_bldNames _ _ ?_ ?_
            · exact records_of_nameMaps_eq
                (by simp [nameMaps, mergerIdsNext, preludeAddAll])
                (ih _ _ _ _ h1 t₀ n₀ h0)
            · rintro rfl
              simp [records, hbl] at h0
    | bldDictMerger kt vt op =>
      cases hbl : alookup (Ty.bldDictMerger kt vt op) e.bldNames with
      | some n' =>
        simp [llvmType, hbl] at h
        rw [← h.2]; exact h0
      | none =>
        simp only [llvmType, hbl] at h
        cases h1 : llvmType fuel (Ty.dict kt vt) e with
        | none => rw [h1] at h; simp at h
        | some p1 =>
          obtain ⟨a1, b1⟩ := p1
          rw [h1] at h
          simp at h
          simp only [Option.bind_eq_some] at h
          obtain ⟨⟨a2, b2⟩, h2, ⟨a3, b3⟩, h3, ⟨a4, b4⟩, h4, ⟨a5, b5⟩, h5,
            s6, h6, h⟩ := h
          simp [alookup] at h
          obtain ⟨rfl, rfl⟩ := h
          refine records_cons_bldNames _ _ ?_ ?_
          · exact records_of_nameMaps_eq (nameMaps_preludeAddAll _ _).symm
              (ih _ _ _ _ h5 t₀ n₀ (ih _ _ _ _ h4 t₀ n₀ (ih _ _ _ _ h3 t₀ n₀
                (ih _ _ _ _ h2 t₀ n₀ (ih _ _ _ _ h1 t₀ n₀ h0)))))
          · rintro rfl
            simp [records, hbl] at h0
    | bldGroupMerger kt vt =>
      cases hbl : alookup (Ty.bldGroupMerger kt vt) e.bldNames with
      | some n' =>
        simp [llvmType, hbl] at h
        rw [← h.2]; exact h0
      | none =>
        simp only [llvmType, hbl] at h
        cases h1 : llvmType fuel (Ty.vector (Ty.struct [kt, vt])) e with
        | none => rw [h1] at h; simp at h
        | some p =>
          obtain ⟨a, b⟩ := p
          rw [h1] at h
          simp [alookup] at h
          rw [← h.2]
          refine records_cons_bldNames _ _ (ih _ _ _ _ h1 t₀ n₀ h0) ?_
          rintro rfl
          simp [records, hbl] at h0
    | bldVecMerger t' op =>
      cases hbl : alookup (Ty.bldVecMerger t' op) e.bldNames with
      | some n' =>
        simp [llvmType, hbl] at h
        rw [← h.2]; exact h0
      | none =>
        simp only [llvmType, hbl] at h
        cases h1 : llvmType fuel (Ty.vector t') e with
        | none => rw [h1] at h; simp at h
        | some p =>
          obtain ⟨a, b⟩ := p
          rw [h1] at h
          simp [alookup] at h
          rw [← h.2]
          refine records_cons_bldNames _ _ (ih _ _ _ _ h1 t₀ n₀ h0) ?_
          rintro rfl
          simp [records, hbl] at h0

/-- A whole run of further `llvm_type` requests preserves every existing
registry record. -/
theorem runTypes_preserve (fuel : Nat) :
    ∀ (ts : List Ty) (e : TypeEnv) (ns : List String) (e₂ : TypeEnv),
      runTypes fuel ts e = some (ns, e₂) →
      ∀ t₀ n₀, records e t₀ n₀ → records e₂ t₀ n₀
  | [], e, ns, e₂ => by
    intro h t₀ n₀ h0
    simp [runTypes] at h
    rw [← h.2]
    exact h0
  | t :: ts, e, ns, e₂ => by
    intro h t₀ n₀ h0
    simp only [runTypes] at h
    cases h1 : llvmType fuel t e with
    | none => rw [h1] at h; simp at h
    | some p =>
      obtain ⟨nm, eA⟩ := p
      rw [h1] at h
      simp at h
      cases h2 : runTypes fuel ts eA with
      | none => rw [h2] at h; simp at h
      | some q =>
        obtain ⟨ns₂, eB⟩ := q
        rw [h2] at h
        simp at h
        obtain ⟨h3, h4⟩ := h
        subst h4
        exact runTypes_preserve fuel ts eA ns₂ eB h2 t₀ n₀
          (llvmType_preserve fuel t e nm eA h1 t₀ n₀ h0)

/-- C1 (amended): type memoization holds — for every pair of requests for
the same IR type value against one generator instance, with arbitrary
intervening requests, the second request returns the identical LLIR type
name and leaves the registry unchanged.  (The distinctness half of the
claim is refuted by `C1_distinct_names_counterexample`.) -/
theorem C1_type_names (fuel₁ fuel₂ fuel₃ : Nat) (t : Ty) (ts : List Ty)
    (e e₁ e₂ : TypeEnv) (n : String) (ns : List String)
    (h1 : llvmType fuel₁ t e = some (n, e₁))
    (h2 : runTypes fuel₂ ts e₁ = some (ns, e₂)) :
    llvmType (fuel₃ + 1) t e₂ = some (n, e₂) :=
  records_memoHit fuel₃
    (runTypes_preserve fuel₂ ts e₁ ns e₂ h2 t n
      (llvmType_records fuel₁ t e n e₁ h1))

/-- C1 witness: a `vec[i32]` request answered `%v0`, an intervening
`dict[i32,i64]` request, and a repeated `vec[i32]` request answered `%v0`
again with the registry unchanged. -/
theorem C1_type_names_witness :
    llvmType 1 vecI32 c1Env2 = some ("%v0", c1Env2) :=
  C1_type_names 20 20 0 vecI32 [Ty.dict (.scalar .i32) (.scalar .i64)]
    initTypeEnv c1Env1 c1Env2 "%v0" ["%d0"] (by rfl) (by rfl)

/-- C1 counterexample (refuting the distinctness half of the claim):
`merger[i32,+]` and `merger[i32,*]` are structurally distinct builder
types that differ only in the merge operator, yet one generator instance
answers both requests with the same LLIR type name `%m0.bld` — the
merger registry is keyed by element type only, ignoring the operator. -/
theorem C1_distinct_names_counterexample :
    Ty.bldMerger (.scalar .i32) .add ≠ Ty.bldMerger (.scalar .i32) .multiply ∧
    (runTypes 20 [Ty.bldMerger (.scalar .i32) .add,
        Ty.bldMerger (.scalar .i32) .multiply] initTypeEnv).map
      (fun p => p.1) = some ["%m0.bld", "%m0.bld"] :=
  ⟨by decide, by rfl⟩

theorem strLtB_go_irrefl : ∀ (a : List Char), strLtB.go a a = false
  | [] => rfl
  | c :: cs => by
    simp only [strLtB.go, lt_self_iff_false, if_false, if_pos rfl]
    exact strLtB_go_irrefl cs

theorem strLtB_go_total : ∀ (a b : List Char),
    strLtB.go a b = false → strLtB.go b a = false → a = b
  | [], [] => by simp
  | [], _ :: _ => by simp [strLtB.go]
  | _ :: _, [] => by intro _ h2; simp [strLtB.go] at h2
  | c :: cs, d :: ds => by
    intro h1 h2
    simp only [strLtB.go] at h1 h2
    rcases Nat.lt_trichotomy c.toNat d.toNat with hlt | heq | hgt
    · rw [if_pos hlt] at h1; cases h1
    · rw [if_neg (by omega), if_pos heq] at h1
      rw [if_neg (by omega), if_pos heq.symm] at h2
      have hc : c = d := by
        have hv : c.val = d.val := by
          apply UInt32.eq_of_val_eq
          apply Fin.ext
          exact heq
        exact Char.eq_of_val_eq hv
      rw [hc, strLtB_go_total cs ds h1 h2]
    · rw [if_pos hgt] at h2; cases h2

theorem strLtB_go_trans : ∀ (a b c : List Char),
    strLtB.go a b = true → strLtB.go b c = true → strLtB.go a c = true
  | [], [], _ => by simp [strLtB.go]
  | [], _ :: _, [] => by intro _ h2; simp [strLtB.go] at h2
  | [], _ :: _, _ :: _ => by simp [strLtB.go]
  | _ :: _, [], _ => by intro h1; simp [strLtB.go] at h1
  | _ :: _, _ :: _, [] => by intro _ h2; simp [strLtB.go] at h2
  | a :: as, b :: bs, c :: cs => by
    intro h1 h2
    simp only [strLtB.go] at h1 h2 ⊢
    rcases Nat.lt_trichotomy a.toNat b.toNat with hab | hab | hab <;>
      rcases Nat.lt_trichotomy b.toNat c.toNat with hbc | hbc | hbc <;>
      first
      | rw [if_pos (by omega)]
      | (rw [if_neg (by omega), if_neg (by omega)] at h1; cases h1)
      | (rw [if_neg (by omega), if_neg (by omega)] at h2; cases h2)
      | (rw [if_neg (by omega), if_pos (by omega)] at h1 h2 ⊢
         exact strLtB_go_trans as bs cs h1 h2)

theorem strLtB_asymm {a b : String} (h1 : strLtB a b = true)
    (h2 : strLtB b a = true) : False := by
  have := strLtB_go_trans a.data b.data a.data h1 h2
  rw [strLtB_go_irrefl] at this
  cases this

theorem strLtB_irrefl (a : String) : strLtB a a = false :=
  strLtB_go_irrefl a.data

theorem strLtB_total {a b : String} (h1 : strLtB a b = false)
    (h2 : strLtB b a = false) : a = b := by
  exact String.ext (strLtB_go_total a.data b.data h1 h2)

theorem symLeB_total (a b : Sym) : symLeB a b = true ∨ symLeB b a = true := by
  simp only [symLeB, Bool.or_eq_true, Bool.and_eq_true, beq_iff_eq,
    decide_eq_true_eq]
  cases hab : strLtB a.name b.name
  · cases hba : strLtB b.name a.name
    · have hn := strLtB_total hab hba
      rcases Nat.le_total a.id b.id with hid | hid
      · exact Or.inl (Or.inr ⟨hn, hid⟩)
      · exact Or.inr (Or.inr ⟨hn.symm, hid⟩)
    · exact Or.inr (Or.inl rfl)
  · exact Or.inl (Or.inl rfl)

theorem symLeB_antisymm {a b : Sym} (h1 : symLeB a b = true)
    (h2 : symLeB b a = true) : a = b := by
  simp only [symLeB, Bool.or_eq_true, Bool.and_eq_true, beq_iff_eq,
    decide_eq_true_eq] at h1 h2
  rcases h1 with h1 | ⟨h1n, h1i⟩
  · rcases h2 with h2 | ⟨h2n, h2i⟩
    · exact (strLtB_asymm h1 h2).elim
    · rw [h2n] at h1; rw [strLtB_irrefl] at h1; cases h1
  · rcases h2 with h2 | ⟨h2n, h2i⟩
    · rw [h1n] at h2; rw [strLtB_irrefl] at h2; cases h2
    · cases a; cases b
      simp_all
      omega

theorem symLeB_trans {a b c : Sym} (h1 : symLeB a b = true)
    (h2 : symLeB b c = true) : symLeB a c = true := by
  simp only [symLeB, Bool.or_eq_true, Bool.and_eq_true, beq_iff_eq,
    decide_eq_true_eq] at h1 h2 ⊢
  rcases h1 with h1 | ⟨h1n, h1i⟩
  · rcases h2 with h2 | ⟨h2n, h2i⟩
    · exact Or.inl (strLtB_go_trans _ _ _ h1 h2)
    · exact Or.inl (h2n ▸ h1)
  · rcases h2 with h2 | ⟨h2n, h2i⟩
    · exact Or.inl (h1n ▸ h2)
    · exact Or.inr ⟨h1n.trans h2n, Nat.le_trans h1i h2i⟩

theorem insertSorted_perm (x : Sym × Ty) : ∀ (l : List (Sym × Ty)),
    (insertSorted x l).Perm (x :: l)
  | [] => List.Perm.refl _
  | y :: ys => by
    simp only [insertSorted]
    split
    · exact List.Perm.refl _
    · exact ((insertSorted_perm x ys).cons y).trans (List.Perm.swap x y ys)

theorem sortParams_perm : ∀ (l : List (Sym × Ty)), (sortParams l).Perm l
  | [] => List.Perm.refl _
  | x :: xs =>
    (insertSorted_perm x (sortParams xs)).trans ((sortParams_perm xs).cons x)

theorem insertSorted_sorted (x : Sym × Ty) : ∀ {l : List (Sym × Ty)},
    List.Sorted pLe l → List.Sorted pLe (insertSorted x l)
  | [], _ => List.sorted_singleton x
  | y :: ys, h => by
    simp only [insertSorted]
    split
    · rename_i hle
      cases h with
      | cons hy hys =>
        refine List.Pairwise.cons ?_ (List.Pairwise.cons hy hys)
        intro z hz
        rcases List.mem_cons.mp hz with rfl | hz
        · exact hle
        · exact symLeB_trans hle (hy z hz)
    · rename_i hnle
      cases h with
      | cons hy hys =>
        have hyx : pLe y x := by
          rcases symLeB_total x.1 y.1 with hxy | hyx
          · exact absurd hxy hnle
          · exact hyx
        refine List.Pairwise.cons ?_ (insertSorted_sorted x hys)
        intro z hz
        have hz' := (insertSorted_perm x ys).mem_iff.mp hz
        rcases List.mem_cons.mp hz' with rfl | hz2
        · exact hyx
        · exact hy z hz2

theorem sortParams_sorted : ∀ (l : List (Sym × Ty)),
    List.Sorted pLe (sortParams l)
  | [] => List.sorted_nil
  | x :: xs => insertSorted_sorted x (sortParams_sorted xs)

theorem sorted_strict_of_nodup {l : List (Sym × Ty)} (hs : List.Sorted pLe l)
    (hn : (l.map Prod.fst).Nodup) : List.Sorted pStrict l := by
  rw [List.Nodup, List.pairwise_map] at hn
  exact hs.and hn

theorem sortParams_eq_of_perm {p p' : Params} (hperm : p.Perm p')
    (hnodup : (p.map Prod.fst).Nodup) : sortParams p = sortParams p' := by
  have hperm2 : (sortParams p).Perm (sortParams p') :=
    (sortParams_perm p).trans (hperm.trans (sortParams_perm p').symm)
  have hn1 : ((sortParams p).map Prod.fst).Nodup :=
    (List.Perm.nodup_iff ((sortParams_perm p).map Prod.fst)).mpr hnodup
  have hn2 : ((sortParams p').map Prod.fst).Nodup :=
    (List.Perm.nodup_iff ((sortParams_perm p').map Prod.fst)).mpr
      ((List.Perm.nodup_iff (hperm.map Prod.fst)).mp hnodup)
  haveI : IsAntisymm (Sym × Ty) pStrict := ⟨by
    rintro a b ⟨hab, hne⟩ ⟨hba, h2⟩
    exact absurd (symLeB_antisymm hab hba) hne⟩
  exact List.eq_of_perm_of_sorted hperm2
    (sorted_strict_of_nodup (sortParams_sorted p) hn1)
    (sorted_strict_of_nodup (sortParams_sorted p') hn2)

/-- C2: for any SIR function parameter map, in whatever internal order,
the emitted define signature (`get_arg_str`), the stashed-argument-struct
unpacking (`unload_arg_struct`), the argument-struct construction
(`get_arg_struct`) and every generated call-site argument list iterate
the parameters in ascending symbol order, so any two permutations of the
parameter map produce identical code. -/
theorem C2_param_order (fuel : Nat) (p p' : Params) (suffix acc : String)
    (e : TypeEnv) (c : Ctx)
    (hperm : p.Perm p') (hnodup : (p.map Prod.fst).Nodup) :
    List.Sorted pLe (sortParams p) ∧
    getArgStr fuel p suffix e = getArgStr fuel p' suffix e ∧
    unloadArgStruct fuel p c e = unloadArgStruct fuel p' c e ∧
    getArgStruct fuel p c e = getArgStruct fuel p' c e ∧
    callArgsLoop fuel (sortParams p) acc c e =
      callArgsLoop fuel (sortParams p') acc c e := by
  have hsp := sortParams_eq_of_perm hperm hnodup
  refine ⟨sortParams_sorted p, ?_, ?_, ?_, ?_⟩ <;>
    simp only [getArgStr, unloadArgStruct, getArgStruct, hsp]

theorem C2_param_order_witness :
    List.Sorted pLe (sortParams [(ySym, Ty.scalar .i32), (xSym, Ty.scalar .i64)]) ∧
    getArgStr 20 [(ySym, Ty.scalar .i32), (xSym, Ty.scalar .i64)] "" initTypeEnv =
      getArgStr 20 [(xSym, Ty.scalar .i64), (ySym, Ty.scalar .i32)] "" initTypeEnv ∧
    unloadArgStruct 20 [(ySym, Ty.scalar .i32), (xSym, Ty.scalar .i64)]
        ⟨[], [], [], 0⟩ initTypeEnv =
      unloadArgStruct 20 [(xSym, Ty.scalar .i64), (ySym, Ty.scalar .i32)]
        ⟨[], [], [], 0⟩ initTypeEnv ∧
    getArgStruct 20 [(ySym, Ty.scalar .i32), (xSym, Ty.scalar .i64)]
        ⟨[], [], [], 0⟩ initTypeEnv =
      getArgStruct 20 [(xSym, Ty.scalar .i64), (ySym, Ty.scalar .i32)]
        ⟨[], [], [], 0⟩ initTypeEnv ∧
    callArgsLoop 20 (sortParams [(ySym, Ty.scalar .i32), (xSym, Ty.scalar .i64)])
        "" ⟨[], [], [], 0⟩ initTypeEnv =
      callArgsLoop 20 (sortParams [(xSym, Ty.scalar .i64), (ySym, Ty.scalar .i32)])
        "" ⟨[], [], [], 0⟩ initTypeEnv :=
  C2_param_order 20 [(ySym, Ty.scalar .i32), (xSym, Ty.scalar .i64)]
    [(xSym, Ty.scalar .i64), (ySym, Ty.scalar .i32)] "" "" initTypeEnv
    ⟨[], [], [], 0⟩ (by decide) (by decide)

theorem countPlain_append (j : Nat) (a b : List Line) :
    countPlain j (a ++ b) = countPlain j a + countPlain j b :=
  List.countP_append _ _ _

theorem countPlain_raw (j : Nat) : ∀ (l : List String),
    countPlain j (l.map Line.raw) = 0
  | [] => rfl
  | s :: rest => by
    simp only [List.map_cons, countPlain, List.countP_cons]
    have := countPlain_raw j rest
    simp only [countPlain] at this
    simp [this]

theorem genWrapper_countPlain {fuel : Nat} {sir : SirProgram}
    {func : SirFunction} {pf : ParallelForData} {e : TypeEnv}
    {ls : List Line} {e' : TypeEnv}
    (h : genWrapper fuel sir func pf e = some (ls, e')) (j : Nat) :
    countPlain j ls = 0 := by
  simp only [genWrapper] at h
  cases hc : genWrapperCtx fuel sir func pf e with
  | none => rw [hc] at h; simp at h
  | some p =>
    obtain ⟨s, c, e₁⟩ := p
    rw [hc] at h
    simp at h
    rw [← h.1]
    simp only [countPlain, List.countP_cons]
    have := countPlain_raw j c.code
    simp only [countPlain] at this
    simp [this]

theorem genParBodyCtx_countPlain {fuel : Nat} {func : SirFunction}
    {e : TypeEnv} {ls : List Line} {e' : TypeEnv}
    (h : genParBodyCtx fuel func e = some (ls, e')) (j : Nat) :
    countPlain j ls = 0 := by
  simp only [genParBodyCtx] at h
  cases hc : genParBodyCore fuel func e with
  | none => rw [hc] at h; simp at h
  | some p =>
    obtain ⟨c, e₁⟩ := p
    rw [hc] at h
    simp at h
    rw [← h.1]
    simp only [countPlain, List.countP_cons]
    have := countPlain_raw j c.code
    simp only [countPlain] at this
    simp [this]

theorem genParContCtx_countPlain {fuel : Nat} {contId : Nat}
    {contParams : Params} {e : TypeEnv} {ls : List Line} {e' : TypeEnv}
    (h : genParContCtx fuel contId contParams e = some (ls, e')) (j : Nat) :
    countPlain j ls = 0 := by
  simp only [genParContCtx] at h
  cases hc : genParContCore fuel contId contParams e with
  | none => rw [hc] at h; simp at h
  | some p =>
    obtain ⟨c, e₁⟩ := p
    rw [hc] at h
    simp at h
    rw [← h.1]
    simp only [countPlain, List.countP_cons]
    have := countPlain_raw j c.code
    simp only [countPlain] at this
    simp [this]

theorem genF0Par_countPlain {fuel : Nat} {sir : SirProgram} {e : TypeEnv}
    {ls : List Line} {e' : TypeEnv}
    (h : genF0Par fuel sir e = some (ls, e')) (j : Nat) :
    countPlain j ls = 0 := by
  simp only [genF0Par] at h
  cases hc : genF0ParCore fuel sir e with
  | none => rw [hc] at h; simp at h
  | some p =>
    obtain ⟨c, e₁⟩ := p
    rw [hc] at h
    simp at h
    rw [← h.1]
    simp only [countPlain, List.countP_cons]
    have := countPlain_raw j c.code
    simp only [countPlain] at this
    simp [this]

theorem genTerminatorGo_inv {addFn : AddFn}
    (haf : ∀ sir fid pf g g', addFn sir fid pf g = some g' →
      (∀ id, id ∈ g.visited → id ∈ g'.visited) ∧
      (∀ id, id ∈ g.visited →
        countPlain id g'.bodyCode = countPlain id g.bodyCode))
    {fuel : Nat} {term : Terminator} {sir : SirProgram} {func : SirFunction}
    {c : Ctx} {g : Gen} {c' : Ctx} {g' : Gen}
    (h : genTerminatorGo addFn fuel term sir func c g = some (c', g')) :
    (∀ id, id ∈ g.visited → id ∈ g'.visited) ∧
    (∀ id, id ∈ g.visited →
      countPlain id g'.bodyCode = countPlain id g.bodyCode) := by
  cases term with
  | branch cond onTrue onFalse =>
    simp [genTerminatorGo] at h
    rw [← h.2]
    exact ⟨fun id hid => hid, fun id hid => rfl⟩
  | parallelFor pf =>
    simp only [genTerminatorGo] at h
    cases h1 : addFn sir pf.cont none g with
    | none => rw [h1] at h; simp at h
    | some g₁ =>
      rw [h1] at h
      simp at h
      cases h2 : addFn sir pf.body (some pf) g₁ with
      | none => rw [h2] at h; simp at h
      | some g₂ =>
        rw [h2] at h
        simp at h
        cases h3 : getCombinedParams sir pf with
        | none => rw [h3] at h; simp at h
        | some params =>
          rw [h3] at h
          simp at h
          cases h4 : callArgsLoop fuel (sortParams params) "" c g₂.tenv with
          | none => rw [h4] at h; simp at h
          | some q =>
            obtain ⟨argTypes, c₁, e₁⟩ := q
            rw [h4] at h
            simp at h
            rw [← h.2]
            obtain ⟨m1, p1⟩ := haf sir pf.cont none g g₁ h1
            obtain ⟨m2, p2⟩ := haf sir pf.body (some pf) g₁ g₂ h2
            exact ⟨fun id hid => m2 id (m1 id hid),
              fun id hid => ((p2 id (m1 id hid)).trans (p1 id hid))⟩
  | jumpBlock block =>
    simp [genTerminatorGo] at h
    rw [← h.2]
    exact ⟨fun id hid => hid, fun id hid => rfl⟩
  | jumpFunction f =>
    simp only [genTerminatorGo] at h
    cases h1 : addFn sir f none g with
    | none => rw [h1] at h; simp at h
    | some g₁ =>
      rw [h1] at h
      simp at h
      cases h2 : sir.funcs[f]? with
      | none => rw [h2] at h; simp at h
      | some target =>
        rw [h2] at h
        simp at h
        cases h3 : callArgsLoop fuel (sortParams target.params) "" c g₁.tenv with
        | none => rw [h3] at h; simp at h
        | some q =>
          obtain ⟨argTypes, c₁, e₁⟩ := q
          rw [h3] at h
          simp at h
          rw [← h.2]
          exact haf sir f none g g₁ h1
  | programReturn sym =>
    simp only [genTerminatorGo] at h
    cases h1 : getSymTy func sym with
    | none => rw [h1] at h; simp at h
    | some ty =>
      rw [h1] at h
      simp at h
      cases h2 : llvmType fuel ty g.tenv with
      | none => rw [h2] at h; simp at h
      | some p =>
        obtain ⟨tyStr, e₁⟩ := p
        rw [h2] at h
        simp at h
        rw [← h.2]
        exact ⟨fun id hid => hid, fun id hid => rfl⟩
  | endFunction =>
    simp [genTerminatorGo] at h
    rw [← h.2]
    exact ⟨fun id hid => hid, fun id hid => rfl⟩
  | crash =>
    simp [genTerminatorGo] at h
    rw [← h.2]
    exact ⟨fun id hid => hid, fun id hid => rfl⟩

theorem genFunctionGo_inv {addFn : AddFn}
    (haf : ∀ sir fid pf g g', addFn sir fid pf g = some g' →
      (∀ id, id ∈ g.visited → id ∈ g'.visited) ∧
      (∀ id, id ∈ g.visited →
        countPlain id g'.bodyCode = countPlain id g.bodyCode))
    {fuel : Nat} {sir : SirProgram} {func : SirFunction} :
    ∀ (blocks : List BasicBlock) {c : Ctx} {g : Gen} {c' : Ctx} {g' : Gen},
      genFunctionGo addFn fuel sir func blocks c g = some (c', g') →
      (∀ id, id ∈ g.visited → id ∈ g'.visited) ∧
      (∀ id, id ∈ g.visited →
        countPlain id g'.bodyCode = countPlain id g.bodyCode)
  | [], c, g, c', g' => by
    intro h
    simp [genFunctionGo] at h
    rw [← h.2]
    exact ⟨fun id hid => hid, fun id hid => rfl⟩
  | b :: rest, c, g, c', g' => by
    intro h
    simp only [genFunctionGo] at h
    cases h1 : genStatementsLoop fuel func b.statements
        (ctxAdd c ("b.b" ++ toString b.id ++ ":")) g.tenv with
    | none => rw [h1] at h; simp at h
    | some p =>
      obtain ⟨c₁, e₁⟩ := p
      rw [h1] at h
      simp at h
      cases h2 : genTerminatorGo addFn fuel b.terminator sir func c₁
          { g with tenv := e₁ } with
      | none => rw [h2] at h; simp at h
      | some q =>
        obtain ⟨c₂, g₂⟩ := q
        rw [h2] at h
        simp at h
        obtain ⟨m1, p1⟩ := genTerminatorGo_inv haf h2
        obtain ⟨m2, p2⟩ := genFunctionGo_inv haf rest h
        exact ⟨fun id hid => m2 id (m1 id hid),
          fun id hid => (p2 id (m1 id hid)).trans (p1 id hid)⟩

theorem optSomeBind {α β : Type} (a : α) (f : α → Option β) :
    ((some a : Option α) >>= f) = f a := rfl

theorem optNoneBind {α β : Type} (f : α → Option β) :
    ((none : Option α) >>= f) = none := rfl

theorem optBindEqSome {α β : Type} {x : Option α} {f : α → Option β} {b : β} :
    ((x >>= f) = some b) ↔ ∃ a, x = some a ∧ f a = some b := by
  cases x <;> simp

theorem countPlain_cons_define (j f : Nat) (k : DefKind) (a : String)
    (rest : List Line) :
    countPlain j (Line.define f k a :: rest) =
      countPlain j rest +
        (if k = DefKind.plain ∧ f = j then 1 else 0) := by
  simp only [countPlain, List.countP_cons]
  cases k <;> simp [beq_iff_eq]

set_option maxHeartbeats 2000000 in
theorem addFunction_inv : ∀ (fuel : Nat) (sir : SirProgram) (fid : Nat)
    (pf : Option ParallelForData) (g g' : Gen),
    addFunction fuel sir fid pf g = some g' →
    (∀ id, id ∈ g.visited → id ∈ g'.visited) ∧
    (∀ id, id ∈ g.visited →
      countPlain id g'.bodyCode = countPlain id g.bodyCode) ∧
    (∀ func, sir.funcs[fid]? = some func →
      func.id ∈ g'.visited ∧
      (func.id ∉ g.visited →
        countPlain func.id g'.bodyCode = countPlain func.id g.bodyCode + 1)) := by
  intro fuel
  induction fuel with
  | zero => intro sir fid pf g g' h; simp [addFunction] at h
  | succ fuel ih =>
    intro sir fid pf g g' h
    have haf : ∀ sir fid pf g g', addFunction fuel sir fid pf g = some g' →
        (∀ id, id ∈ g.visited → id ∈ g'.visited) ∧
        (∀ id, id ∈ g.visited →
          countPlain id g'.bodyCode = countPlain id g.bodyCode) :=
      fun sir fid pf g g' hh =>
        ⟨(ih sir fid pf g g' hh).1, (ih sir fid pf g g' hh).2.1⟩
    unfold addFunction at h
    cases hlook : sir.funcs[fid]? with
    | none => rw [hlook, optNoneBind] at h; cases h
    | some func =>
      rw [hlook, optSomeBind] at h
      by_cases hv : func.id ∈ g.visited
      · rw [if_pos hv] at h
        cases h
        refine ⟨fun id hid => hid, fun id hid => rfl, ?_⟩
        intro f hf
        injection hf with hf
        subst hf
        exact ⟨hv, fun hnv => absurd hv hnv⟩
      · rw [if_neg hv] at h
        rw [optBindEqSome] at h
        obtain ⟨⟨argTypes, e1⟩, h1, h⟩ := h
        try simp only [] at h
        rw [optBindEqSome] at h
        obtain ⟨⟨c2, e2⟩, h2, h⟩ := h
        try simp only [] at h
        rw [optBindEqSome] at h
        obtain ⟨⟨c3, e3⟩, h3, h⟩ := h
        try simp only [] at h
        cases pf with
        | none =>
          simp only [Option.isSome_none, Bool.false_eq_true, if_false] at h
          rw [optSomeBind] at h
          try simp only [] at h
          rw [optBindEqSome] at h
          obtain ⟨firstBlock, hb, h⟩ := h
          try simp only [] at h
          rw [optBindEqSome] at h
          obtain ⟨⟨c4, g4⟩, h4, h⟩ := h
          try simp only [] at h
          rw [optSomeBind] at h
          try simp only [] at h
          rw [optSomeBind] at h
          try simp only [] at h
          obtain ⟨m, p⟩ := genFunctionGo_inv haf func.blocks h4
          by_cases h0 : func.id = 0
          · rw [if_pos h0] at h
            rw [optBindEqSome] at h
            obtain ⟨⟨f0Lines, e5⟩, h5, h⟩ := h
            cases h
            refine ⟨?_, ?_, ?_⟩
            · intro id hid
              exact m id (List.mem_cons_of_mem _ hid)
            · intro id hid
              have hne : func.id ≠ id := fun he => hv (he ▸ hid)
              simp only [countPlain_append, countPlain_cons_define,
                countPlain_raw, genF0Par_countPlain h5]
              rw [p id (List.mem_cons_of_mem _ hid)]
              simp [hne]
            · intro f hf
              injection hf with hf
              subst hf
              refine ⟨m func.id (List.mem_cons_self _ _), fun hnv => ?_⟩
              simp only [countPlain_append, countPlain_cons_define,
                countPlain_raw, genF0Par_countPlain h5]
              rw [p func.id (List.mem_cons_self _ _)]
              simp
          · rw [if_neg h0] at h
            cases h
            refine ⟨?_, ?_, ?_⟩
            · intro id hid
              exact m id (List.mem_cons_of_mem _ hid)
            · intro id hid
              have hne : func.id ≠ id := fun he => hv (he ▸ hid)
              simp only [countPlain_append, countPlain_cons_define,
                countPlain_raw]
              rw [p id (List.mem_cons_of_mem _ hid)]
              simp [hne]
            · intro f hf
              injection hf with hf
              subst hf
              refine ⟨m func.id (List.mem_cons_self _ _), fun hnv => ?_⟩
              simp only [countPlain_append, countPlain_cons_define,
                countPlain_raw]
              rw [p func.id (List.mem_cons_self _ _)]
              simp
        | some pfv =>
          simp only [Option.isSome_some, if_true] at h
          rw [optBindEqSome] at h
          obtain ⟨⟨lhs, c4, e4⟩, hlh, h⟩ := h
          try simp only [] at h
          rw [optSomeBind] at h
          try simp only [] at h
          rw [optBindEqSome] at h
          obtain ⟨firstBlock, hb, h⟩ := h
          try simp only [] at h
          rw [optBindEqSome] at h
          obtain ⟨⟨cFG, gFG⟩, hFG, h⟩ := h
          try simp only [] at h
          rw [optBindEqSome] at h
          obtain ⟨firstIter, hfi, h⟩ := h
          try simp only [] at h
          by_cases hk : firstIter.kind = IterKind.simdIter
          · rw [if_pos hk] at h
            rw [optBindEqSome] at h
            obtain ⟨w, hw, h⟩ := h
            try simp only [] at h
            rw [optSomeBind] at h
            try simp only [] at h
            rw [optBindEqSome] at h
            obtain ⟨⟨wrapLines, e6⟩, hW, h⟩ := h
            try simp only [] at h
            rw [optBindEqSome] at h
            obtain ⟨⟨pbLines, e7⟩, hPB, h⟩ := h
            try simp only [] at h
            rw [optBindEqSome] at h
            obtain ⟨contF, hcf, h⟩ := h
            try simp only [] at h
            rw [optBindEqSome] at h
            obtain ⟨⟨pcLines, e8⟩, hPC, h⟩ := h
            try simp only [] at h
            rw [optSomeBind] at h
            try simp only [] at h
            obtain ⟨m, p⟩ := genFunctionGo_inv haf func.blocks hFG
            by_cases h0 : func.id = 0
            · rw [if_pos h0] at h
              rw [optBindEqSome] at h
              obtain ⟨⟨f0Lines, e9⟩, h9, h⟩ := h
              cases h
              refine ⟨?_, ?_, ?_⟩
              · intro id hid
                exact m id (List.mem_cons_of_mem _ hid)
              · intro id hid
                have hne : func.id ≠ id := fun he => hv (he ▸ hid)
                simp only [countPlain_append, countPlain_cons_define,
                  countPlain_raw, genWrapper_countPlain hW,
                  genParBodyCtx_countPlain hPB, genParContCtx_countPlain hPC,
                  genF0Par_countPlain h9]
                rw [p id (List.mem_cons_of_mem _ hid)]
                simp [hne]
              · intro f hf
                injection hf with hf
                subst hf
                refine ⟨m func.id (List.mem_cons_self _ _), fun hnv => ?_⟩
                simp only [countPlain_append, countPlain_cons_define,
                  countPlain_raw, genWrapper_countPlain hW,
                  genParBodyCtx_countPlain hPB, genParContCtx_countPlain hPC,
                  genF0Par_countPlain h9]
                rw [p func.id (List.mem_cons_self _ _)]
                simp
            · rw [if_neg h0] at h
              cases h
              refine ⟨?_, ?_, ?_⟩
              · intro id hid
                exact m id (List.mem_cons_of_mem _ hid)
              · intro id hid
                have hne : func.id ≠ id := fun he => hv (he ▸ hid)
                simp only [countPlain_append, countPlain_cons_define,
                  countPlain_raw, genWrapper_countPlain hW,
                  genParBodyCtx_countPlain hPB, genParContCtx_countPlain hPC]
                rw [p id (List.mem_cons_of_mem _ hid)]
                simp [hne]
              · intro f hf
                injection hf with hf
                subst hf
                refine ⟨m func.id (List.mem_cons_self _ _), fun hnv => ?_⟩
                simp only [countPlain_append, countPlain_cons_define,
                  countPlain_raw, genWrapper_countPlain hW,
                  genParBodyCtx_countPlain hPB, genParContCtx_countPlain hPC]
                rw [p func.id (List.mem_cons_self _ _)]
                simp

          · rw [if_neg hk] at h
            rw [optSomeBind] at h
            try simp only [] at h
            rw [optSomeBind] at h
            try simp only [] at h
            rw [optBindEqSome] at h
            obtain ⟨⟨wrapLines, e6⟩, hW, h⟩ := h
            try simp only [] at h
            rw [optBindEqSome] at h
            obtain ⟨⟨pbLines, e7⟩, hPB, h⟩ := h
            try simp only [] at h
            rw [optBindEqSome] at h
            obtain ⟨contF, hcf, h⟩ := h
            try simp only [] at h
            rw [optBindEqSome] at h
            obtain ⟨⟨pcLines, e8⟩, hPC, h⟩ := h
            try simp only [] at h
            rw [optSomeBind] at h
            try simp only [] at h
            obtain ⟨m, p⟩ := genFunctionGo_inv haf func.blocks hFG
            by_cases h0 : func.id = 0
            · rw [if_pos h0] at h
              rw [optBindEqSome] at h
              obtain ⟨⟨f0Lines, e9⟩, h9, h⟩ := h
              cases h
              refine ⟨?_, ?_, ?_⟩
              · intro id hid
                exact m id (List.mem_cons_of_mem _ hid)
              · intro id hid
                have hne : func.id ≠ id := fun he => hv (he ▸ hid)
                simp only [countPlain_append, countPlain_cons_define,
                  countPlain_raw, genWrapper_countPlain hW,
                  genParBodyCtx_countPlain hPB, genParContCtx_countPlain hPC,
                  genF0Par_countPlain h9]
                rw [p id (List.mem_cons_of_mem _ hid)]
                simp [hne]
              · intro f hf
                injection hf with hf
                subst hf
                refine ⟨m func.id (List.mem_cons_self _ _), fun hnv => ?_⟩
                simp only [countPlain_append, countPlain_cons_define,
                  countPlain_raw, genWrapper_countPlain hW,
                  genParBodyCtx_countPlain hPB, genParContCtx_countPlain hPC,
                  genF0Par_countPlain h9]
                rw [p func.id (List.mem_cons_self _ _)]
                simp
            · rw [if_neg h0] at h
              cases h
              refine ⟨?_, ?_, ?_⟩
              · intro id hid
                exact m id (List.mem_cons_of_mem _ hid)
              · intro id hid
                have hne : func.id ≠ id := fun he => hv (he ▸ hid)
                simp only [countPlain_append, countPlain_cons_define,
                  countPlain_raw, genWrapper_countPlain hW,
                  genParBodyCtx_countPlain hPB, genParContCtx_countPlain hPC]
                rw [p id (List.mem_cons_of_mem _ hid)]
                simp [hne]
              · intro f hf
                injection hf with hf
                subst hf
                refine ⟨m func.id (List.mem_cons_self _ _), fun hnv => ?_⟩
                simp only [countPlain_append, countPlain_cons_define,
                  countPlain_raw, genWrapper_countPlain hW,
                  genParBodyCtx_countPlain hPB, genParContCtx_countPlain hPC]
                rw [p func.id (List.mem_cons_self _ _)]
                simp

/-- C3: lowering a SIR function against a generator that has not yet
visited its id emits exactly one plain `define` header for that id
(recursive requests during terminator lowering are deduplicated by the
visited set), and a second `add_function` request for the same id
returns successfully with the generator left entirely unchanged. -/
theorem C3_add_function_once (fuel fuel' : Nat) (sir : SirProgram) (fid : Nat)
    (pf pf' : Option ParallelForData) (g g₁ : Gen) (func : SirFunction)
    (hlook : sir.funcs[fid]? = some func)
    (hfresh : func.id ∉ g.visited)
    (h : addFunction fuel sir fid pf g = some g₁) :
    countPlain func.id g₁.bodyCode = countPlain func.id g.bodyCode + 1 ∧
    addFunction (fuel' + 1) sir fid pf' g₁ = some g₁ := by
  obtain ⟨m1, p1, h3⟩ := addFunction_inv fuel sir fid pf g g₁ h
  obtain ⟨hmem, hbump⟩ := h3 func hlook
  refine ⟨hbump hfresh, ?_⟩
  unfold addFunction
  rw [hlook, optSomeBind, if_pos hmem]

theorem C3_witness :
    countPlain 0 c3Gen.bodyCode = countPlain 0 initGen.bodyCode + 1 ∧
    addFunction 1 soloSir 0 none c3Gen = some c3Gen :=
  C3_add_function_once 20 0 soloSir 0 none none initGen c3Gen soloFunc
    (by rfl) (by decide) (by rfl)

theorem ctxAdd_mem (c : Ctx) (s : String) : s ∈ (ctxAdd c s).code :=
  List.mem_append_right _ (List.mem_singleton.mpr rfl)

theorem ctxAdd_mono {l : String} {c : Ctx} (s : String) (h : l ∈ c.code) :
    l ∈ (ctxAdd c s).code :=
  List.mem_append_left _ h

theorem ctxAddAll_mono {l : String} {c : Ctx} (ls : List String)
    (h : l ∈ c.code) : l ∈ (ctxAddAll c ls).code :=
  List.mem_append_left _ h

theorem ctxAddAll_mem {l : String} {c : Ctx} {ls : List String}
    (h : l ∈ ls) : l ∈ (ctxAddAll c ls).code :=
  List.mem_append_right _ h

theorem loadVar_mono {l : String} {c : Ctx} (sym ty : String)
    (h : l ∈ c.code) : l ∈ (loadVar sym ty c).2.code := by
  simp only [loadVar, ctxNext]
  split <;> exact ctxAdd_mono _ h

theorem unloadArgLoop_mono (llTy storage : String) :
    ∀ (lst : List (Nat × (Sym × Ty))) {c : Ctx} {l : String},
      l ∈ c.code → l ∈ (unloadArgLoop llTy storage lst c).code
  | [], c, l => fun h => h
  | (i, (arg, ty)) :: rest, c, l => fun h =>
    unloadArgLoop_mono llTy storage rest (ctxAdd_mono _ h)

theorem unloadArgStruct_mono {fuel : Nat} {params : Params} {c : Ctx}
    {e : TypeEnv} {c' : Ctx} {e' : TypeEnv}
    (h : unloadArgStruct fuel params c e = some (c', e'))
    {l : String} (hl : l ∈ c.code) : l ∈ c'.code := by
  simp only [unloadArgStruct] at h
  cases h1 : llvmType fuel (Ty.struct ((sortParams params).map (·.2))) e with
  | none => rw [h1] at h; simp at h
  | some p =>
    obtain ⟨llTy, e₁⟩ := p
    rw [h1] at h
    simp at h
    rw [← h.1]
    exact unloadArgLoop_mono _ _ _ (ctxAddAll_mono _ hl)

theorem newPiecesLoop_mono {fuel : Nat} :
    ∀ (lst : List (Sym × Ty)) {c : Ctx} {e : TypeEnv} {c' : Ctx} {e' : TypeEnv},
      newPiecesLoop fuel lst c e = some (c', e') →
      ∀ {l : String}, l ∈ c.code → l ∈ c'.code
  | [], c, e, c', e' => by
    intro h l hl
    simp [newPiecesLoop] at h
    rw [← h.1]
    exact hl
  | (arg, ty) :: rest, c, e, c', e' => by
    intro h l hl
    cases ty with
    | bldAppender t =>
      simp only [newPiecesLoop] at h
      cases h1 : llvmType fuel (Ty.bldAppender t) e with
      | none => rw [h1] at h; simp at h
      | some p =>
        obtain ⟨s, e₁⟩ := p
        rw [h1] at h
        simp at h
        exact newPiecesLoop_mono rest h (ctxAdd_mono _ hl)
    | scalar k => exact newPiecesLoop_mono rest h hl
    | simd k => exact newPiecesLoop_mono rest h hl
    | struct fs => exact newPiecesLoop_mono rest h hl
    | vector t => exact newPiecesLoop_mono rest h hl
    | dict kt vt => exact newPiecesLoop_mono rest h hl
    | bldMerger t op => exact newPiecesLoop_mono rest h hl
    | bldDictMerger kt vt op => exact newPiecesLoop_mono rest h hl
    | bldGroupMerger kt vt => exact newPiecesLoop_mono rest h hl
    | bldVecMerger t op => exact newPiecesLoop_mono rest h hl

theorem newPiecesLoop_newPiece {fuel : Nat} :
    ∀ (lst : List (Sym × Ty)) {c : Ctx} {e : TypeEnv} {c' : Ctx} {e' : TypeEnv},
      newPiecesLoop fuel lst c e = some (c', e') →
      ∀ {arg : Sym} {t : Ty}, (arg, Ty.bldAppender t) ∈ lst →
      ∃ s, ("call void @" ++ pctTo "" s ++ ".newPiece(" ++ s ++ " " ++
        llvmSymbol arg ++ ", %work_t* %cur.work)") ∈ c'.code
  | [], c, e, c', e' => by
    intro h arg t hmem
    cases hmem
  | (arg₀, ty₀) :: rest, c, e, c', e' => by
    intro h arg t hmem
    rcases List.mem_cons.mp hmem with heq | hmem₂
    · injection heq with h1 h2
      subst h1
      subst h2
      simp only [newPiecesLoop] at h
      cases h1 : llvmType fuel (Ty.bldAppender t) e with
      | none => rw [h1] at h; simp at h
      | some p =>
        obtain ⟨s, e₁⟩ := p
        rw [h1] at h
        simp at h
        exact ⟨s, newPiecesLoop_mono rest h (ctxAdd_mem _ _)⟩
    · cases ty₀ with
      | bldAppender t₀ =>
        simp only [newPiecesLoop] at h
        cases h1 : llvmType fuel (Ty.bldAppender t₀) e with
        | none => rw [h1] at h; simp at h
        | some p =>
          obtain ⟨s, e₁⟩ := p
          rw [h1] at h
          simp at h
          exact newPiecesLoop_newPiece rest h hmem₂
      | scalar k => exact newPiecesLoop_newPiece rest h hmem₂
      | simd k => exact newPiecesLoop_newPiece rest h hmem₂
      | struct fs => exact newPiecesLoop_newPiece rest h hmem₂
      | vector t' => exact newPiecesLoop_newPiece rest h hmem₂
      | dict kt vt => exact newPiecesLoop_newPiece rest h hmem₂
      | bldMerger t' op => exact newPiecesLoop_newPiece rest h hmem₂
      | bldDictMerger kt vt op => exact newPiecesLoop_newPiece rest h hmem₂
      | bldGroupMerger kt vt => exact newPiecesLoop_newPiece rest h hmem₂
      | bldVecMerger t' op => exact newPiecesLoop_newPiece rest h hmem₂

theorem createNewPieces_facts {fuel : Nat} {params : Params} {c : Ctx}
    {e : TypeEnv} {c' : Ctx} {e' : TypeEnv}
    (h : createNewPieces fuel params c e = some (c', e')) :
    (∀ l, l ∈ c.code → l ∈ c'.code) ∧
    ("br i1 %t.t" ++ toString (c.varId + 2) ++
      ", label %new_pieces, label %fn_call") ∈ c'.code ∧
    ("new_pieces:") ∈ c'.code ∧
    (∀ arg t, (arg, Ty.bldAppender t) ∈ sortParams params →
      ∃ s, ("call void @" ++ pctTo "" s ++ ".newPiece(" ++ s ++ " " ++
        llvmSymbol arg ++ ", %work_t* %cur.work)") ∈ c'.code) := by
  simp only [createNewPieces, ctxNext] at h
  rw [optBindEqSome] at h
  obtain ⟨⟨c₂, e₂⟩, h1, h⟩ := h
  try simp only [] at h
  cases h
  refine ⟨?_, ?_, ?_, ?_⟩
  · intro l hl
    exact ctxAdd_mono _ (newPiecesLoop_mono _ h1 (ctxAddAll_mono _ hl))
  · refine ctxAdd_mono _ (newPiecesLoop_mono _ h1 (ctxAddAll_mem ?_))
    simp only [List.mem_cons]
    exact Or.inr (Or.inr (Or.inr (Or.inl rfl)))
  · refine ctxAdd_mono _ (newPiecesLoop_mono _ h1 (ctxAddAll_mem ?_))
    simp
  · intro arg t hmem
    obtain ⟨s, hs⟩ := newPiecesLoop_newPiece _ h1 hmem
    exact ⟨s, ctxAdd_mono _ hs⟩

/-- C7 (amended): the continuation trampoline `@f<cont>_par` loads the
work descriptor full-task flag, branches on it to `%new_pieces` /
`%fn_call`, emits one `.newPiece` call for every Appender-typed parameter
in the guarded `new_pieces` section (so the calls are conditional on the
full-task flag, not unconditional), and calls the continuation function
with a plain `get_arg_str` argument list carrying no range arguments.
The original unconditional reading is refuted by
`C7_unconditional_counterexample`. -/
theorem C7_cont_trampoline {fuel : Nat} {contId : Nat} {contParams : Params}
    {e : TypeEnv} {ls : List Line} {e' : TypeEnv}
    (h : genParContCtx fuel contId contParams e = some (ls, e')) :
    (∃ n : Nat, Line.raw ("br i1 %t.t" ++ toString n ++
      ", label %new_pieces, label %fn_call") ∈ ls) ∧
    Line.raw "new_pieces:" ∈ ls ∧
    (∀ arg t, (arg, Ty.bldAppender t) ∈ sortParams contParams →
      ∃ s, Line.raw ("call void @" ++ pctTo "" s ++ ".newPiece(" ++ s ++
        " " ++ llvmSymbol arg ++ ", %work_t* %cur.work)") ∈ ls) ∧
    (∃ args eA, getArgStr fuel contParams "" eA = some (args, e') ∧
      Line.raw ("call void @f" ++ toString contId ++ "(" ++ args ++ ")") ∈ ls)
    := by
  simp only [genParContCtx] at h
  cases hc : genParContCore fuel contId contParams e with
  | none => rw [hc] at h; simp at h
  | some p =>
    obtain ⟨c, eX⟩ := p
    rw [hc] at h
    simp at h
    obtain ⟨hls, he⟩ := h
    subst he
    subst hls
    simp only [genParContCore] at hc
    rw [optBindEqSome] at hc
    obtain ⟨⟨c₁, e₁⟩, hU, hc⟩ := hc
    try simp only [] at hc
    rw [optBindEqSome] at hc
    obtain ⟨⟨c₂, e₂⟩, hN, hc⟩ := hc
    try simp only [] at hc
    rw [optBindEqSome] at hc
    obtain ⟨⟨args, e₃⟩, hA, hc⟩ := hc
    try simp only [] at hc
    cases hc
    obtain ⟨hmono, hbr, hnp, hpieces⟩ := createNewPieces_facts hN
    refine ⟨⟨c₁.varId + 2, ?_⟩, ?_, ?_, ?_⟩
    · exact List.mem_cons_of_mem _ (List.mem_map_of_mem _
        (ctxAdd_mono _ (ctxAdd_mono _ (ctxAdd_mono _ (ctxAdd_mono _ hbr)))))
    · exact List.mem_cons_of_mem _ (List.mem_map_of_mem _
        (ctxAdd_mono _ (ctxAdd_mono _ (ctxAdd_mono _ (ctxAdd_mono _ hnp)))))
    · intro arg t hmem
      obtain ⟨s, hs⟩ := hpieces arg t hmem
      exact ⟨s, List.mem_cons_of_mem _ (List.mem_map_of_mem _
        (ctxAdd_mono _ (ctxAdd_mono _ (ctxAdd_mono _ (ctxAdd_mono _ hs)))))⟩
    · refine ⟨args, e₂, hA, ?_⟩
      exact List.mem_cons_of_mem _ (List.mem_map_of_mem _
        (ctxAdd_mono _ (ctxAdd_mono _ (ctxAdd_mem _ _))))

theorem C7_cont_trampoline_witness :
    (∃ n : Nat, Line.raw ("br i1 %t.t" ++ toString n ++
      ", label %new_pieces, label %fn_call") ∈ c7Lines) ∧
    Line.raw "new_pieces:" ∈ c7Lines ∧
    (∀ arg t, (arg, Ty.bldAppender t) ∈ sortParams [(baSym, appI32)] →
      ∃ s, Line.raw ("call void @" ++ pctTo "" s ++ ".newPiece(" ++ s ++
        " " ++ llvmSymbol arg ++ ", %work_t* %cur.work)") ∈ c7Lines) ∧
    (∃ args eA, getArgStr 20 [(baSym, appI32)] "" eA = some (args, c7Env) ∧
      Line.raw ("call void @f" ++ toString 0 ++ "(" ++ args ++ ")") ∈ c7Lines)
    :=
  @C7_cont_trampoline 20 0 [(baSym, appI32)] initTypeEnv c7Lines c7Env
    (by rfl)

theorem C7_unconditional_counterexample :
    (genParContCtx 20 0 [(baSym, appI32)] initTypeEnv).map Prod.fst =
      some [Line.define 0 .par "%work_t* %cur.work",
        Line.raw "entry:",
        Line.raw "%t.t2 = getelementptr %work_t, %work_t* %cur.work, i32 0, i32 0",
        Line.raw "%t.t3 = load i8*, i8** %t.t2",
        Line.raw "%t.t0 = bitcast i8* %t.t3 to %s0*",
        Line.raw "%t.t1 = load %s0, %s0* %t.t0",
        Line.raw "%ba = extractvalue %s0 %t.t1, 0",
        Line.raw "%t.t4 = getelementptr %work_t, %work_t* %cur.work, i32 0, i32 4",
        Line.raw "%t.t5 = load i32, i32* %t.t4",
        Line.raw "%t.t6 = trunc i32 %t.t5 to i1",
        Line.raw "br i1 %t.t6, label %new_pieces, label %fn_call",
        Line.raw "new_pieces:",
        Line.raw "call void @v0.bld.newPiece(%v0.bld %ba, %work_t* %cur.work)",
        Line.raw "br label %fn_call",
        Line.raw "fn_call:",
        Line.raw "call void @f0(%v0.bld %ba, %work_t* %cur.work)",
        Line.raw "ret void",
        Line.raw "\x7d\n\n"] := by rfl

theorem argStructLoop_mono {fuel : Nat} {llTy : String} :
    ∀ (lst : List (Nat × (Sym × Ty))) {prevRef : String} {c : Ctx}
      {e : TypeEnv} {out : String × Ctx × TypeEnv},
      argStructLoop fuel llTy lst prevRef c e = some out →
      ∀ {l : String}, l ∈ c.code → l ∈ out.2.1.code
  | [], prevRef, c, e, out => by
    intro h l hl
    simp only [argStructLoop] at h
    injection h with h
    rw [← h]
    exact hl
  | (i, (arg, ty)) :: rest, prevRef, c, e, out => by
    intro h l hl
    simp only [argStructLoop, ctxNext] at h
    rw [optBindEqSome] at h
    obtain ⟨⟨tyStr, e₁⟩, h1, h⟩ := h
    try simp only [] at h
    exact argStructLoop_mono rest h (ctxAdd_mono _ hl)

theorem getArgStruct_mono {fuel : Nat} {params : Params} {c : Ctx}
    {e : TypeEnv} {s : String} {c' : Ctx} {e' : TypeEnv}
    (h : getArgStruct fuel params c e = some (s, c', e'))
    {l : String} (hl : l ∈ c.code) : l ∈ c'.code := by
  simp only [getArgStruct] at h
  rw [optBindEqSome] at h
  obtain ⟨⟨llTy, e₁⟩, h1, h⟩ := h
  try simp only [] at h
  rw [optBindEqSome] at h
  obtain ⟨⟨prevRef, c₂, e₂⟩, h2, h⟩ := h
  try simp only [] at h
  cases h
  exact ctxAddAll_mono _ (argStructLoop_mono _ h2 hl)

set_option maxHeartbeats 3000000 in
/-- C8: the loop wrapper emits the `@pl_start_loop` call with bounds
`i64 0, i64 num_iters` and grain size 4096 for innermost loops and 1
otherwise; for an innermost loop it additionally emits the
`icmp ule num_iters, 4096` comparison with its branch to the serial
section, the in-place body call over `[0, num_iters)`, and the serial
continuation call. -/
theorem C8_wrapper_grain {fuel : Nat} {sir : SirProgram} {func : SirFunction}
    {pf : ParallelForData} {e : TypeEnv} {s : String} {c : Ctx} {e' : TypeEnv}
    (h : genWrapperCtx fuel sir func pf e = some (s, c, e')) :
    (∃ body cont : String,
      ("call void @pl_start_loop(%work_t* %cur.work, i8* " ++ body ++
        ", i8* " ++ cont ++ ", void (%work_t*)* @f" ++ toString func.id ++
        "_par, void (%work_t*)* @f" ++ toString pf.cont ++
        "_par, i64 0, i64 " ++ "%t.t0" ++ ", i32 " ++
        toString (if pf.innermost = true then (4096 : Nat) else 1) ++ ")") ∈
        c.code) ∧
    (pf.innermost = true →
      (∃ m : Nat,
        ("%t.t" ++ toString m ++ " = icmp ule i64 " ++ "%t.t0" ++
          ", 4096") ∈ c.code ∧
        ("br i1 " ++ ("%t.t" ++ toString m) ++
          ", label %for.ser, label %for.par") ∈ c.code) ∧
      (∃ bodyArgs eA eB, getArgStr fuel func.params "" eA = some (bodyArgs, eB) ∧
        ("call void @f" ++ toString func.id ++ "(" ++
          (bodyArgs ++ ", i64 0, i64 " ++ "%t.t0") ++ ")") ∈ c.code) ∧
      (∃ contF contArgs eC eD, sir.funcs[pf.cont]? = some contF ∧
        getArgStr fuel contF.params "" eC = some (contArgs, eD) ∧
        ("call void @f" ++ toString pf.cont ++ "(" ++ contArgs ++ ")") ∈
          c.code)) ∧
    (pf.innermost = false → ("br label %for.par") ∈ c.code) := by
  simp only [genWrapperCtx] at h
  rw [optBindEqSome] at h
  obtain ⟨combined, hComb, h⟩ := h
  try simp only [] at h
  rw [optBindEqSome] at h
  obtain ⟨⟨serial, eS⟩, hSer, h⟩ := h
  try simp only [] at h
  rw [optBindEqSome] at h
  obtain ⟨firstIter, hFI, h⟩ := h
  try simp only [] at h
  rw [optBindEqSome] at h
  obtain ⟨dataTy, hDT, h⟩ := h
  try simp only [] at h
  rw [optBindEqSome] at h
  obtain ⟨⟨dataTyStr, eD⟩, hLT, h⟩ := h
  try simp only [] at h
  by_cases hA : firstIter.kind = IterKind.simdIter ∨
      firstIter.kind = IterKind.scalarIter
  · rw [if_pos hA] at h
    by_cases hB : firstIter.start.isNone = true
    · rw [if_pos hB] at h
      rw [optSomeBind] at h
      try simp only [] at h
      rw [optBindEqSome] at h
      obtain ⟨⟨cB, eB⟩, hBL, h⟩ := h
      try simp only [] at h
      by_cases hin : pf.innermost = true
      · rw [if_pos hin] at h
        rw [optBindEqSome] at h
        obtain ⟨⟨bodyArgs, eBA⟩, hBA, h⟩ := h
        try simp only [] at h
        rw [optBindEqSome] at h
        obtain ⟨contF1, hCF1, h⟩ := h
        try simp only [] at h
        rw [optBindEqSome] at h
        obtain ⟨⟨contArgs, eCA⟩, hCA, h⟩ := h
        try simp only [] at h
        rw [optSomeBind] at h
        try simp only [] at h
        rw [optBindEqSome] at h
        obtain ⟨⟨bodyStruct, cS1, eS1⟩, hGS1, h⟩ := h
        try simp only [] at h
        rw [optBindEqSome] at h
        obtain ⟨contF2, hCF2, h⟩ := h
        try simp only [] at h
        rw [optBindEqSome] at h
        obtain ⟨⟨contStruct, cS2, eS2⟩, hGS2, h⟩ := h
        try simp only [] at h
        cases h
        simp only [hin, if_true]
        refine ⟨⟨bodyStruct, contStruct, ?_⟩, ?_, ?_⟩
        · exact ctxAdd_mono _ (ctxAdd_mono _ (ctxAdd_mono _ (ctxAdd_mono _
            (ctxAdd_mem _ _))))
        · intro h1
          refine ⟨⟨cB.varId + 1, ?_, ?_⟩, ⟨bodyArgs, _, _, hBA, ?_⟩,
            ⟨contF1, contArgs, _, _, hCF1, hCA, ?_⟩⟩
          · refine ctxAdd_mono _ (ctxAdd_mono _ (ctxAdd_mono _ (ctxAdd_mono _
              (ctxAdd_mono _ (getArgStruct_mono hGS2 (getArgStruct_mono hGS1
                (ctxAdd_mono _ (ctxAdd_mono _ (ctxAdd_mono _ (ctxAdd_mono _
                  (ctxAddAll_mem ?_)))))))))))
            simp only [List.mem_cons]
            exact Or.inl rfl
          · refine ctxAdd_mono _ (ctxAdd_mono _ (ctxAdd_mono _ (ctxAdd_mono _
              (ctxAdd_mono _ (getArgStruct_mono hGS2 (getArgStruct_mono hGS1
                (ctxAdd_mono _ (ctxAdd_mono _ (ctxAdd_mono _ (ctxAdd_mono _
                  (ctxAddAll_mem ?_)))))))))))
            simp only [List.mem_cons]
            exact Or.inr (Or.inl rfl)
          · exact ctxAdd_mono _ (ctxAdd_mono _ (ctxAdd_mono _ (ctxAdd_mono _
              (ctxAdd_mono _ (getArgStruct_mono hGS2 (getArgStruct_mono hGS1
                (ctxAdd_mono _ (ctxAdd_mono _ (ctxAdd_mono _ (ctxAdd_mem _ _))))))))))
          · exact ctxAdd_mono _ (ctxAdd_mono _ (ctxAdd_mono _ (ctxAdd_mono _
              (ctxAdd_mono _ (getArgStruct_mono hGS2 (getArgStruct_mono hGS1
                (ctxAdd_mono _ (ctxAdd_mono _ (ctxAdd_mem _ _)))))))))
        · intro h2
          first
          | exact h2.elim
          | simp at h2
      · rw [if_neg hin] at h
        rw [optSomeBind] at h
        try simp only [] at h
        rw [optBindEqSome] at h
        obtain ⟨⟨bodyStruct, cS1, eS1⟩, hGS1, h⟩ := h
        try simp only [] at h
        rw [optBindEqSome] at h
        obtain ⟨contF2, hCF2, h⟩ := h
        try simp only [] at h
        rw [optBindEqSome] at h
        obtain ⟨⟨contStruct, cS2, eS2⟩, hGS2, h⟩ := h
        try simp only [] at h
        cases h
        simp only [Bool.not_eq_true] at hin
        simp only [hin, Bool.false_eq_true, if_false]
        refine ⟨⟨bodyStruct, contStruct, ?_⟩, ?_, ?_⟩
        · exact ctxAdd_mono _ (ctxAdd_mono _ (ctxAdd_mono _ (ctxAdd_mono _
            (ctxAdd_mem _ _))))
        · intro h1
          first
          | exact h1.elim
          | simp at h1
        · intro h2
          exact ctxAdd_mono _ (ctxAdd_mono _ (ctxAdd_mono _ (ctxAdd_mono _
            (ctxAdd_mono _ (getArgStruct_mono hGS2 (getArgStruct_mono hGS1
              (ctxAdd_mono _ (ctxAdd_mem _ _))))))))
    · rw [if_neg hB] at h
      by_cases hC : firstIter.kind = IterKind.simdIter
      · rw [if_pos hC] at h
        cases h
      · rw [if_neg hC] at h
        rw [optBindEqSome] at h
        obtain ⟨startSym, hS1, h⟩ := h
        try simp only [] at h
        rw [optBindEqSome] at h
        obtain ⟨stopSym, hS2, h⟩ := h
        try simp only [] at h
        rw [optBindEqSome] at h
        obtain ⟨strideSym, hS3, h⟩ := h
        try simp only [] at h
        rw [optSomeBind] at h
        try simp only [] at h
        rw [optBindEqSome] at h
        obtain ⟨⟨cB, eB⟩, hBL, h⟩ := h
        try simp only [] at h
        by_cases hin : pf.innermost = true
        · rw [if_pos hin] at h
          rw [optBindEqSome] at h
          obtain ⟨⟨bodyArgs, eBA⟩, hBA, h⟩ := h
          try simp only [] at h
          rw [optBindEqSome] at h
          obtain ⟨contF1, hCF1, h⟩ := h
          try simp only [] at h
          rw [optBindEqSome] at h
          obtain ⟨⟨contArgs, eCA⟩, hCA, h⟩ := h
          try simp only [] at h
          rw [optSomeBind] at h
          try simp only [] at h
          rw [optBindEqSome] at h
          obtain ⟨⟨bodyStruct, cS1, eS1⟩, hGS1, h⟩ := h
          try simp only [] at h
          rw [optBindEqSome] at h
          obtain ⟨contF2, hCF2, h⟩ := h
          try simp only [] at h
          rw [optBindEqSome] at h
          obtain ⟨⟨contStruct, cS2, eS2⟩, hGS2, h⟩ := h
          try simp only [] at h
          cases h
          simp only [hin, if_true]
          refine ⟨⟨bodyStruct, contStruct, ?_⟩, ?_, ?_⟩
          · exact ctxAdd_mono _ (ctxAdd_mono _ (ctxAdd_mono _ (ctxAdd_mono _
              (ctxAdd_mem _ _))))
          · intro h1
            refine ⟨⟨cB.varId + 1, ?_, ?_⟩, ⟨bodyArgs, _, _, hBA, ?_⟩,
              ⟨contF1, contArgs, _, _, hCF1, hCA, ?_⟩⟩
            · refine ctxAdd_mono _ (ctxAdd_mono _ (ctxAdd_mono _ (ctxAdd_mono _
                (ctxAdd_mono _ (getArgStruct_mono hGS2 (getArgStruct_mono hGS1
                  (ctxAdd_mono _ (ctxAdd_mono _ (ctxAdd_mono _ (ctxAdd_mono _
                    (ctxAddAll_mem ?_)))))))))))
              simp only [List.mem_cons]
              exact Or.inl rfl
            · refine ctxAdd_mono _ (ctxAdd_mono _ (ctxAdd_mono _ (ctxAdd_mono _
                (ctxAdd_mono _ (getArgStruct_mono hGS2 (getArgStruct_mono hGS1
                  (ctxAdd_mono _ (ctxAdd_mono _ (ctxAdd_mono _ (ctxAdd_mono _
                    (ctxAddAll_mem ?_)))))))))))
              simp only [List.mem_cons]
              exact Or.inr (Or.inl rfl)
            · exact ctxAdd_mono _ (ctxAdd_mono _ (ctxAdd_mono _ (ctxAdd_mono _
                (ctxAdd_mono _ (getArgStruct_mono hGS2 (getArgStruct_mono hGS1
                  (ctxAdd_mono _ (ctxAdd_mono _ (ctxAdd_mono _ (ctxAdd_mem _ _))))))))))
            · exact ctxAdd_mono _ (ctxAdd_mono _ (ctxAdd_mono _ (ctxAdd_mono _
                (ctxAdd_mono _ (getArgStruct_mono hGS2 (getArgStruct_mono hGS1
                  (ctxAdd_mono _ (ctxAdd_mono _ (ctxAdd_mem _ _)))))))))
          · intro h2
            first
            | exact h2.elim
            | simp at h2
        · rw [if_neg hin] at h
          rw [optSomeBind] at h
          try simp only [] at h
          rw [optBindEqSome] at h
          obtain ⟨⟨bodyStruct, cS1, eS1⟩, hGS1, h⟩ := h
          try simp only [] at h
          rw [optBindEqSome] at h
          obtain ⟨contF2, hCF2, h⟩ := h
          try simp only [] at h
          rw [optBindEqSome] at h
          obtain ⟨⟨contStruct, cS2, eS2⟩, hGS2, h⟩ := h
          try simp only [] at h
          cases h
          simp only [Bool.not_eq_true] at hin
          simp only [hin, Bool.false_eq_true, if_false]
          refine ⟨⟨bodyStruct, contStruct, ?_⟩, ?_, ?_⟩
          · exact ctxAdd_mono _ (ctxAdd_mono _ (ctxAdd_mono _ (ctxAdd_mono _
              (ctxAdd_mem _ _))))
          · intro h1
            first
            | exact h1.elim
            | simp at h1
          · intro h2
            exact ctxAdd_mono _ (ctxAdd_mono _ (ctxAdd_mono _ (ctxAdd_mono _
              (ctxAdd_mono _ (getArgStruct_mono hGS2 (getArgStruct_mono hGS1
                (ctxAdd_mono _ (ctxAdd_mem _ _))))))))
  · rw [if_neg hA] at h
    by_cases hD : firstIter.start.isSome = true
    · rw [if_pos hD] at h
      cases h
    · rw [if_neg hD] at h
      rw [optBindEqSome] at h
      obtain ⟨symTy, hST, h⟩ := h
      try simp only [] at h
      rw [optSomeBind] at h
      try simp only [] at h
      rw [optBindEqSome] at h
      obtain ⟨⟨cB, eB⟩, hBL, h⟩ := h
      try simp only [] at h
      by_cases hin : pf.innermost = true
      · rw [if_pos hin] at h
        rw [optBindEqSome] at h
        obtain ⟨⟨bodyArgs, eBA⟩, hBA, h⟩ := h
        try simp only [] at h
        rw [optBindEqSome] at h
        obtain ⟨contF1, hCF1, h⟩ := h
        try simp only [] at h
        rw [optBindEqSome] at h
        obtain ⟨⟨contArgs, eCA⟩, hCA, h⟩ := h
        try simp only [] at h
        rw [optSomeBind] at h
        try simp only [] at h
        rw [optBindEqSome] at h
        obtain ⟨⟨bodyStruct, cS1, eS1⟩, hGS1, h⟩ := h
        try simp only [] at h
        rw [optBindEqSome] at h
        obtain ⟨contF2, hCF2, h⟩ := h
        try simp only [] at h
        rw [optBindEqSome] at h
        obtain ⟨⟨contStruct, cS2, eS2⟩, hGS2, h⟩ := h
        try simp only [] at h
        cases h
        simp only [hin, if_true]
        refine ⟨⟨bodyStruct, contStruct, ?_⟩, ?_, ?_⟩
        · exact ctxAdd_mono _ (ctxAdd_mono _ (ctxAdd_mono _ (ctxAdd_mono _
            (ctxAdd_mem _ _))))
        · intro h1
          refine ⟨⟨cB.varId + 1, ?_, ?_⟩, ⟨bodyArgs, _, _, hBA, ?_⟩,
            ⟨contF1, contArgs, _, _, hCF1, hCA, ?_⟩⟩
          · refine ctxAdd_mono _ (ctxAdd_mono _ (ctxAdd_mono _ (ctxAdd_mono _
              (ctxAdd_mono _ (getArgStruct_mono hGS2 (getArgStruct_mono hGS1
                (ctxAdd_mono _ (ctxAdd_mono _ (ctxAdd_mono _ (ctxAdd_mono _
                  (ctxAddAll_mem ?_)))))))))))
            simp only [List.mem_cons]
            exact Or.inl rfl
          · refine ctxAdd_mono _ (ctxAdd_mono _ (ctxAdd_mono _ (ctxAdd_mono _
              (ctxAdd_mono _ (getArgStruct_mono hGS2 (getArgStruct_mono hGS1
                (ctxAdd_mono _ (ctxAdd_mono _ (ctxAdd_mono _ (ctxAdd_mono _
                  (ctxAddAll_mem ?_)))))))))))
            simp only [List.mem_cons]
            exact Or.inr (Or.inl rfl)
          · exact ctxAdd_mono _ (ctxAdd_mono _ (ctxAdd_mono _ (ctxAdd_mono _
              (ctxAdd_mono _ (getArgStruct_mono hGS2 (getArgStruct_mono hGS1
                (ctxAdd_mono _ (ctxAdd_mono _ (ctxAdd_mono _ (ctxAdd_mem _ _))))))))))
          · exact ctxAdd_mono _ (ctxAdd_mono _ (ctxAdd_mono _ (ctxAdd_mono _
              (ctxAdd_mono _ (getArgStruct_mono hGS2 (getArgStruct_mono hGS1
                (ctxAdd_mono _ (ctxAdd_mono _ (ctxAdd_mem _ _)))))))))
        · intro h2
          first
          | exact h2.elim
          | simp at h2
      · rw [if_neg hin] at h
        rw [optSomeBind] at h
        try simp only [] at h
        rw [optBindEqSome] at h
        obtain ⟨⟨bodyStruct, cS1, eS1⟩, hGS1, h⟩ := h
        try simp only [] at h
        rw [optBindEqSome] at h
        obtain ⟨contF2, hCF2, h⟩ := h
        try simp only [] at h
        rw [optBindEqSome] at h
        obtain ⟨⟨contStruct, cS2, eS2⟩, hGS2, h⟩ := h
        try simp only [] at h
        cases h
        simp only [Bool.not_eq_true] at hin
        simp only [hin, Bool.false_eq_true, if_false]
        refine ⟨⟨bodyStruct, contStruct, ?_⟩, ?_, ?_⟩
        · exact ctxAdd_mono _ (ctxAdd_mono _ (ctxAdd_mono _ (ctxAdd_mono _
            (ctxAdd_mem _ _))))
        · intro h1
          first
          | exact h1.elim
          | simp at h1
        · intro h2
          exact ctxAdd_mono _ (ctxAdd_mono _ (ctxAdd_mono _ (ctxAdd_mono _
            (ctxAdd_mono _ (getArgStruct_mono hGS2 (getArgStruct_mono hGS1
              (ctxAdd_mono _ (ctxAdd_mem _ _))))))))

theorem C8_wrapper_grain_witness :
    (∃ body cont : String,
      ("call void @pl_start_loop(%work_t* %cur.work, i8* " ++ body ++
        ", i8* " ++ cont ++ ", void (%work_t*)* @f" ++
        toString bodyFunc1.id ++
        "_par, void (%work_t*)* @f" ++ toString fringePf.cont ++
        "_par, i64 0, i64 " ++ "%t.t0" ++ ", i32 " ++
        toString (if fringePf.innermost = true then (4096 : Nat) else 1) ++
        ")") ∈ c8Ctx.code) ∧
    (fringePf.innermost = true →
      (∃ m : Nat,
        ("%t.t" ++ toString m ++ " = icmp ule i64 " ++ "%t.t0" ++
          ", 4096") ∈ c8Ctx.code ∧
        ("br i1 " ++ ("%t.t" ++ toString m) ++
          ", label %for.ser, label %for.par") ∈ c8Ctx.code) ∧
      (∃ bodyArgs eA eB,
        getArgStr 20 bodyFunc1.params "" eA = some (bodyArgs, eB) ∧
        ("call void @f" ++ toString bodyFunc1.id ++ "(" ++
          (bodyArgs ++ ", i64 0, i64 " ++ "%t.t0") ++ ")") ∈ c8Ctx.code) ∧
      (∃ contF contArgs eC eD, fringeSir.funcs[fringePf.cont]? = some contF ∧
        getArgStr 20 contF.params "" eC = some (contArgs, eD) ∧
        ("call void @f" ++ toString fringePf.cont ++ "(" ++ contArgs ++
          ")") ∈ c8Ctx.code)) ∧
    (fringePf.innermost = false → ("br label %for.par") ∈ c8Ctx.code) :=
  @C8_wrapper_grain 20 fringeSir bodyFunc1 fringePf initTypeEnv c8Str c8Ctx
    c8Env (by rfl)

theorem optBindNone {α β : Type} {x : Option α} {f : α → Option β}
    (h : ∀ a, f a = none) : (x >>= f) = none := by
  cases x
  · rfl
  · exact h _

theorem loopIterLoop_none {fuel : Nat} {pf : ParallelForData}
    {func : SirFunction} {elemTy : Ty} {elemTyStr idxTmp : String} :
    ∀ (lst : List (Nat × Iter)),
      (∃ p ∈ lst, p.2.kind = IterKind.simdIter ∧ p.2.start.isSome = true) →
      ∀ (prevRef : String) (c : Ctx) (e : TypeEnv),
        loopIterLoop fuel pf func elemTy elemTyStr idxTmp lst prevRef c e =
          none
  | [], hbad => by
    obtain ⟨p, hp, h⟩ := hbad
    cases hp
  | (i, iter) :: rest, hbad => by
    intro prevRef c e
    obtain ⟨p, hp, hprop⟩ := hbad
    simp only [loopIterLoop]
    rcases List.mem_cons.mp hp with heq | hmem
    · subst heq
      repeat'
        first
        | exact optNoneBind _
        | rfl
        | (rw [if_pos hprop.2, if_pos hprop.1]
           first
           | exact optNoneBind _
           | rfl)
        | (apply optBindNone
           intro x
           try simp only [])
        | split
    · repeat'
        first
        | exact loopIterLoop_none rest ⟨p, hmem, hprop⟩ _ _ _
        | exact optNoneBind _
        | rfl
        | (apply optBindNone
           intro x
           try simp only [])
        | split


theorem genLoopHead_none {fuel : Nat} {pf : ParallelForData}
    {func : SirFunction}
    (hbad : ∃ it ∈ pf.data,
      it.kind = IterKind.simdIter ∧ it.start.isSome = true) :
    ∀ (c : Ctx) (e : TypeEnv), genLoopHead fuel pf func c e = none := by
  intro c e
  have henum : ∃ p ∈ pf.data.enum,
      p.2.kind = IterKind.simdIter ∧ p.2.start.isSome = true := by
    obtain ⟨it, hit, hprop⟩ := hbad
    rw [← List.enum_map_snd pf.data] at hit
    obtain ⟨q, hq, rfl⟩ := List.mem_map.mp hit
    exact ⟨q, hq, hprop⟩
  simp only [genLoopHead]
  repeat'
    first
    | exact optNoneBind _
    | rfl
    | (rw [loopIterLoop_none pf.data.enum henum]
       first
       | exact optNoneBind _
       | rfl)
    | (rw [optSomeBind]
       try simp only [])
    | (apply optBindNone
       intro x
       try simp only [])
    | split

theorem genWrapperCtx_none {fuel : Nat} {sir : SirProgram}
    {func : SirFunction} {pf : ParallelForData} {it : Iter}
    (hfi : pf.data[0]? = some it)
    (hk : it.kind = IterKind.fringeIter)
    (hs : it.start.isSome = true) :
    ∀ (e : TypeEnv), genWrapperCtx fuel sir func pf e = none := by
  intro e
  have hnA : ¬(it.kind = IterKind.simdIter ∨
      it.kind = IterKind.scalarIter) := by
    simp [hk]
  simp only [genWrapperCtx]
  rw [hfi]
  repeat'
    first
    | exact optNoneBind _
    | rfl
    | (rw [if_neg hnA, if_pos hs]
       first
       | exact optNoneBind _
       | rfl)
    | (rw [optSomeBind]
       try simp only [])
    | (apply optBindNone
       intro x
       try simp only [])
    | split

theorem genWrapper_none {fuel : Nat} {sir : SirProgram}
    {func : SirFunction} {pf : ParallelForData} {it : Iter}
    (hfi : pf.data[0]? = some it)
    (hk : it.kind = IterKind.fringeIter)
    (hs : it.start.isSome = true) :
    ∀ (e : TypeEnv), genWrapper fuel sir func pf e = none := by
  intro e
  simp only [genWrapper]
  rw [genWrapperCtx_none hfi hk hs]
  exact optNoneBind _

/-- C9 (amended): lowering a ParallelFor fails (`add_function` returns an
error) whenever any of its iterators is a SIMD iterator with explicit
bounds, or its first iterator is a Fringe iterator with an explicit
start.  A Fringe iterator with explicit start in a non-first position is
accepted (see `C9_fringe_start_counterexample`), so the original claim
over every Fringe iterator is too strong. -/
theorem C9_invalid_iterators (fuel : Nat) (sir : SirProgram) (fid : Nat)
    (pf : ParallelForData) (g : Gen) (func : SirFunction)
    (hlook : sir.funcs[fid]? = some func)
    (hfresh : func.id ∉ g.visited)
    (hbad : (∃ it ∈ pf.data,
        it.kind = IterKind.simdIter ∧ it.start.isSome = true) ∨
      (∃ it, pf.data[0]? = some it ∧ it.kind = IterKind.fringeIter ∧
        it.start.isSome = true)) :
    addFunction fuel sir fid (some pf) g = none := by
  cases fuel with
  | zero => rfl
  | succ fuel =>
    unfold addFunction
    rw [hlook, optSomeBind, if_neg hfresh]
    rcases hbad with hbadA | ⟨it, hfi, hk, hs⟩
    · repeat'
        first
        | exact optNoneBind _
        | rfl
        | (rw [genLoopHead_none hbadA]
           first
           | exact optNoneBind _
           | rfl)
        | (rw [optSomeBind]
           try simp only [])
        | (apply optBindNone
           intro x
           try simp only [])
        | split
    · have hnS : ¬(it.kind = IterKind.simdIter) := by simp [hk]
      repeat'
        first
        | exact optNoneBind _
        | rfl
        | (rw [genWrapper_none hfi hk hs]
           first
           | exact optNoneBind _
           | rfl)
        | (rw [hfi]
           try simp only [])
        | (rw [if_neg hnS]
           try simp only [])
        | (rw [optSomeBind]
           try simp only [])
        | (apply optBindNone
           intro x
           try simp only [])
        | split

theorem C9_fringe_start_counterexample :
    (∃ it ∈ fringePf.data,
      it.kind = IterKind.fringeIter ∧ it.start.isSome = true) ∧
    (addFunction 20 fringeSir 1 (some fringePf) initGen).isSome = true :=
  ⟨by decide, by rfl⟩

theorem C9_invalid_iterators_witness :
    addFunction 20 fringeSir 1 (some c9BadPf) initGen = none :=
  C9_invalid_iterators 20 fringeSir 1 c9BadPf initGen bodyFunc1 (by rfl)
    (by decide) (Or.inl (by decide))

/-- C10: `gen_result` on a Merger builder returns a compile-time error
whenever the merger element type is not a Scalar (the SIMD phase of the
merger result template only exists for scalar elements), while a
`Merge` statement into the same struct-element merger lowers
successfully. -/
theorem C10_merger_result_scalar_only (fuel : Nat) (t : Ty) (op : BinOpKind)
    (builder output : Sym) (func : SirFunction) (c : Ctx) (e : TypeEnv)
    (hns : ∀ k, t ≠ Ty.scalar k) :
    genResult fuel (Ty.bldMerger t op) builder output func c e = none ∧
    (genMerge 20 (Ty.bldMerger structI32x2 .add) mSym vSym mergerFunc
      ⟨[], [], [], 0⟩ initTypeEnv).isSome = true := by
  refine ⟨?_, by rfl⟩
  simp only [genResult]
  repeat'
    first
    | exact optNoneBind _
    | rfl
    | (rw [optSomeBind]
       try simp only [])
    | (apply optBindNone
       intro x
       try simp only [])
    | split
  all_goals (exact absurd (by assumption) (hns _))

theorem C10_merger_result_scalar_only_witness :
    genResult 20 (Ty.bldMerger structI32x2 .add) mSym oSym mergerFunc
      ⟨[], [], [], 0⟩ initTypeEnv = none ∧
    (genMerge 20 (Ty.bldMerger structI32x2 .add) mSym vSym mergerFunc
      ⟨[], [], [], 0⟩ initTypeEnv).isSome = true :=
  C10_merger_result_scalar_only 20 structI32x2 .add mSym oSym mergerFunc
    ⟨[], [], [], 0⟩ initTypeEnv (fun k h => by simp [structI32x2] at h)

end Weld
